import Mathlib

/-!
# Verification of the Weld AST → SIR lowering (src/weld/sir.rs)

This file gives a shallow embedding of the Sequential IR (SIR) data model,
the expression-lowering engine (gen_expr / ast_to_sir) and the
closure/parameter-correction pass (sir_param_correction) of src/weld/sir.rs,
and proves properties of that embedding.

The typed AST (ast.rs), the fresh-symbol service (util.rs) and the debug
renderer (pretty_print.rs) are collaborators that are not part of the
sources; they are modelled from the specification where indicated.
-/

namespace Weld

/-- Modelled from the spec: a globally-unique (name, disambiguating id) pair
(ast.rs Symbol, not under src/). -/
structure Symbol where
  name : String
  id : Nat
  deriving DecidableEq, Repr

/-- Modelled from the spec: the type representation attached to every AST node
(ast.rs Type, not under src/).  Lowering only threads types around, so a small
representative closed set suffices. -/
inductive WType where
  | i32
  | boolTy
  | vec (elem : WType)
  | bld (elem : WType)
  deriving DecidableEq, Repr

/-- Modelled from the spec: literal values (ast.rs LiteralKind, not under src/). -/
inductive LiteralKind where
  | I32Literal (v : Int)
  | BoolLiteral (b : Bool)
  deriving DecidableEq, Repr

/-- Modelled from the spec: binary operators (ast.rs BinOpKind, not under src/). -/
inductive BinOpKind where
  | Add
  | Subtract
  | Multiply
  | LessThan
  deriving DecidableEq, Repr

/-- Modelled from the spec: a typed lambda parameter (ast.rs TypedParameter,
not under src/). -/
structure TypedParameter where
  name : Symbol
  ty : WType
  deriving DecidableEq, Repr

/-- Modelled from the spec: the typed expression tree (ast.rs TypedExpr, not
under src/).  Each node carries its resolved type.  The iterator list of a
For loop is represented by exactly what the lowering engine observes of it:
the number of iterators, the first iterator's data expression, and whether
the first iterator has a custom start/end/stride.  OtherKind stands for the
expression kinds outside the handled set. -/
inductive TExpr where
  | Ident (ty : WType) (sym : Symbol)
  | Literal (ty : WType) (lit : LiteralKind)
  | LetE (ty : WType) (name : Symbol) (value : TExpr) (body : TExpr)
  | BinOp (ty : WType) (kind : BinOpKind) (left : TExpr) (right : TExpr)
  | If (ty : WType) (cond : TExpr) (on_true : TExpr) (on_false : TExpr)
  | Merge (ty : WType) (builder : TExpr) (value : TExpr)
  | Res (ty : WType) (builder : TExpr)
  | NewBuilder (ty : WType)
  | ForE (ty : WType) (nIters : Nat) (data : TExpr)
      (hasStart hasEnd hasStride : Bool) (builder : TExpr) (func : TExpr)
  | Lambda (ty : WType) (params : List TypedParameter) (body : TExpr)
  | OtherKind (ty : WType) (descr : String)
  deriving DecidableEq, Repr

/-- The resolved type attached to an expression node (Expr.ty in ast.rs). -/
def TExpr.ty : TExpr → WType
  | .Ident t _ => t
  | .Literal t _ => t
  | .LetE t _ _ _ => t
  | .BinOp t _ _ _ => t
  | .If t _ _ _ => t
  | .Merge t _ _ => t
  | .Res t _ => t
  | .NewBuilder t => t
  | .ForE t _ _ _ _ _ _ _ => t
  | .Lambda t _ _ => t
  | .OtherKind t _ => t

/-- Modelled from the spec: the debug renderer print_expr (pretty_print.rs,
not under src/); only its presence inside error messages matters here. -/
def print_expr : TExpr → String
  | .Ident _ s => s.name
  | .Literal _ _ => "literal"
  | .LetE _ _ _ _ => "let"
  | .BinOp _ _ _ _ => "binop"
  | .If _ _ _ _ => "if"
  | .Merge _ _ _ => "merge"
  | .Res _ _ => "result"
  | .NewBuilder _ => "newbuilder"
  | .ForE _ _ _ _ _ _ _ _ => "for"
  | .Lambda _ _ _ => "lambda"
  | .OtherKind _ d => d

/-- Modelled from the spec: the fresh-symbol service (util.rs
SymbolGenerator, not under src/).  It stores, per name, the next unused id,
so minted symbols never collide with symbols recorded during seeding. -/
structure SymbolGenerator where
  id_map : List (String × Nat)
  deriving DecidableEq, Repr

/-- Modelled from the spec: SymbolGenerator::new yields an unseeded generator. -/
def SymbolGenerator.new : SymbolGenerator := ⟨[]⟩

/-- Modelled from the spec: mint a fresh symbol with the given name. -/
def SymbolGenerator.new_symbol (g : SymbolGenerator) (name : String) :
    SymbolGenerator × Symbol :=
  let next := ((g.id_map.find? (fun kv => kv.1 = name)).map (·.2)).getD 0
  (⟨(name, next + 1) :: g.id_map.filter (fun kv => ¬ kv.1 = name)⟩, ⟨name, next⟩)

/-- Record one already-used symbol while seeding a generator. -/
def SymbolGenerator.record (g : SymbolGenerator) (s : Symbol) : SymbolGenerator :=
  let next := ((g.id_map.find? (fun kv => kv.1 = s.name)).map (·.2)).getD 0
  ⟨(s.name, max next (s.id + 1)) :: g.id_map.filter (fun kv => ¬ kv.1 = s.name)⟩

/-- All symbols bound or referenced in an expression tree. -/
def TExpr.symbols : TExpr → List Symbol
  | .Ident _ s => [s]
  | .Literal _ _ => []
  | .LetE _ n v b => n :: (v.symbols ++ b.symbols)
  | .BinOp _ _ l r => l.symbols ++ r.symbols
  | .If _ c t f => c.symbols ++ (t.symbols ++ f.symbols)
  | .Merge _ b v => b.symbols ++ v.symbols
  | .Res _ b => b.symbols
  | .NewBuilder _ => []
  | .ForE _ _ d _ _ _ b f => d.symbols ++ (b.symbols ++ f.symbols)
  | .Lambda _ ps b => ps.map (·.name) ++ b.symbols
  | .OtherKind _ _ => []

/-- Modelled from the spec: SymbolGenerator::from_expression seeds a
generator from the tree's already-used symbols so no collision is possible. -/
def SymbolGenerator.from_expression (e : TExpr) : SymbolGenerator :=
  e.symbols.foldl SymbolGenerator.record SymbolGenerator.new

/-- Symbol-to-type mapping (the Rust HashMap<Symbol, Type>), as an
association list without duplicate keys. -/
abbrev SymMap := List (Symbol × WType)

/-- Symbol set (the Rust HashSet<Symbol>), as a duplicate-free list. -/
abbrev SymSet := List Symbol

/-- HashMap::get. -/
def mapGet (m : SymMap) (k : Symbol) : Option WType :=
  (m.find? (fun kv => kv.1 = k)).map (·.2)

/-- HashMap::insert: overwrite the value when the key is present, otherwise
add the binding. -/
def mapInsert (m : SymMap) (k : Symbol) (v : WType) : SymMap :=
  if m.any (fun kv => kv.1 = k) then
    m.map (fun kv => if kv.1 = k then (k, v) else kv)
  else m ++ [(k, v)]

/-- Key membership in a symbol-to-type mapping. -/
def mapMem (m : SymMap) (k : Symbol) : Bool :=
  m.any (fun kv => kv.1 = k)

/-- HashSet::insert. -/
def setInsert (s : SymSet) (k : Symbol) : SymSet :=
  if k ∈ s then s else s ++ [k]

/-- A non-terminating statement inside a basic block (sir.rs Statement). -/
inductive Statement where
  | AssignBinOp (output : Symbol) (op : BinOpKind) (ty : WType)
      (left : Symbol) (right : Symbol)
  | Assign (output : Symbol) (value : Symbol)
  | AssignLiteral (output : Symbol) (value : LiteralKind)
  | DoMerge (builder : Symbol) (value : Symbol)
  | GetResult (output : Symbol) (builder : Symbol)
  | CreateBuilder (output : Symbol) (ty : WType)
  deriving DecidableEq, Repr

/-- sir.rs ParallelForData. -/
structure ParallelForData where
  data : Symbol
  builder : Symbol
  data_arg : Symbol
  builder_arg : Symbol
  body : Nat
  cont : Nat
  deriving DecidableEq, Repr

/-- A terminating statement inside a basic block (sir.rs Terminator). -/
inductive Terminator where
  | Branch (cond : Symbol) (on_true : Nat) (on_false : Nat)
  | JumpBlock (block : Nat)
  | JumpFunction (func : Nat)
  | ProgramReturn (sym : Symbol)
  | EndFunction
  | ParallelFor (pf : ParallelForData)
  | Crash
  deriving DecidableEq, Repr

/-- A basic block inside a SIR program (sir.rs BasicBlock). -/
structure BasicBlock where
  id : Nat
  statements : List Statement
  terminator : Terminator
  deriving DecidableEq, Repr

/-- sir.rs SirFunction. -/
structure SirFunction where
  id : Nat
  params : SymMap
  locals : SymMap
  blocks : List BasicBlock
  deriving DecidableEq, Repr

/-- sir.rs SirProgram; funcs[0] is the main function. -/
structure SirProgram where
  funcs : List SirFunction
  ret_ty : WType
  top_params : List TypedParameter
  sym_gen : SymbolGenerator
  deriving DecidableEq, Repr

instance : Inhabited SirFunction := ⟨⟨0, [], [], []⟩⟩

instance : Inhabited BasicBlock := ⟨⟨0, [], .Crash⟩⟩

instance : Inhabited SirProgram := ⟨⟨[], .i32, [], SymbolGenerator.new⟩⟩

/-- Replace the i-th element of a list by applying g (identity out of range). -/
def listModify (l : List α) (i : Nat) (g : α → α) : List α :=
  match l, i with
  | [], _ => []
  | a :: as_, 0 => g a :: as_
  | a :: as_, n + 1 => a :: listModify as_ n g

/-- prog.funcs[f]. -/
def funcGet (p : SirProgram) (f : Nat) : SirFunction := p.funcs.getD f default

/-- prog.funcs[f].blocks[b]. -/
def blockGet (p : SirProgram) (f : Nat) (b : Nat) : BasicBlock :=
  (funcGet p f).blocks.getD b default

/-- Apply g to funcs[f] in place (the Rust in-place mutation of one function). -/
def progModify (p : SirProgram) (f : Nat) (g : SirFunction → SirFunction) :
    SirProgram :=
  { p with funcs := listModify p.funcs f g }

/-- SirProgram::add_func: append an empty function, return its id. -/
def SirProgram.add_func (p : SirProgram) : SirProgram × Nat :=
  ({ p with funcs := p.funcs ++ [⟨p.funcs.length, [], [], []⟩] }, p.funcs.length)

/-- SirProgram::add_local: mint a fresh fnN_tmp symbol and register it as a
local of the given function. -/
def SirProgram.add_local (p : SirProgram) (ty : WType) (func : Nat) :
    SirProgram × Symbol :=
  let gs := p.sym_gen.new_symbol ("fn" ++ toString func ++ "_tmp")
  ({ progModify p func
      (fun fn => { fn with locals := mapInsert fn.locals gs.2 ty }) with
    sym_gen := gs.1 }, gs.2)

/-- SirProgram::add_local_named: register a caller-supplied symbol as a local. -/
def SirProgram.add_local_named (p : SirProgram) (ty : WType) (sym : Symbol)
    (func : Nat) : SirProgram :=
  progModify p func (fun fn => { fn with locals := mapInsert fn.locals sym ty })

/-- SirFunction::add_block, lifted to the program (prog.funcs[f].add_block()):
append a block with the Crash placeholder terminator, return its id. -/
def SirProgram.addBlockIn (p : SirProgram) (func : Nat) : SirProgram × Nat :=
  (progModify p func
      (fun fn => { fn with blocks := fn.blocks ++ [⟨fn.blocks.length, [], .Crash⟩] }),
    (funcGet p func).blocks.length)

/-- prog.funcs[f].blocks[b].add_statement(s). -/
def SirProgram.add_statement (p : SirProgram) (func : Nat) (block : Nat)
    (s : Statement) : SirProgram :=
  progModify p func
    (fun fn => { fn with blocks := (listModify fn.blocks block
      (fun bb => { bb with statements := bb.statements ++ [s] })) })

/-- prog.funcs[f].blocks[b].terminator = t. -/
def SirProgram.setTerminator (p : SirProgram) (func : Nat) (block : Nat)
    (t : Terminator) : SirProgram :=
  progModify p func
    (fun fn => { fn with blocks := (listModify fn.blocks block
      (fun bb => { bb with terminator := t })) })

/-- prog.funcs[f].params.insert(sym, ty). -/
def SirProgram.insertParam (p : SirProgram) (func : Nat) (sym : Symbol)
    (ty : WType) : SirProgram :=
  progModify p func (fun fn => { fn with params := mapInsert fn.params sym ty })

/-- SirProgram::new: program with the given return type and top-level
parameters, holding one empty main function. -/
def SirProgram.new (ret_ty : WType) (top_params : List TypedParameter) :
    SirProgram :=
  (SirProgram.add_func ⟨[], ret_ty, top_params, SymbolGenerator.new⟩).1

/-- Default parameter used to model the Rust params[0]/params[1] indexing on
a loop lambda (out-of-range indexing, a Rust panic on malformed lambdas, is
not modelled: no claim concerns lambdas with fewer than two parameters). -/
def dfltParam : TypedParameter := ⟨⟨"", 0⟩, .i32⟩

/-- sir.rs gen_expr: generate code computing expr at the current tail of
cur_block of cur_func, possibly creating new blocks and functions; return
the function and block the value is ready in, and its symbol therein. -/
def gen_expr (expr : TExpr) (prog : SirProgram) (cur_func : Nat)
    (cur_block : Nat) : Except String (SirProgram × Nat × Nat × Symbol) :=
  match expr with
  | .Ident _ sym => .ok (prog, cur_func, cur_block, sym)
  | .Literal ty lit =>
      let pr := prog.add_local ty cur_func
      .ok (pr.1.add_statement cur_func cur_block (.AssignLiteral pr.2 lit),
        cur_func, cur_block, pr.2)
  | .LetE _ name value body =>
      match gen_expr value prog cur_func cur_block with
      | .error e => .error e
      | .ok (prog1, cf, cb, val_sym) =>
        let prog2 := prog1.add_local_named value.ty name cf
        let prog3 := prog2.add_statement cf cb (.Assign name val_sym)
        gen_expr body prog3 cf cb
  | .BinOp ty kind left right =>
      match gen_expr left prog cur_func cur_block with
      | .error e => .error e
      | .ok (prog1, cf, cb, left_sym) =>
        match gen_expr right prog1 cf cb with
        | .error e => .error e
        | .ok (prog2, cf', cb', right_sym) =>
          let pr := prog2.add_local ty cf'
          .ok (pr.1.add_statement cf' cb'
              (.AssignBinOp pr.2 kind left.ty left_sym right_sym),
            cf', cb', pr.2)
  | .If ty cond on_true on_false =>
      match gen_expr cond prog cur_func cur_block with
      | .error e => .error e
      | .ok (prog1, cf, cb, cond_sym) =>
        let prT := prog1.addBlockIn cf
        let prF := prT.1.addBlockIn cf
        let true_block := prT.2
        let false_block := prF.2
        let prog2 := prF.1.setTerminator cf cb
          (.Branch cond_sym true_block false_block)
        match gen_expr on_true prog2 cf true_block with
        | .error e => .error e
        | .ok (prog3, true_func, tb, true_sym) =>
          match gen_expr on_false prog3 cf false_block with
          | .error e => .error e
          | .ok (prog4, false_func, fb, false_sym) =>
            let prR := prog4.add_local ty true_func
            let res_sym := prR.2
            let prog5 := prR.1.add_statement true_func tb (.Assign res_sym true_sym)
            let prog6 := prog5.add_statement false_func fb (.Assign res_sym false_sym)
            if true_func ≠ cf ∨ false_func ≠ cf then
              let prog7 := prog6.add_local_named ty res_sym false_func
              let prC := prog7.add_func
              let cont_func := prC.2
              let prB := prC.1.addBlockIn cont_func
              let cont_block := prB.2
              let prog8 := prB.1.setTerminator true_func tb (.JumpFunction cont_func)
              let prog9 := prog8.setTerminator false_func fb (.JumpFunction cont_func)
              .ok (prog9, cont_func, cont_block, res_sym)
            else
              let prB := prog6.addBlockIn cf
              let cont_block := prB.2
              let prog7 := prB.1.setTerminator true_func tb (.JumpBlock cont_block)
              let prog8 := prog7.setTerminator false_func fb (.JumpBlock cont_block)
              .ok (prog8, cf, cont_block, res_sym)
  | .Merge _ builder value =>
      match gen_expr builder prog cur_func cur_block with
      | .error e => .error e
      | .ok (prog1, cf, cb, builder_sym) =>
        match gen_expr value prog1 cf cb with
        | .error e => .error e
        | .ok (prog2, cf', cb', elem_sym) =>
          .ok (prog2.add_statement cf' cb' (.DoMerge builder_sym elem_sym),
            cf', cb', builder_sym)
  | .Res ty builder =>
      match gen_expr builder prog cur_func cur_block with
      | .error e => .error e
      | .ok (prog1, cf, cb, builder_sym) =>
        let pr := prog1.add_local ty cf
        .ok (pr.1.add_statement cf cb (.GetResult pr.2 builder_sym), cf, cb, pr.2)
  | .NewBuilder ty =>
      let pr := prog.add_local ty cur_func
      .ok (pr.1.add_statement cur_func cur_block (.CreateBuilder pr.2 ty),
        cur_func, cur_block, pr.2)
  | .ForE _ nIters data hasStart hasEnd hasStride builder func =>
      if nIters ≠ 1 ∨ hasStart ∨ hasEnd ∨ hasStride then
        .error "Only single-array loops with null start/end/stride currently supported"
      else
        match func with
        | .Lambda _ ps body =>
          match gen_expr data prog cur_func cur_block with
          | .error e => .error e
          | .ok (prog1, cf, cb, data_sym) =>
            match gen_expr builder prog1 cf cb with
            | .error e => .error e
            | .ok (prog2, cf', cb', builder_sym) =>
              let prBF := prog2.add_func
              let body_func := prBF.2
              let prBB := prBF.1.addBlockIn body_func
              let body_block := prBB.2
              let prog3 := prBB.1.add_local_named (ps.getD 0 dfltParam).ty
                (ps.getD 0 dfltParam).name body_func
              let prog4 := prog3.add_local_named (ps.getD 1 dfltParam).ty
                (ps.getD 1 dfltParam).name body_func
              let prog5 := prog4.insertParam body_func data_sym data.ty
              let prog6 := prog5.insertParam body_func builder_sym builder.ty
              match gen_expr body prog6 body_func body_block with
              | .error e => .error e
              | .ok (prog7, body_end_func, body_end_block, _) =>
                let prog8 := prog7.setTerminator body_end_func body_end_block .EndFunction
                let prCF := prog8.add_func
                let cont_func := prCF.2
                let prCB := prCF.1.addBlockIn cont_func
                let cont_block := prCB.2
                let prog9 := prCB.1.setTerminator cf' cb'
                  (.ParallelFor ⟨data_sym, builder_sym, (ps.getD 1 dfltParam).name,
                    (ps.getD 0 dfltParam).name, body_func, cont_func⟩)
                .ok (prog9, cont_func, cont_block, builder_sym)
        | _ => .error ("Argument to For was not a Lambda: " ++ print_expr func)
  | .Lambda _ _ _ => .error ("Unsupported expression: " ++ print_expr expr)
  | .OtherKind _ _ => .error ("Unsupported expression: " ++ print_expr expr)

/-- The symbols a statement reads, in the order the correction pass collects
them (sir_param_correction_helper, the vars vector). -/
def readVars (stmts : List Statement) : List Symbol :=
  stmts.flatMap (fun s =>
    match s with
    | .AssignBinOp _ _ _ l r => [l, r]
    | .Assign _ v => [v]
    | .DoMerge b e => [b, e]
    | .GetResult _ v => [v]
    | _ => [])

/-- How the correction pass can abort: a panicked unwrap of an environment
lookup, or (an artifact of the embedding) exhaustion of the recursion-depth
fuel.  The generated call graph only ever jumps to functions with strictly
larger ids, so a fuel of funcs.length never runs out on generated programs. -/
inductive CorrStop where
  | panicked
  | outOfFuel
  deriving DecidableEq, Repr

/-- One promotion loop of sir_param_correction_helper: for each var (in
order), if it is not a local of func fid, insert it into fid's params at the
type looked up in env (a panicked unwrap when env has no entry) and record
it in the closure set. -/
def corrPromoteList (fid : Nat) : List Symbol → SirProgram → SymMap → SymSet →
    Except CorrStop (SirProgram × SymSet)
  | [], p, _, cl => .ok (p, cl)
  | v :: vs, p, env, cl =>
      if mapGet (funcGet p fid).locals v = none then
        match mapGet env v with
        | none => .error .panicked
        | some ty =>
            corrPromoteList fid vs (p.insertParam fid v ty) env (setInsert cl v)
      else corrPromoteList fid vs p env cl

mutual

/-- sir.rs sir_param_correction_helper: thread env (symbol-to-type mappings
seen so far) through a depth-first traversal from func fid, promoting free
variables to parameters and accumulating the closure set. -/
def sir_param_correction_helper : Nat → SirProgram → Nat → SymMap → SymSet →
    Except CorrStop (SirProgram × SymMap × SymSet)
  | 0, _, _, _, _ => .error .outOfFuel
  | fuel + 1, p, fid, env, closure =>
      let env1 := (funcGet p fid).params.foldl (fun e kv => mapInsert e kv.1 kv.2) env
      let env2 := (funcGet p fid).locals.foldl (fun e kv => mapInsert e kv.1 kv.2) env1
      corrBlocks fuel fid ((funcGet p fid).blocks) p env2 closure

/-- The per-block body of sir_param_correction_helper's loop over
funcs[fid].blocks.clone(): promote the block's statement reads, recurse into
the functions its terminator references, then promote the inner closure. -/
def corrBlocks : Nat → Nat → List BasicBlock → SirProgram → SymMap → SymSet →
    Except CorrStop (SirProgram × SymMap × SymSet)
  | 0, _, _, _, _, _ => .error .outOfFuel
  | _ + 1, _, [], p, env, cl => .ok (p, env, cl)
  | fuel + 1, fid, blk :: blks, p, env, cl =>
      match corrPromoteList fid (readVars blk.statements) p env cl with
      | .error s => .error s
      | .ok (p1, cl1) =>
        let inner : Except CorrStop (SirProgram × SymMap × SymSet) :=
          match blk.terminator with
          | .ParallelFor pf =>
              match sir_param_correction_helper fuel p1 pf.body env [] with
              | .error s => .error s
              | .ok (p2, env2, innerCl) =>
                  sir_param_correction_helper fuel p2 pf.cont env2 innerCl
          | .JumpFunction jf => sir_param_correction_helper fuel p1 jf env []
          | _ => .ok (p1, env, [])
        match inner with
        | .error s => .error s
        | .ok (p3, env3, innerCl) =>
          match corrPromoteList fid innerCl p3 env3 cl1 with
          | .error s => .error s
          | .ok (p4, cl4) => corrBlocks fuel fid blks p4 env3 cl4
end

/-- A recursion-depth budget sufficient for every program whose terminator
edges reference strictly increasing function ids (every program the lowering
engine generates): along any call chain each function is entered at most
once, spending one step plus one step per block. -/
def corrFuel (p : SirProgram) : Nat :=
  1 + (p.funcs.map (fun f => f.blocks.length + 2)).sum

/-- The outcome of the correction pass. -/
inductive CorrResult where
  | panicked
  | outOfFuel
  | errored (msg : String)
  | ok (prog : SirProgram) (closure : SymSet)
  deriving DecidableEq, Repr

/-- sir.rs sir_param_correction: run the helper from function 0 with an empty
environment and closure, then fail with an Unbound-symbol error if some
closure symbol is not among function 0's parameters.  The computed closure of
function 0 is returned alongside the corrected program. -/
def sir_param_correction (prog : SirProgram) : CorrResult :=
  match sir_param_correction_helper (corrFuel prog) prog 0 [] [] with
  | .error .panicked => .panicked
  | .error .outOfFuel => .outOfFuel
  | .ok (p, _, closure) =>
      match closure.find? (fun n => (mapGet (funcGet p 0).params n).isNone) with
      | some n => .errored ("Unbound symbol " ++ n.name ++ "#" ++ toString n.id)
      | none => .ok p closure

/-- The generation phase of ast_to_sir: everything before the correction
pass (sir.rs ast_to_sir lines building the program and installing the
program-return terminator). -/
def genPhase (expr : TExpr) : Except String SirProgram :=
  match expr with
  | .Lambda ty params body =>
      let prog0 := SirProgram.new ty params
      let prog1 := { prog0 with sym_gen := SymbolGenerator.from_expression expr }
      let prog2 := params.foldl (fun p tp => p.insertParam 0 tp.name tp.ty) prog1
      let prFB := prog2.addBlockIn 0
      match gen_expr body prFB.1 0 prFB.2 with
      | .error e => .error e
      | .ok (prog3, rf, rb, rs) =>
          .ok (prog3.setTerminator rf rb (.ProgramReturn rs))
  | _ => .error "Expression passed to ast_to_sir was not a Lambda"

/-- The outcome of ast_to_sir. -/
inductive LowerResult where
  | panicked
  | outOfFuel
  | errored (msg : String)
  | ok (prog : SirProgram)
  deriving DecidableEq, Repr

/-- sir.rs ast_to_sir: require a lambda root, generate, then correct. -/
def ast_to_sir (expr : TExpr) : LowerResult :=
  match genPhase expr with
  | .error e => .errored e
  | .ok prog =>
      match sir_param_correction prog with
      | .panicked => .panicked
      | .outOfFuel => .outOfFuel
      | .errored m => .errored m
      | .ok p _ => .ok p

/-! ## The open-block invariant and the frame invariant of gen_expr -/

/-- Crash terminators may appear only at the block coordinates in S. -/
def OpenExcept (p : SirProgram) (S : Nat × Nat → Prop) : Prop :=
  ∀ f b, f < p.funcs.length → b < (funcGet p f).blocks.length →
    ¬ S (f, b) → (blockGet p f b).terminator ≠ .Crash

/-- The frame invariant of one successful gen_expr call from (cf, cb),
ending at (rf, rb). -/
structure GenFrame (p p' : SirProgram) (cf cb rf rb : Nat) : Prop where
  funcs_le : p.funcs.length ≤ p'.funcs.length
  rf_lt : rf < p'.funcs.length
  rb_lt : rb < (funcGet p' rf).blocks.length
  rf_eq_or_new : rf = cf ∨ p.funcs.length ≤ rf
  rb_eq_or_new : rf = cf → rb = cb ∨ (funcGet p cf).blocks.length ≤ rb
  frame_other : ∀ f, f < p.funcs.length → f ≠ cf → funcGet p' f = funcGet p f
  params_cf : (funcGet p' cf).params = (funcGet p cf).params
  locals_cf : ∀ s, mapMem (funcGet p cf).locals s = true →
    mapMem (funcGet p' cf).locals s = true
  blocks_cf_le : (funcGet p cf).blocks.length ≤ (funcGet p' cf).blocks.length
  frame_blocks_cf : ∀ b, b < (funcGet p cf).blocks.length → b ≠ cb →
    blockGet p' cf b = blockGet p cf b
  stmts_cb : ∃ ext, (blockGet p' cf cb).statements
    = (blockGet p cf cb).statements ++ ext
  open_transfer : ∀ S : Nat × Nat → Prop, S (cf, cb) → OpenExcept p S →
    OpenExcept p' (fun fb => (S fb ∧ fb ≠ (cf, cb)) ∨ fb = (rf, rb))

/-- Everything a lowering step must preserve about the state as it existed
before an enclosing gen_expr call started: the functions below L other than
cf, the params of cf, the locals of cf (monotonically), and the blocks of cf
below BL other than cb, whose statements may only be extended at cb. -/
structure Keep (q q' : SirProgram) (L cf cb BL : Nat) : Prop where
  fo : ∀ f, f < L → f ≠ cf → funcGet q' f = funcGet q f
  pc : (funcGet q' cf).params = (funcGet q cf).params
  lc : ∀ s, mapMem (funcGet q cf).locals s = true →
    mapMem (funcGet q' cf).locals s = true
  bl : (funcGet q cf).blocks.length ≤ (funcGet q' cf).blocks.length
  fb : ∀ b, b < BL → b ≠ cb → blockGet q' cf b = blockGet q cf b
  sc : ∃ ext, (blockGet q' cf cb).statements = (blockGet q cf cb).statements ++ ext

/-- The induction hypothesis of the master frame theorem, for one
subexpression. -/
def GenIH (e : TExpr) : Prop :=
  ∀ (p : SirProgram) (cf cb : Nat) (p' : SirProgram) (rf rb : Nat) (rs : Symbol),
    cf < p.funcs.length → cb < (funcGet p cf).blocks.length →
    gen_expr e p cf cb = .ok (p', rf, rb, rs) → GenFrame p p' cf cb rf rb

/-- What every step of the correction pass preserves: function count, every
function's blocks and locals, and (monotonically) every function's parameter
keys. -/
def CorrPres (p q : SirProgram) : Prop :=
  q.funcs.length = p.funcs.length ∧
  (∀ f, (funcGet q f).blocks = (funcGet p f).blocks) ∧
  (∀ f, (funcGet q f).locals = (funcGet p f).locals) ∧
  (∀ f v, mapMem (funcGet p f).params v = true →
    mapMem (funcGet q f).params v = true)

/-- Projection of a lowering outcome to its program (default when not ok). -/
def progOf : LowerResult → SirProgram
  | .ok p => p
  | _ => default

/-- Does the correction pass report the Unbound-symbol error? -/
def isErrored : CorrResult → Bool
  | .errored _ => true
  | _ => false

/-- Every block of every function carries a non-crash terminator. -/
def allTerminated (p : SirProgram) : Bool :=
  p.funcs.all (fun fn => fn.blocks.all (fun bb =>
    match bb.terminator with
    | .Crash => false
    | _ => true))

/-! ## Concrete programs used to settle the claims -/

/-- The program of a successful correction-phase result (default elsewhere). -/
def isOkL : LowerResult → Bool
  | .ok _ => true
  | _ => false

/-- The closure set the correction pass computes for the program the
generation phase builds from e (empty when either phase fails). -/
def lowerClosure (e : TExpr) : SymSet :=
  match genPhase e with
  | .error _ => []
  | .ok prog =>
      match sir_param_correction prog with
      | .ok _ cl => cl
      | _ => []

/-- The symbols a terminator reads (branch condition, program-return symbol,
parallel-for data and builder). -/
def termReads : Terminator → List Symbol
  | .Branch c _ _ => [c]
  | .ProgramReturn s => [s]
  | .ParallelFor pf => [pf.data, pf.builder]
  | _ => []

/-- Every symbol read by the function's statements and terminators is
present in the union of its own parameters and locals. -/
def funcReadsResolved (f : SirFunction) : Bool :=
  f.blocks.all (fun b =>
    (readVars b.statements).all
      (fun v => mapMem f.params v || mapMem f.locals v) &&
    (termReads b.terminator).all
      (fun v => mapMem f.params v || mapMem f.locals v))

/-- funcReadsResolved, over the whole program. -/
def allReadsResolved (p : SirProgram) : Bool :=
  p.funcs.all funcReadsResolved

/-- |x: i32| x + 1. -/
def ex1 : TExpr :=
  .Lambda .i32 [⟨⟨"x", 0⟩, .i32⟩]
    (.BinOp .i32 .Add (.Ident .i32 ⟨"x", 0⟩) (.Literal .i32 (.I32Literal 1)))

/-- |x: i32, v: vec i32| let y = x + x; let r = res(for(v, new, |b,e| merge(b,e)));
if x then r else r.  The loop splits the program, so the branch on x lands in
the continuation function (function 2), whose Branch terminator reads x. -/
def exE1 : TExpr :=
  .Lambda .i32 [⟨⟨"x", 0⟩, .i32⟩, ⟨⟨"v", 0⟩, .vec .i32⟩]
    (.LetE .i32 ⟨"y", 0⟩
      (.BinOp .i32 .Add (.Ident .i32 ⟨"x", 0⟩) (.Ident .i32 ⟨"x", 0⟩))
      (.LetE .i32 ⟨"r", 0⟩
        (.Res .i32
          (.ForE (.bld .i32) 1 (.Ident (.vec .i32) ⟨"v", 0⟩) false false false
            (.NewBuilder (.bld .i32))
            (.Lambda (.bld .i32)
              [⟨⟨"b", 0⟩, .bld .i32⟩, ⟨⟨"e", 0⟩, .i32⟩]
              (.Merge (.bld .i32) (.Ident (.bld .i32) ⟨"b", 0⟩)
                (.Ident .i32 ⟨"e", 0⟩)))))
        (.If .i32 (.Ident .i32 ⟨"x", 0⟩) (.Ident .i32 ⟨"r", 0⟩)
          (.Ident .i32 ⟨"r", 0⟩))))

/-- |v: vec i32| for(v, new, |b,e| merge(b, v)): the loop body reads the outer
parameter v, which the For lowering has already pre-wired as a parameter of
the body function. -/
def exE10 : TExpr :=
  .Lambda (.bld .i32) [⟨⟨"v", 0⟩, .vec .i32⟩]
    (.ForE (.bld .i32) 1 (.Ident (.vec .i32) ⟨"v", 0⟩) false false false
      (.NewBuilder (.bld .i32))
      (.Lambda (.bld .i32)
        [⟨⟨"b", 0⟩, .bld .i32⟩, ⟨⟨"e", 0⟩, .i32⟩]
        (.Merge (.bld .i32) (.Ident (.bld .i32) ⟨"b", 0⟩)
          (.Ident (.vec .i32) ⟨"v", 0⟩))))

/-- A loop whose body declares a let binding and runs a nested loop: the body
function of the outer loop ends up with locals beyond the two lambda names,
and the body expression finishes in the nested loop's continuation function. -/
def exFor5 : TExpr :=
  .ForE (.bld .i32) 1 (.Ident (.vec .i32) ⟨"v", 0⟩) false false false
    (.NewBuilder (.bld .i32))
    (.Lambda (.bld .i32) [⟨⟨"b2", 0⟩, .bld .i32⟩, ⟨⟨"e2", 0⟩, .i32⟩]
      (.LetE (.bld .i32) ⟨"u", 0⟩ (.Literal .i32 (.I32Literal 5))
        (.ForE (.bld .i32) 1 (.Ident (.vec .i32) ⟨"v", 0⟩) false false false
          (.Ident (.bld .i32) ⟨"b2", 0⟩)
          (.Lambda (.bld .i32) [⟨⟨"b3", 0⟩, .bld .i32⟩, ⟨⟨"e3", 0⟩, .i32⟩]
            (.Merge (.bld .i32) (.Ident (.bld .i32) ⟨"b3", 0⟩)
              (.Ident (.bld .i32) ⟨"u", 0⟩))))))

/-- A host program (one function, one open block) in which exFor5 is lowered. -/
def host5 : SirProgram := ((SirProgram.new .i32 []).addBlockIn 0).1

/-- A block whose single statement reads w, a symbol no function declares. -/
def blkP9 : BasicBlock where
  id := 0
  statements := [.Assign ⟨"o", 0⟩ ⟨"w", 0⟩]
  terminator := .ProgramReturn ⟨"o", 0⟩

/-- The function holding blkP9; o is a local, w is declared nowhere. -/
def fnP9 : SirFunction where
  id := 0
  params := []
  locals := [(⟨"o", 0⟩, WType.i32)]
  blocks := [blkP9]

/-- A program with a statement reading an undeclared symbol: correction
panics on it. -/
def progP9 : SirProgram where
  funcs := [fnP9]
  ret_ty := .i32
  top_params := []
  sym_gen := SymbolGenerator.new

/-- A one-function program with no parameters and no locals, host for the
corrPromoteList witness. -/
def pW : SirProgram where
  funcs := [⟨0, [], [], []⟩]
  ret_ty := .i32
  top_params := []
  sym_gen := SymbolGenerator.new

/-- The program of a successful corrPromoteList run (default elsewhere). -/
def promoteProgOf : Except CorrStop (SirProgram × SymSet) → SirProgram
  | .ok (p, _) => p
  | .error _ => default

/-- The closure of a successful corrPromoteList run (default elsewhere). -/
def promoteClosOf : Except CorrStop (SirProgram × SymSet) → SymSet
  | .ok (_, cl) => cl
  | .error _ => []

/-- The result tuple of a successful gen_expr run (default elsewhere). -/
def genResOf : Except String (SirProgram × Nat × Nat × Symbol) →
    SirProgram × Nat × Nat × Symbol
  | .ok r => r
  | .error _ => (default, 0, 0, ⟨"", 0⟩)

/-- The left operand of the C7 witness: x. -/
def ex7L : TExpr := .Ident .i32 ⟨"x", 0⟩

/-- The right operand of the C7 witness: 1. -/
def ex7R : TExpr := .Literal .i32 (.I32Literal 1)

/-- The C7 witness expression: x + 1. -/
def ex7 : TExpr := .BinOp .i32 .Add ex7L ex7R

/-- The program after lowering the right operand of ex7 in host5. -/
def ex7P2 : SirProgram := (genResOf (gen_expr ex7R host5 0 0)).1

/-- The right operand's result symbol. -/
def ex7S2 : Symbol := (genResOf (gen_expr ex7R host5 0 0)).2.2.2

/-- The program after lowering ex7 in host5. -/
def ex7P3 : SirProgram := (genResOf (gen_expr ex7 host5 0 0)).1

/-- ex7's result symbol. -/
def ex7RS : Symbol := (genResOf (gen_expr ex7 host5 0 0)).2.2.2

/-- The C3/C4 witness expression: if c then a else d. -/
def exIfC : TExpr :=
  .If .i32 (.Ident .i32 ⟨"c", 0⟩) (.Ident .i32 ⟨"a", 0⟩) (.Ident .i32 ⟨"d", 0⟩)

/-- The program after wiring exIfC's branch skeleton into host5. -/
def exIfP2 : SirProgram :=
  ((host5.addBlockIn 0).1.addBlockIn 0).1.setTerminator 0 0
    (.Branch ⟨"c", 0⟩ (host5.addBlockIn 0).2
      ((host5.addBlockIn 0).1.addBlockIn 0).2)

/-- The program after lowering exIfC in host5. -/
def exIfP3 : SirProgram := (genResOf (gen_expr exIfC host5 0 0)).1

/-- exIfC's result symbol. -/
def exIfRS : Symbol := (genResOf (gen_expr exIfC host5 0 0)).2.2.2

/-- Whether a gen_expr run succeeded. -/
def isOkE : Except String (SirProgram × Nat × Nat × Symbol) → Bool
  | .ok _ => true
  | .error _ => false

/-- The program gen_expr builds for exFor5 inside host5. -/
def exFor5Q : SirProgram := (genResOf (gen_expr exFor5 host5 0 0)).1

/-- The two bound parameters of the C5 witness loop lambda. -/
def psC5 : List TypedParameter := [⟨⟨"b", 0⟩, .bld .i32⟩, ⟨⟨"e", 0⟩, .i32⟩]

/-- The body of the C5 witness loop: merge(b, e). -/
def exC5Body : TExpr :=
  .Merge (.bld .i32) (.Ident (.bld .i32) ⟨"b", 0⟩) (.Ident .i32 ⟨"e", 0⟩)

/-- The C5 witness loop: for(v, new, |b,e| merge(b,e)). -/
def exC5 : TExpr :=
  .ForE (.bld .i32) 1 (.Ident (.vec .i32) ⟨"v", 0⟩) false false false
    (.NewBuilder (.bld .i32)) (.Lambda (.bld .i32) psC5 exC5Body)

/-- The program after lowering the witness loop's builder in host5. -/
def exC5PB : SirProgram :=
  (genResOf (gen_expr (.NewBuilder (.bld .i32)) host5 0 0)).1

/-- The witness loop's builder symbol. -/
def exC5BS : Symbol :=
  (genResOf (gen_expr (.NewBuilder (.bld .i32)) host5 0 0)).2.2.2

/-- The program handed to the witness loop's body lowering. -/
def exC5P6 : SirProgram :=
  (((((exC5PB.add_func).1.addBlockIn (exC5PB.add_func).2).1.add_local_named
    (psC5.getD 0 dfltParam).ty (psC5.getD 0 dfltParam).name
    (exC5PB.add_func).2).add_local_named (psC5.getD 1 dfltParam).ty
    (psC5.getD 1 dfltParam).name (exC5PB.add_func).2).insertParam
    (exC5PB.add_func).2 ⟨"v", 0⟩ (.vec .i32)).insertParam
    (exC5PB.add_func).2 exC5BS (.bld .i32)

/-- The program after lowering the witness loop's body. -/
def exC5P7 : SirProgram :=
  (genResOf (gen_expr exC5Body exC5P6 (exC5PB.add_func).2
    ((exC5PB.add_func).1.addBlockIn (exC5PB.add_func).2).2)).1

/-- The program after lowering the whole witness loop. -/
def exC5Q : SirProgram := (genResOf (gen_expr exC5 host5 0 0)).1

/-- The witness loop's result symbol. -/
def exC5RS : Symbol := (genResOf (gen_expr exC5 host5 0 0)).2.2.2

/-- Keys of either map look up to the same value in both maps: HashMap
identity, insensitive to entry order. -/
def mapEquiv (m1 m2 : SymMap) : Bool :=
  m1.all (fun kv => mapGet m2 kv.1 = mapGet m1 kv.1) &&
  m2.all (fun kv => mapGet m1 kv.1 = mapGet m2 kv.1)

/-- Structural identity of SIR programs: same function count and, function
by function, same id, same parameter and local mappings (as lookups) and
identical block lists. -/
def structIdentical (p q : SirProgram) : Bool :=
  (p.funcs.length = q.funcs.length : Bool) &&
  (List.range p.funcs.length).all (fun i =>
    ((funcGet p i).id = (funcGet q i).id : Bool) &&
    mapEquiv (funcGet p i).params (funcGet q i).params &&
    mapEquiv (funcGet p i).locals (funcGet q i).locals &&
    ((funcGet p i).blocks = (funcGet q i).blocks : Bool))

/-- The program genPhase builds (default on failure). -/
def genOk : Except String SirProgram → SirProgram
  | .ok p => p
  | .error _ => default

/-! ## Basic lemmas about listModify, getD and the map operations -/

theorem listModify_length (l : List α) (i : Nat) (g : α → α) :
    (listModify l i g).length = l.length := by
  induction l generalizing i with
  | nil => rfl
  | cons a as_ ih =>
      cases i with
      | zero => rfl
      | succ n => simp [listModify, ih]

theorem listModify_getD_ne (l : List α) (i j : Nat) (g : α → α) (d : α)
    (h : i ≠ j) : (listModify l i g).getD j d = l.getD j d := by
  induction l generalizing i j with
  | nil => rfl
  | cons a as_ ih =>
      cases i with
      | zero =>
          cases j with
          | zero => exact absurd rfl h
          | succ m => rfl
      | succ n =>
          cases j with
          | zero => rfl
          | succ m => exact ih n m (by omega)

theorem listModify_getD_self (l : List α) (i : Nat) (g : α → α) (d : α)
    (h : i < l.length) : (listModify l i g).getD i d = g (l.getD i d) := by
  induction l generalizing i with
  | nil => simp at h
  | cons a as_ ih =>
      cases i with
      | zero => rfl
      | succ n => exact ih n (by simpa using h)

theorem listModify_oob (l : List α) (i : Nat) (g : α → α)
    (h : l.length ≤ i) : listModify l i g = l := by
  induction l generalizing i with
  | nil => rfl
  | cons a as_ ih =>
      cases i with
      | zero => simp at h
      | succ n => simp [listModify, ih n (by simpa using h)]

theorem getD_append_left (l l' : List α) (i : Nat) (d : α) (h : i < l.length) :
    (l ++ l').getD i d = l.getD i d := by
  induction l generalizing i with
  | nil => simp at h
  | cons a as_ ih =>
      cases i with
      | zero => rfl
      | succ n => exact ih n (by simpa using h)

theorem getD_append_len (l : List α) (a : α) (d : α) :
    (l ++ [a]).getD l.length d = a := by
  induction l with
  | nil => rfl
  | cons b bs ih => simpa using ih

theorem mapMem_mapInsert (m : SymMap) (k k' : Symbol) (v : WType)
    (h : mapMem m k' = true) : mapMem (mapInsert m k v) k' = true := by
  cases hk : m.any (fun kv => kv.1 = k) with
  | true =>
      simp only [mapInsert, hk, if_true]
      simp only [mapMem, List.any_map, List.any_eq_true, Function.comp_def,
        apply_ite (Prod.fst), decide_eq_true_eq] at h ⊢
      obtain ⟨kv, hmem, hkv⟩ := h
      refine ⟨kv, hmem, ?_⟩
      by_cases hkk : kv.1 = k
      · rw [if_pos hkk, ← hkk]
        exact hkv
      · rw [if_neg hkk]
        exact hkv
  | false =>
      simp only [mapInsert, hk, Bool.false_eq_true, if_false]
      simp only [mapMem, List.any_append, Bool.or_eq_true] at h ⊢
      exact Or.inl h

theorem mapMem_mapInsert_self (m : SymMap) (k : Symbol) (v : WType) :
    mapMem (mapInsert m k v) k = true := by
  cases hk : m.any (fun kv => kv.1 = k) with
  | true =>
      simp only [mapInsert, hk, if_true, mapMem, List.any_map, List.any_eq_true,
        Function.comp_def, apply_ite (Prod.fst), decide_eq_true_eq]
      simp only [List.any_eq_true, decide_eq_true_eq] at hk
      obtain ⟨kv, hmem, hkv⟩ := hk
      exact ⟨kv, hmem, by rw [if_pos hkv]⟩
  | false => simp [mapInsert, hk, mapMem]

theorem mem_setInsert_self (s : SymSet) (k : Symbol) : k ∈ setInsert s k := by
  by_cases h : k ∈ s
  · simpa [setInsert, h]
  · simp [setInsert, h]

theorem mem_setInsert_of_mem (s : SymSet) (k k' : Symbol) (h : k' ∈ s) :
    k' ∈ setInsert s k := by
  by_cases hk : k ∈ s
  · simpa [setInsert, hk]
  · simp [setInsert, hk, h]

/-! ## Effect lemmas for the mutation primitives -/

theorem progModify_length (p : SirProgram) (f : Nat) (g : SirFunction → SirFunction) :
    (progModify p f g).funcs.length = p.funcs.length := by
  simp [progModify, listModify_length]

theorem funcGet_progModify_ne (p : SirProgram) (f : Nat) (g : SirFunction → SirFunction)
    (f' : Nat) (h : f' ≠ f) : funcGet (progModify p f g) f' = funcGet p f' := by
  show (listModify p.funcs f g).getD f' default = p.funcs.getD f' default
  exact listModify_getD_ne p.funcs f f' g default (fun he => h he.symm)

theorem funcGet_progModify_self (p : SirProgram) (f : Nat) (g : SirFunction → SirFunction)
    (h : f < p.funcs.length) : funcGet (progModify p f g) f = g (funcGet p f) := by
  show (listModify p.funcs f g).getD f default = g (p.funcs.getD f default)
  exact listModify_getD_self p.funcs f g default h

theorem funcGet_progModify_ge (p : SirProgram) (f : Nat) (g : SirFunction → SirFunction)
    (f' : Nat) (h : p.funcs.length ≤ f) : funcGet (progModify p f g) f' = funcGet p f' := by
  show (listModify p.funcs f g).getD f' default = p.funcs.getD f' default
  rw [listModify_oob p.funcs f g h]

theorem params_progModify (p : SirProgram) (f : Nat) (g : SirFunction → SirFunction)
    (hg : ∀ fn, (g fn).params = fn.params) (f' : Nat) :
    (funcGet (progModify p f g) f').params = (funcGet p f').params := by
  rcases eq_or_ne f' f with rfl | hne
  · rcases Nat.lt_or_ge f' p.funcs.length with hlt | hge
    · rw [funcGet_progModify_self p f' g hlt, hg]
    · rw [funcGet_progModify_ge p f' g f' hge]
  · rw [funcGet_progModify_ne p f g f' hne]

theorem locals_progModify (p : SirProgram) (f : Nat) (g : SirFunction → SirFunction)
    (hg : ∀ fn, (g fn).locals = fn.locals) (f' : Nat) :
    (funcGet (progModify p f g) f').locals = (funcGet p f').locals := by
  rcases eq_or_ne f' f with rfl | hne
  · rcases Nat.lt_or_ge f' p.funcs.length with hlt | hge
    · rw [funcGet_progModify_self p f' g hlt, hg]
    · rw [funcGet_progModify_ge p f' g f' hge]
  · rw [funcGet_progModify_ne p f g f' hne]

theorem localsMem_progModify (p : SirProgram) (f : Nat) (g : SirFunction → SirFunction)
    (hg : ∀ fn s, mapMem fn.locals s = true → mapMem (g fn).locals s = true)
    (f' : Nat) (s : Symbol) (h : mapMem (funcGet p f').locals s = true) :
    mapMem (funcGet (progModify p f g) f').locals s = true := by
  rcases eq_or_ne f' f with rfl | hne
  · rcases Nat.lt_or_ge f' p.funcs.length with hlt | hge
    · rw [funcGet_progModify_self p f' g hlt]
      exact hg _ s h
    · rw [funcGet_progModify_ge p f' g f' hge]
      exact h
  · rw [funcGet_progModify_ne p f g f' hne]
    exact h

theorem blocks_progModify (p : SirProgram) (f : Nat) (g : SirFunction → SirFunction)
    (hg : ∀ fn, (g fn).blocks = fn.blocks) (f' : Nat) :
    (funcGet (progModify p f g) f').blocks = (funcGet p f').blocks := by
  rcases eq_or_ne f' f with rfl | hne
  · rcases Nat.lt_or_ge f' p.funcs.length with hlt | hge
    · rw [funcGet_progModify_self p f' g hlt, hg]
    · rw [funcGet_progModify_ge p f' g f' hge]
  · rw [funcGet_progModify_ne p f g f' hne]

theorem blocksLen_progModify (p : SirProgram) (f : Nat) (g : SirFunction → SirFunction)
    (hg : ∀ fn, (g fn).blocks.length = fn.blocks.length) (f' : Nat) :
    (funcGet (progModify p f g) f').blocks.length = (funcGet p f').blocks.length := by
  rcases eq_or_ne f' f with rfl | hne
  · rcases Nat.lt_or_ge f' p.funcs.length with hlt | hge
    · rw [funcGet_progModify_self p f' g hlt, hg]
    · rw [funcGet_progModify_ge p f' g f' hge]
  · rw [funcGet_progModify_ne p f g f' hne]

theorem add_func_length (p : SirProgram) :
    (p.add_func).1.funcs.length = p.funcs.length + 1 := by
  simp [SirProgram.add_func]

theorem funcGet_add_func_lt (p : SirProgram) (f : Nat) (h : f < p.funcs.length) :
    funcGet (p.add_func).1 f = funcGet p f := by
  show (p.funcs ++ [SirFunction.mk p.funcs.length [] [] []]).getD f default
    = p.funcs.getD f default
  exact getD_append_left p.funcs _ f default h

theorem funcGet_add_func_new (p : SirProgram) :
    funcGet (p.add_func).1 p.funcs.length = SirFunction.mk p.funcs.length [] [] [] := by
  show (p.funcs ++ [SirFunction.mk p.funcs.length [] [] []]).getD p.funcs.length default = _
  exact getD_append_len p.funcs _ default

theorem funcGet_symGenSet (p : SirProgram) (g : SymbolGenerator) (f : Nat) :
    funcGet { p with sym_gen := g } f = funcGet p f := rfl

theorem length_add_local (p : SirProgram) (ty : WType) (f : Nat) :
    ((p.add_local ty f).1).funcs.length = p.funcs.length :=
  progModify_length p f (fun fn => { fn with locals := mapInsert fn.locals (p.sym_gen.new_symbol ("fn" ++ toString f ++ "_tmp")).2 ty })

theorem length_add_local_named (p : SirProgram) (ty : WType) (s : Symbol) (f : Nat) :
    (p.add_local_named ty s f).funcs.length = p.funcs.length :=
  progModify_length p f (fun fn => { fn with locals := mapInsert fn.locals s ty })

theorem length_addBlockIn (p : SirProgram) (f : Nat) :
    ((p.addBlockIn f).1).funcs.length = p.funcs.length :=
  progModify_length p f (fun fn => { fn with blocks := fn.blocks ++ [⟨fn.blocks.length, [], .Crash⟩] })

theorem length_add_statement (p : SirProgram) (f b : Nat) (s : Statement) :
    (p.add_statement f b s).funcs.length = p.funcs.length :=
  progModify_length p f (fun fn => { fn with blocks := (listModify fn.blocks b (fun bb => { bb with statements := bb.statements ++ [s] })) })

theorem length_setTerminator (p : SirProgram) (f b : Nat) (t : Terminator) :
    (p.setTerminator f b t).funcs.length = p.funcs.length :=
  progModify_length p f (fun fn => { fn with blocks := (listModify fn.blocks b (fun bb => { bb with terminator := t })) })

theorem length_insertParam (p : SirProgram) (f : Nat) (s : Symbol) (ty : WType) :
    (p.insertParam f s ty).funcs.length = p.funcs.length :=
  progModify_length p f (fun fn => { fn with params := mapInsert fn.params s ty })

theorem params_add_local (p : SirProgram) (ty : WType) (f f' : Nat) :
    (funcGet (p.add_local ty f).1 f').params = (funcGet p f').params :=
  params_progModify p f (fun fn => { fn with locals := mapInsert fn.locals (p.sym_gen.new_symbol ("fn" ++ toString f ++ "_tmp")).2 ty }) (fun _ => rfl) f'

theorem params_add_local_named (p : SirProgram) (ty : WType) (s : Symbol) (f f' : Nat) :
    (funcGet (p.add_local_named ty s f) f').params = (funcGet p f').params :=
  params_progModify p f (fun fn => { fn with locals := mapInsert fn.locals s ty }) (fun _ => rfl) f'

theorem params_addBlockIn (p : SirProgram) (f f' : Nat) :
    (funcGet (p.addBlockIn f).1 f').params = (funcGet p f').params :=
  params_progModify p f (fun fn => { fn with blocks := fn.blocks ++ [⟨fn.blocks.length, [], .Crash⟩] }) (fun _ => rfl) f'

theorem params_add_statement (p : SirProgram) (f b : Nat) (s : Statement) (f' : Nat) :
    (funcGet (p.add_statement f b s) f').params = (funcGet p f').params :=
  params_progModify p f (fun fn => { fn with blocks := (listModify fn.blocks b (fun bb => { bb with statements := bb.statements ++ [s] })) }) (fun _ => rfl) f'

theorem params_setTerminator (p : SirProgram) (f b : Nat) (t : Terminator) (f' : Nat) :
    (funcGet (p.setTerminator f b t) f').params = (funcGet p f').params :=
  params_progModify p f (fun fn => { fn with blocks := (listModify fn.blocks b (fun bb => { bb with terminator := t })) }) (fun _ => rfl) f'

theorem locals_addBlockIn (p : SirProgram) (f f' : Nat) :
    (funcGet (p.addBlockIn f).1 f').locals = (funcGet p f').locals :=
  locals_progModify p f (fun fn => { fn with blocks := fn.blocks ++ [⟨fn.blocks.length, [], .Crash⟩] }) (fun _ => rfl) f'

theorem locals_add_statement (p : SirProgram) (f b : Nat) (s : Statement) (f' : Nat) :
    (funcGet (p.add_statement f b s) f').locals = (funcGet p f').locals :=
  locals_progModify p f (fun fn => { fn with blocks := (listModify fn.blocks b (fun bb => { bb with statements := bb.statements ++ [s] })) }) (fun _ => rfl) f'

theorem locals_setTerminator (p : SirProgram) (f b : Nat) (t : Terminator) (f' : Nat) :
    (funcGet (p.setTerminator f b t) f').locals = (funcGet p f').locals :=
  locals_progModify p f (fun fn => { fn with blocks := (listModify fn.blocks b (fun bb => { bb with terminator := t })) }) (fun _ => rfl) f'

theorem locals_insertParam (p : SirProgram) (f : Nat) (s : Symbol) (ty : WType) (f' : Nat) :
    (funcGet (p.insertParam f s ty) f').locals = (funcGet p f').locals :=
  locals_progModify p f (fun fn => { fn with params := mapInsert fn.params s ty }) (fun _ => rfl) f'

theorem localsMem_add_local (p : SirProgram) (ty : WType) (f f' : Nat) (s : Symbol)
    (h : mapMem (funcGet p f').locals s = true) :
    mapMem (funcGet (p.add_local ty f).1 f').locals s = true :=
  localsMem_progModify p f (fun fn => { fn with locals := mapInsert fn.locals (p.sym_gen.new_symbol ("fn" ++ toString f ++ "_tmp")).2 ty })
    (fun _ s' h' => mapMem_mapInsert _ _ s' _ h') f' s h

theorem localsMem_add_local_named (p : SirProgram) (ty : WType) (sym : Symbol)
    (f f' : Nat) (s : Symbol) (h : mapMem (funcGet p f').locals s = true) :
    mapMem (funcGet (p.add_local_named ty sym f) f').locals s = true :=
  localsMem_progModify p f (fun fn => { fn with locals := mapInsert fn.locals sym ty })
    (fun _ s' h' => mapMem_mapInsert _ _ s' _ h') f' s h

theorem blocks_add_local (p : SirProgram) (ty : WType) (f f' : Nat) :
    (funcGet (p.add_local ty f).1 f').blocks = (funcGet p f').blocks :=
  blocks_progModify p f (fun fn => { fn with locals := mapInsert fn.locals (p.sym_gen.new_symbol ("fn" ++ toString f ++ "_tmp")).2 ty }) (fun _ => rfl) f'

theorem blocks_add_local_named (p : SirProgram) (ty : WType) (s : Symbol) (f f' : Nat) :
    (funcGet (p.add_local_named ty s f) f').blocks = (funcGet p f').blocks :=
  blocks_progModify p f (fun fn => { fn with locals := mapInsert fn.locals s ty }) (fun _ => rfl) f'

theorem blocks_insertParam (p : SirProgram) (f : Nat) (s : Symbol) (ty : WType) (f' : Nat) :
    (funcGet (p.insertParam f s ty) f').blocks = (funcGet p f').blocks :=
  blocks_progModify p f (fun fn => { fn with params := mapInsert fn.params s ty }) (fun _ => rfl) f'

theorem blocksLen_add_statement (p : SirProgram) (f b : Nat) (s : Statement) (f' : Nat) :
    (funcGet (p.add_statement f b s) f').blocks.length = (funcGet p f').blocks.length :=
  blocksLen_progModify p f (fun fn => { fn with blocks := (listModify fn.blocks b (fun bb => { bb with statements := bb.statements ++ [s] })) }) (fun fn => listModify_length fn.blocks b _) f'

theorem blocksLen_setTerminator (p : SirProgram) (f b : Nat) (t : Terminator) (f' : Nat) :
    (funcGet (p.setTerminator f b t) f').blocks.length = (funcGet p f').blocks.length :=
  blocksLen_progModify p f (fun fn => { fn with blocks := (listModify fn.blocks b (fun bb => { bb with terminator := t })) }) (fun fn => listModify_length fn.blocks b _) f'

theorem blocksLen_addBlockIn_ne (p : SirProgram) (f f' : Nat) (h : f' ≠ f) :
    (funcGet (p.addBlockIn f).1 f').blocks.length = (funcGet p f').blocks.length := by
  rw [show funcGet (p.addBlockIn f).1 f' = funcGet p f' from
    funcGet_progModify_ne p f (fun fn => { fn with blocks := fn.blocks ++ [⟨fn.blocks.length, [], .Crash⟩] }) f' h]

theorem blocksLen_addBlockIn_self (p : SirProgram) (f : Nat) (h : f < p.funcs.length) :
    (funcGet (p.addBlockIn f).1 f).blocks.length = (funcGet p f).blocks.length + 1 := by
  rw [show funcGet (p.addBlockIn f).1 f
      = { funcGet p f with blocks := (funcGet p f).blocks ++ [⟨(funcGet p f).blocks.length, [], .Crash⟩] } from
    funcGet_progModify_self p f (fun fn => { fn with blocks := fn.blocks ++ [⟨fn.blocks.length, [], .Crash⟩] }) h]
  simp

theorem funcGet_addBlockIn_ne (p : SirProgram) (f f' : Nat) (h : f' ≠ f) :
    funcGet (p.addBlockIn f).1 f' = funcGet p f' :=
  funcGet_progModify_ne p f (fun fn => { fn with blocks := fn.blocks ++ [⟨fn.blocks.length, [], .Crash⟩] }) f' h

theorem blockGet_addBlockIn_old (p : SirProgram) (f f' b : Nat)
    (h : b < (funcGet p f').blocks.length) :
    blockGet (p.addBlockIn f).1 f' b = blockGet p f' b := by
  rcases eq_or_ne f' f with rfl | hne
  · rcases Nat.lt_or_ge f' p.funcs.length with hlt | hge
    · show ((funcGet (progModify p f' _) f').blocks).getD b default = _
      rw [funcGet_progModify_self p f' _ hlt]
      exact getD_append_left _ _ b default h
    · show ((funcGet (progModify p f' _) f').blocks).getD b default = _
      rw [funcGet_progModify_ge p f' _ f' hge]
      rfl
  · show ((funcGet (progModify p f _) f').blocks).getD b default = _
    rw [funcGet_progModify_ne p f _ f' hne]
    rfl

theorem blockGet_addBlockIn_new (p : SirProgram) (f : Nat) (h : f < p.funcs.length) :
    blockGet (p.addBlockIn f).1 f ((funcGet p f).blocks.length)
      = BasicBlock.mk (funcGet p f).blocks.length [] .Crash := by
  show ((funcGet (progModify p f _) f).blocks).getD (funcGet p f).blocks.length default = _
  rw [funcGet_progModify_self p f _ h]
  exact getD_append_len _ _ default

theorem blockGet_add_statement_ne (p : SirProgram) (f b : Nat) (s : Statement)
    (f' b' : Nat) (h : ¬(f' = f ∧ b' = b)) :
    blockGet (p.add_statement f b s) f' b' = blockGet p f' b' := by
  rcases eq_or_ne f' f with rfl | hne
  · have hb : b' ≠ b := fun hbb => h ⟨rfl, hbb⟩
    rcases Nat.lt_or_ge f' p.funcs.length with hlt | hge
    · show ((funcGet (progModify p f' _) f').blocks).getD b' default = _
      rw [funcGet_progModify_self p f' _ hlt]
      exact listModify_getD_ne _ b b' _ default (fun he => hb he.symm)
    · show ((funcGet (progModify p f' _) f').blocks).getD b' default = _
      rw [funcGet_progModify_ge p f' _ f' hge]
      rfl
  · show ((funcGet (progModify p f _) f').blocks).getD b' default = _
    rw [funcGet_progModify_ne p f _ f' hne]
    rfl

theorem blockGet_add_statement_self (p : SirProgram) (f b : Nat) (s : Statement)
    (h1 : f < p.funcs.length) (h2 : b < (funcGet p f).blocks.length) :
    blockGet (p.add_statement f b s) f b
      = { blockGet p f b with statements := (blockGet p f b).statements ++ [s] } := by
  show ((funcGet (progModify p f _) f).blocks).getD b default = _
  rw [funcGet_progModify_self p f _ h1]
  exact listModify_getD_self _ b _ default h2

theorem blockGet_setTerminator_ne (p : SirProgram) (f b : Nat) (t : Terminator)
    (f' b' : Nat) (h : ¬(f' = f ∧ b' = b)) :
    blockGet (p.setTerminator f b t) f' b' = blockGet p f' b' := by
  rcases eq_or_ne f' f with rfl | hne
  · have hb : b' ≠ b := fun hbb => h ⟨rfl, hbb⟩
    rcases Nat.lt_or_ge f' p.funcs.length with hlt | hge
    · show ((funcGet (progModify p f' _) f').blocks).getD b' default = _
      rw [funcGet_progModify_self p f' _ hlt]
      exact listModify_getD_ne _ b b' _ default (fun he => hb he.symm)
    · show ((funcGet (progModify p f' _) f').blocks).getD b' default = _
      rw [funcGet_progModify_ge p f' _ f' hge]
      rfl
  · show ((funcGet (progModify p f _) f').blocks).getD b' default = _
    rw [funcGet_progModify_ne p f _ f' hne]
    rfl

theorem blockGet_setTerminator_self (p : SirProgram) (f b : Nat) (t : Terminator)
    (h1 : f < p.funcs.length) (h2 : b < (funcGet p f).blocks.length) :
    blockGet (p.setTerminator f b t) f b
      = { blockGet p f b with terminator := t } := by
  show ((funcGet (progModify p f _) f).blocks).getD b default = _
  rw [funcGet_progModify_self p f _ h1]
  exact listModify_getD_self _ b _ default h2

theorem statements_setTerminator (p : SirProgram) (f b : Nat) (t : Terminator)
    (f' b' : Nat) :
    (blockGet (p.setTerminator f b t) f' b').statements
      = (blockGet p f' b').statements := by
  by_cases h : f' = f ∧ b' = b
  · obtain ⟨rfl, rfl⟩ := h
    rcases Nat.lt_or_ge f' p.funcs.length with hlt | hge
    · rcases Nat.lt_or_ge b' (funcGet p f').blocks.length with hbl | hbg
      · rw [blockGet_setTerminator_self p f' b' t hlt hbl]
      · show (((funcGet (progModify p f' _) f').blocks).getD b' default).statements = _
        rw [funcGet_progModify_self p f' _ hlt]
        simp only []
        rw [listModify_oob _ b' _ (by simpa using hbg)]
        rfl
    · show (((funcGet (progModify p f' _) f').blocks).getD b' default).statements = _
      rw [funcGet_progModify_ge p f' _ f' hge]
      rfl
  · rw [blockGet_setTerminator_ne p f b t f' b' h]

theorem terminator_add_statement (p : SirProgram) (f b : Nat) (s : Statement)
    (f' b' : Nat) :
    (blockGet (p.add_statement f b s) f' b').terminator
      = (blockGet p f' b').terminator := by
  by_cases h : f' = f ∧ b' = b
  · obtain ⟨rfl, rfl⟩ := h
    rcases Nat.lt_or_ge f' p.funcs.length with hlt | hge
    · rcases Nat.lt_or_ge b' (funcGet p f').blocks.length with hbl | hbg
      · rw [blockGet_add_statement_self p f' b' s hlt hbl]
      · show (((funcGet (progModify p f' _) f').blocks).getD b' default).terminator = _
        rw [funcGet_progModify_self p f' _ hlt]
        simp only []
        rw [listModify_oob _ b' _ (by simpa using hbg)]
        rfl
    · show (((funcGet (progModify p f' _) f').blocks).getD b' default).terminator = _
      rw [funcGet_progModify_ge p f' _ f' hge]
      rfl
  · rw [blockGet_add_statement_ne p f b s f' b' h]

theorem blockGet_add_local (p : SirProgram) (ty : WType) (f f' b' : Nat) :
    blockGet (p.add_local ty f).1 f' b' = blockGet p f' b' := by
  show ((funcGet (p.add_local ty f).1 f').blocks).getD b' default = _
  rw [blocks_add_local p ty f f']
  rfl

theorem blockGet_add_local_named (p : SirProgram) (ty : WType) (s : Symbol)
    (f f' b' : Nat) :
    blockGet (p.add_local_named ty s f) f' b' = blockGet p f' b' := by
  show ((funcGet (p.add_local_named ty s f) f').blocks).getD b' default = _
  rw [blocks_add_local_named p ty s f f']
  rfl

theorem blockGet_insertParam (p : SirProgram) (f : Nat) (s : Symbol) (ty : WType)
    (f' b' : Nat) :
    blockGet (p.insertParam f s ty) f' b' = blockGet p f' b' := by
  show ((funcGet (p.insertParam f s ty) f').blocks).getD b' default = _
  rw [blocks_insertParam p f s ty f']
  rfl

theorem blockGet_add_func (p : SirProgram) (f b : Nat) (h : f < p.funcs.length) :
    blockGet (p.add_func).1 f b = blockGet p f b := by
  show ((funcGet (p.add_func).1 f).blocks).getD b default = _
  rw [funcGet_add_func_lt p f h]
  rfl

theorem openMono (p : SirProgram) (S T : Nat × Nat → Prop)
    (hsub : ∀ fb, S fb → T fb) (h : OpenExcept p S) : OpenExcept p T :=
  fun f b hf hb hT => h f b hf hb (fun hS => hT (hsub _ hS))

theorem open_of_same (p q : SirProgram) (S : Nat × Nat → Prop)
    (hlen : q.funcs.length = p.funcs.length)
    (hblen : ∀ f, (funcGet q f).blocks.length = (funcGet p f).blocks.length)
    (hterm : ∀ f b, (blockGet q f b).terminator = (blockGet p f b).terminator)
    (h : OpenExcept p S) : OpenExcept q S := by
  intro f b hf hb hS
  rw [hterm f b]
  exact h f b (hlen ▸ hf) (hblen f ▸ hb) hS

theorem open_add_statement (p : SirProgram) (f b : Nat) (s : Statement)
    (S : Nat × Nat → Prop) (h : OpenExcept p S) :
    OpenExcept (p.add_statement f b s) S :=
  open_of_same p _ S (length_add_statement p f b s)
    (blocksLen_add_statement p f b s) (terminator_add_statement p f b s) h

theorem open_add_local (p : SirProgram) (ty : WType) (f : Nat)
    (S : Nat × Nat → Prop) (h : OpenExcept p S) :
    OpenExcept (p.add_local ty f).1 S :=
  open_of_same p _ S (length_add_local p ty f)
    (fun f' => by rw [blocks_add_local p ty f f'])
    (fun f' b' => by rw [blockGet_add_local p ty f f' b']) h

theorem open_add_local_named (p : SirProgram) (ty : WType) (sym : Symbol) (f : Nat)
    (S : Nat × Nat → Prop) (h : OpenExcept p S) :
    OpenExcept (p.add_local_named ty sym f) S :=
  open_of_same p _ S (length_add_local_named p ty sym f)
    (fun f' => by rw [blocks_add_local_named p ty sym f f'])
    (fun f' b' => by rw [blockGet_add_local_named p ty sym f f' b']) h

theorem open_insertParam (p : SirProgram) (f : Nat) (sym : Symbol) (ty : WType)
    (S : Nat × Nat → Prop) (h : OpenExcept p S) :
    OpenExcept (p.insertParam f sym ty) S :=
  open_of_same p _ S (length_insertParam p f sym ty)
    (fun f' => by rw [blocks_insertParam p f sym ty f'])
    (fun f' b' => by rw [blockGet_insertParam p f sym ty f' b']) h

theorem open_add_func (p : SirProgram) (S : Nat × Nat → Prop)
    (h : OpenExcept p S) : OpenExcept (p.add_func).1 S := by
  intro f b hf hb hS
  rw [add_func_length] at hf
  rcases Nat.lt_or_ge f p.funcs.length with hlt | hge
  · rw [show blockGet (p.add_func).1 f b = blockGet p f b from blockGet_add_func p f b hlt]
    rw [funcGet_add_func_lt p f hlt] at hb
    exact h f b hlt hb hS
  · have hfe : f = p.funcs.length := by omega
    subst hfe
    rw [funcGet_add_func_new p] at hb
    simp at hb

theorem open_addBlockIn (p : SirProgram) (f : Nat) (S : Nat × Nat → Prop)
    (h : OpenExcept p S) :
    OpenExcept (p.addBlockIn f).1
      (fun fb => S fb ∨ fb = (f, (funcGet p f).blocks.length)) := by
  intro f' b' hf hb hS
  have hS1 : ¬ S (f', b') := fun hx => hS (Or.inl hx)
  have hS2 : (f', b') ≠ (f, (funcGet p f).blocks.length) := fun hx => hS (Or.inr hx)
  rw [length_addBlockIn] at hf
  rcases eq_or_ne f' f with rfl | hne
  · rcases Nat.lt_or_ge b' (funcGet p f').blocks.length with hbl | hbg
    · rw [blockGet_addBlockIn_old p f' f' b' hbl]
      exact h f' b' hf hbl hS1
    · rw [blocksLen_addBlockIn_self p f' hf] at hb
      have : b' = (funcGet p f').blocks.length := by omega
      exact absurd (by rw [this]) hS2
  · rw [blocksLen_addBlockIn_ne p f f' hne] at hb
    rw [blockGet_addBlockIn_old p f f' b' hb]
    exact h f' b' hf hb hS1

theorem open_setTerminator (p : SirProgram) (f b : Nat) (t : Terminator)
    (ht : t ≠ .Crash) (S : Nat × Nat → Prop) (h : OpenExcept p S) :
    OpenExcept (p.setTerminator f b t) (fun fb => S fb ∧ fb ≠ (f, b)) := by
  intro f' b' hf hb hS
  rw [length_setTerminator] at hf
  rw [blocksLen_setTerminator] at hb
  by_cases hfb : f' = f ∧ b' = b
  · obtain ⟨rfl, rfl⟩ := hfb
    rw [blockGet_setTerminator_self p f' b' t hf hb]
    exact ht
  · rw [blockGet_setTerminator_ne p f b t f' b' hfb]
    refine h f' b' hf hb (fun hS' => hS ⟨hS', ?_⟩)
    intro he
    exact hfb ⟨congrArg Prod.fst he, congrArg Prod.snd he⟩

theorem GenFrame.paramsStable (h : GenFrame p p' cf cb rf rb)
    (f : Nat) (hf : f < p.funcs.length) :
    (funcGet p' f).params = (funcGet p f).params := by
  rcases eq_or_ne f cf with rfl | hne
  · exact h.params_cf
  · rw [h.frame_other f hf hne]

theorem GenFrame.localsMem (h : GenFrame p p' cf cb rf rb)
    (f : Nat) (hf : f < p.funcs.length) (s : Symbol)
    (hs : mapMem (funcGet p f).locals s = true) :
    mapMem (funcGet p' f).locals s = true := by
  rcases eq_or_ne f cf with rfl | hne
  · exact h.locals_cf s hs
  · rw [h.frame_other f hf hne]
    exact hs

theorem GenFrame.blocksLenLe (h : GenFrame p p' cf cb rf rb)
    (f : Nat) (hf : f < p.funcs.length) :
    (funcGet p f).blocks.length ≤ (funcGet p' f).blocks.length := by
  rcases eq_or_ne f cf with rfl | hne
  · exact h.blocks_cf_le
  · rw [h.frame_other f hf hne]

theorem GenFrame.blockEq (h : GenFrame p p' cf cb rf rb)
    (f b : Nat) (hf : f < p.funcs.length) (hb : b < (funcGet p f).blocks.length)
    (hne : ¬(f = cf ∧ b = cb)) : blockGet p' f b = blockGet p f b := by
  rcases eq_or_ne f cf with rfl | hfne
  · exact h.frame_blocks_cf b hb (fun hbb => hne ⟨rfl, hbb⟩)
  · show ((funcGet p' f).blocks).getD b default = _
    rw [h.frame_other f hf hfne]
    rfl

theorem GenFrame.stmtsExt (h : GenFrame p p' cf cb rf rb)
    (f b : Nat) (hf : f < p.funcs.length) (hb : b < (funcGet p f).blocks.length) :
    ∃ ext, (blockGet p' f b).statements = (blockGet p f b).statements ++ ext := by
  by_cases hne : f = cf ∧ b = cb
  · obtain ⟨rfl, rfl⟩ := hne
    exact h.stmts_cb
  · exact ⟨[], by rw [h.blockEq f b hf hb hne, List.append_nil]⟩

theorem GenFrame.termEq (h : GenFrame p p' cf cb rf rb)
    (f b : Nat) (hf : f < p.funcs.length) (hb : b < (funcGet p f).blocks.length)
    (hne : ¬(f = cf ∧ b = cb)) :
    (blockGet p' f b).terminator = (blockGet p f b).terminator := by
  rw [h.blockEq f b hf hb hne]

/-- The identity frame: a step that goes nowhere and changes nothing. -/
theorem frameRefl (p : SirProgram) (cf cb : Nat)
    (hcf : cf < p.funcs.length) (hcb : cb < (funcGet p cf).blocks.length) :
    GenFrame p p cf cb cf cb := by
  refine ⟨le_rfl, hcf, hcb, Or.inl rfl, fun _ => Or.inl rfl,
    fun f _ _ => rfl, rfl, fun s h => h, le_rfl, fun b _ _ => rfl,
    ⟨[], (List.append_nil _).symm⟩, ?_⟩
  intro S hScur hOpen
  refine openMono p S _ (fun fb hfb => ?_) hOpen
  by_cases he : fb = (cf, cb)
  · exact Or.inr he
  · exact Or.inl ⟨hfb, he⟩

/-- Frames compose along the threaded current position. -/
theorem frameTrans (h1 : GenFrame p p1 cf cb f1 b1)
    (h2 : GenFrame p1 p2 f1 b1 rf rb)
    (hcf : cf < p.funcs.length) (hcb : cb < (funcGet p cf).blocks.length) :
    GenFrame p p2 cf cb rf rb := by
  have hlen1 : p.funcs.length ≤ p1.funcs.length := h1.funcs_le
  refine ⟨le_trans h1.funcs_le h2.funcs_le, h2.rf_lt, h2.rb_lt, ?_, ?_, ?_, ?_, ?_, ?_, ?_, ?_, ?_⟩
  · rcases h2.rf_eq_or_new with he | hge
    · subst he
      rcases h1.rf_eq_or_new with he1 | hge1
      · exact Or.inl he1
      · exact Or.inr hge1
    · exact Or.inr (le_trans hlen1 hge)
  · intro hrf
    rcases h2.rf_eq_or_new with he | hge
    · have hf1cf : f1 = cf := by rw [← he, hrf]
      rcases h2.rb_eq_or_new he with hb | hb
      · rcases h1.rb_eq_or_new hf1cf with hb1 | hb1
        · exact Or.inl (by rw [hb, hb1])
        · exact Or.inr (by rw [hb]; exact hb1)
      · refine Or.inr (le_trans h1.blocks_cf_le ?_)
        rw [hf1cf] at hb
        exact hb
    · exact absurd hge (by omega)
  · intro f hf hne
    have hf1 : f ≠ f1 := by
      rcases h1.rf_eq_or_new with he | hge
      · rw [he]
        exact hne
      · omega
    rw [h2.frame_other f (by omega) hf1, h1.frame_other f hf hne]
  · rcases eq_or_ne cf f1 with he | hne
    · rw [← he] at h2
      rw [h2.params_cf, h1.params_cf]
    · rw [h2.frame_other cf (by omega) hne, h1.params_cf]
  · intro s hs
    rcases eq_or_ne cf f1 with he | hne
    · rw [← he] at h2
      exact h2.locals_cf s (h1.locals_cf s hs)
    · rw [h2.frame_other cf (by omega) hne]
      exact h1.locals_cf s hs
  · rcases eq_or_ne cf f1 with he | hne
    · rw [← he] at h2
      exact le_trans h1.blocks_cf_le h2.blocks_cf_le
    · rw [h2.frame_other cf (by omega) hne]
      exact h1.blocks_cf_le
  · intro b hb hbne
    have step1 : blockGet p1 cf b = blockGet p cf b := h1.frame_blocks_cf b hb hbne
    rcases eq_or_ne cf f1 with he | hne
    · subst he
      have hbne1 : b ≠ b1 := by
        rcases h1.rb_eq_or_new (h1.rf_eq_or_new.resolve_right (by omega)) with hb1 | hb1
        · rw [hb1]
          exact hbne
        · omega
      rw [h2.frame_blocks_cf b (lt_of_lt_of_le hb h1.blocks_cf_le) hbne1, step1]
    · rw [show blockGet p2 cf b = blockGet p1 cf b from by
        show ((funcGet p2 cf).blocks).getD b default = _
        rw [h2.frame_other cf (by omega) hne]
        rfl, step1]
  · obtain ⟨e1, he1⟩ := h1.stmts_cb
    obtain ⟨e2, he2⟩ := h2.stmtsExt cf cb (by omega)
      (lt_of_lt_of_le hcb h1.blocks_cf_le)
    exact ⟨e1 ++ e2, by rw [he2, he1, List.append_assoc]⟩
  · intro S hScur hOpen
    have t1 := h1.open_transfer S hScur hOpen
    have t2 := h2.open_transfer _ (Or.inr rfl) t1
    refine openMono p2 _ _ (fun fb hfb => ?_) t2
    rcases hfb with ⟨hfb1, hfb2⟩ | he
    · rcases hfb1 with ⟨hS, hne⟩ | he1
      · exact Or.inl ⟨hS, hne⟩
      · exact absurd he1 hfb2
    · exact Or.inr he

theorem funcGet_add_statement_ne (p : SirProgram) (f b : Nat) (s : Statement)
    (f' : Nat) (h : f' ≠ f) : funcGet (p.add_statement f b s) f' = funcGet p f' :=
  funcGet_progModify_ne p f (fun fn => { fn with blocks := (listModify fn.blocks b (fun bb => { bb with statements := bb.statements ++ [s] })) }) f' h

theorem funcGet_setTerminator_ne (p : SirProgram) (f b : Nat) (t : Terminator)
    (f' : Nat) (h : f' ≠ f) : funcGet (p.setTerminator f b t) f' = funcGet p f' :=
  funcGet_progModify_ne p f (fun fn => { fn with blocks := (listModify fn.blocks b (fun bb => { bb with terminator := t })) }) f' h

theorem funcGet_add_local_ne (p : SirProgram) (ty : WType) (f f' : Nat)
    (h : f' ≠ f) : funcGet (p.add_local ty f).1 f' = funcGet p f' :=
  funcGet_progModify_ne p f (fun fn => { fn with locals := mapInsert fn.locals (p.sym_gen.new_symbol ("fn" ++ toString f ++ "_tmp")).2 ty }) f' h

theorem funcGet_add_local_named_ne (p : SirProgram) (ty : WType) (sym : Symbol)
    (f f' : Nat) (h : f' ≠ f) : funcGet (p.add_local_named ty sym f) f' = funcGet p f' :=
  funcGet_progModify_ne p f (fun fn => { fn with locals := mapInsert fn.locals sym ty }) f' h

theorem funcGet_insertParam_ne (p : SirProgram) (f : Nat) (sym : Symbol) (ty : WType)
    (f' : Nat) (h : f' ≠ f) : funcGet (p.insertParam f sym ty) f' = funcGet p f' :=
  funcGet_progModify_ne p f (fun fn => { fn with params := mapInsert fn.params sym ty }) f' h

/-- A set that keeps the current position open absorbs the frame's target set
when the step does not move. -/
theorem openSetAbsorb (cf cb : Nat) (S : Nat × Nat → Prop) (fb : Nat × Nat)
    (hfb : S fb) : (S fb ∧ fb ≠ (cf, cb)) ∨ fb = (cf, cb) := by
  by_cases he : fb = (cf, cb)
  · exact Or.inr he
  · exact Or.inl ⟨hfb, he⟩

theorem genFrame_add_statement (p : SirProgram) (f b : Nat) (s : Statement)
    (hf : f < p.funcs.length) (hb : b < (funcGet p f).blocks.length) :
    GenFrame p (p.add_statement f b s) f b f b := by
  refine ⟨by rw [length_add_statement], by rw [length_add_statement]; exact hf,
    by rw [blocksLen_add_statement]; exact hb, Or.inl rfl, fun _ => Or.inl rfl,
    fun f' _ hne => funcGet_add_statement_ne p f b s f' hne,
    params_add_statement p f b s f,
    fun s' h => by rw [locals_add_statement]; exact h,
    by rw [blocksLen_add_statement],
    fun b' _ hbne => blockGet_add_statement_ne p f b s f b' (fun hc => hbne hc.2),
    ⟨[s], by rw [blockGet_add_statement_self p f b s hf hb]⟩, ?_⟩
  intro S hScur hOpen
  exact openMono _ S _ (openSetAbsorb f b S) (open_add_statement p f b s S hOpen)

theorem genFrame_add_local (p : SirProgram) (ty : WType) (f b : Nat)
    (hf : f < p.funcs.length) (hb : b < (funcGet p f).blocks.length) :
    GenFrame p (p.add_local ty f).1 f b f b := by
  refine ⟨by rw [length_add_local], by rw [length_add_local]; exact hf,
    by rw [show (funcGet (p.add_local ty f).1 f).blocks = (funcGet p f).blocks from
      blocks_add_local p ty f f]; exact hb,
    Or.inl rfl, fun _ => Or.inl rfl,
    fun f' _ hne => funcGet_add_local_ne p ty f f' hne,
    params_add_local p ty f f,
    fun s' h => localsMem_add_local p ty f f s' h,
    by rw [show (funcGet (p.add_local ty f).1 f).blocks = (funcGet p f).blocks from
      blocks_add_local p ty f f],
    fun b' _ _ => blockGet_add_local p ty f f b',
    ⟨[], by rw [blockGet_add_local p ty f f b, List.append_nil]⟩, ?_⟩
  intro S hScur hOpen
  exact openMono _ S _ (openSetAbsorb f b S) (open_add_local p ty f S hOpen)

theorem genFrame_add_local_named (p : SirProgram) (ty : WType) (sym : Symbol)
    (f b : Nat) (hf : f < p.funcs.length) (hb : b < (funcGet p f).blocks.length) :
    GenFrame p (p.add_local_named ty sym f) f b f b := by
  refine ⟨by rw [length_add_local_named], by rw [length_add_local_named]; exact hf,
    by rw [show (funcGet (p.add_local_named ty sym f) f).blocks = (funcGet p f).blocks from
      blocks_add_local_named p ty sym f f]; exact hb,
    Or.inl rfl, fun _ => Or.inl rfl,
    fun f' _ hne => funcGet_add_local_named_ne p ty sym f f' hne,
    params_add_local_named p ty sym f f,
    fun s' h => localsMem_add_local_named p ty sym f f s' h,
    by rw [show (funcGet (p.add_local_named ty sym f) f).blocks = (funcGet p f).blocks from
      blocks_add_local_named p ty sym f f],
    fun b' _ _ => blockGet_add_local_named p ty sym f f b',
    ⟨[], by rw [blockGet_add_local_named p ty sym f f b, List.append_nil]⟩, ?_⟩
  intro S hScur hOpen
  exact openMono _ S _ (openSetAbsorb f b S) (open_add_local_named p ty sym f S hOpen)

theorem Keep.trans (h1 : Keep q q' L cf cb BL) (h2 : Keep q' q'' L cf cb BL) :
    Keep q q'' L cf cb BL := by
  refine ⟨fun f hf hne => by rw [h2.fo f hf hne, h1.fo f hf hne],
    by rw [h2.pc, h1.pc], fun s hs => h2.lc s (h1.lc s hs),
    le_trans h1.bl h2.bl,
    fun b hb hbne => by rw [h2.fb b hb hbne, h1.fb b hb hbne], ?_⟩
  obtain ⟨e1, he1⟩ := h1.sc
  obtain ⟨e2, he2⟩ := h2.sc
  exact ⟨e1 ++ e2, by rw [he2, he1, List.append_assoc]⟩

/-- A successful gen_expr sub-call whose start position lies outside the
protected region keeps that region intact. -/
theorem GenFrame.toKeep (h : GenFrame q q' a c r s) (L cf cb BL : Nat)
    (hL : L ≤ q.funcs.length) (hcf : cf < L)
    (hBL : BL ≤ (funcGet q cf).blocks.length) (hcb : cb < BL)
    (ha : a = cf ∨ L ≤ a) (hc : a = cf → c = cb ∨ BL ≤ c) :
    Keep q q' L cf cb BL := by
  rcases ha with rfl | haL
  · refine ⟨fun f hf hne => h.frame_other f (by omega) hne, h.params_cf,
      h.locals_cf, h.blocks_cf_le, fun b hb hbne => ?_, ?_⟩
    · rcases hc rfl with rfl | hcBL
      · exact h.frame_blocks_cf b (by omega) hbne
      · exact h.frame_blocks_cf b (by omega) (by omega)
    · rcases hc rfl with rfl | hcBL
      · exact h.stmts_cb
      · exact ⟨[], by rw [h.frame_blocks_cf cb (by omega) (by omega), List.append_nil]⟩
  · have hacf : cf ≠ a := by omega
    have hcfq : funcGet q' cf = funcGet q cf := h.frame_other cf (by omega) hacf
    refine ⟨fun f hf hne => h.frame_other f (by omega) (by omega), by rw [hcfq],
      fun s' hs => by rw [hcfq]; exact hs, by rw [hcfq],
      fun b hb hbne => ?_, ⟨[], ?_⟩⟩
    · show ((funcGet q' cf).blocks).getD b default = _
      rw [hcfq]
      rfl
    · show (((funcGet q' cf).blocks).getD cb default).statements = _ ++ _
      rw [hcfq, List.append_nil]
      rfl

theorem keep_add_statement (q : SirProgram) (tf tb : Nat) (s : Statement)
    (L cf cb BL : Nat) (htf : tf = cf ∨ L ≤ tf) (hcf : cf < L)
    (htb : tf = cf → tb = cb ∨ BL ≤ tb) :
    Keep q (q.add_statement tf tb s) L cf cb BL := by
  rcases htf with rfl | hL
  · refine ⟨fun f hf hne => funcGet_add_statement_ne q tf tb s f hne,
      params_add_statement q tf tb s tf,
      fun s' hs => by rw [locals_add_statement]; exact hs,
      by rw [blocksLen_add_statement],
      fun b hb hbne => blockGet_add_statement_ne q tf tb s tf b
        (fun hcon => by rcases htb rfl with he | he <;> omega), ?_⟩
    by_cases hv : tf < q.funcs.length ∧ cb < (funcGet q tf).blocks.length ∧ cb = tb
    · obtain ⟨hv1, hv2, rfl⟩ := hv
      exact ⟨[s], by rw [blockGet_add_statement_self q tf cb s hv1 hv2]⟩
    · refine ⟨[], ?_⟩
      rw [List.append_nil]
      by_cases hcbtb : cb = tb
      · subst hcbtb
        rcases Nat.lt_or_ge tf q.funcs.length with h1 | h1
        · rcases Nat.lt_or_ge cb (funcGet q tf).blocks.length with h2 | h2
          · exact absurd ⟨h1, h2, rfl⟩ hv
          · show (((funcGet (progModify q tf _) tf).blocks).getD cb default).statements = _
            rw [funcGet_progModify_self q tf _ h1]
            simp only []
            rw [listModify_oob _ cb _ (by simpa using h2)]
            rfl
        · show (((funcGet (progModify q tf _) tf).blocks).getD cb default).statements = _
          rw [funcGet_progModify_ge q tf _ tf h1]
          rfl
      · rw [blockGet_add_statement_ne q tf tb s tf cb (fun hcon => hcbtb hcon.2)]
  · have hne : cf ≠ tf := by omega
    have hcfq : funcGet (q.add_statement tf tb s) cf = funcGet q cf :=
      funcGet_add_statement_ne q tf tb s cf hne
    refine ⟨fun f hf hfne => funcGet_add_statement_ne q tf tb s f (by omega),
      by rw [hcfq], fun s' hs => by rw [hcfq]; exact hs, by rw [hcfq],
      fun b hb hbne => ?_, ⟨[], ?_⟩⟩
    · show ((funcGet (q.add_statement tf tb s) cf).blocks).getD b default = _
      rw [hcfq]
      rfl
    · show (((funcGet (q.add_statement tf tb s) cf).blocks).getD cb default).statements = _ ++ _
      rw [hcfq, List.append_nil]
      rfl

theorem keep_setTerminator (q : SirProgram) (tf tb : Nat) (t : Terminator)
    (L cf cb BL : Nat) (htf : tf = cf ∨ L ≤ tf) (hcf : cf < L)
    (htb : tf = cf → tb = cb ∨ BL ≤ tb) :
    Keep q (q.setTerminator tf tb t) L cf cb BL := by
  rcases htf with rfl | hL
  · refine ⟨fun f hf hne => funcGet_setTerminator_ne q tf tb t f hne,
      params_setTerminator q tf tb t tf,
      fun s' hs => by rw [locals_setTerminator]; exact hs,
      by rw [blocksLen_setTerminator],
      fun b hb hbne => blockGet_setTerminator_ne q tf tb t tf b
        (fun hcon => by rcases htb rfl with he | he <;> omega),
      ⟨[], by rw [statements_setTerminator q tf tb t tf cb, List.append_nil]⟩⟩
  · have hne : cf ≠ tf := by omega
    have hcfq : funcGet (q.setTerminator tf tb t) cf = funcGet q cf :=
      funcGet_setTerminator_ne q tf tb t cf hne
    refine ⟨fun f hf hfne => funcGet_setTerminator_ne q tf tb t f (by omega),
      by rw [hcfq], fun s' hs => by rw [hcfq]; exact hs, by rw [hcfq],
      fun b hb hbne => ?_, ⟨[], ?_⟩⟩
    · show ((funcGet (q.setTerminator tf tb t) cf).blocks).getD b default = _
      rw [hcfq]
      rfl
    · show (((funcGet (q.setTerminator tf tb t) cf).blocks).getD cb default).statements = _ ++ _
      rw [hcfq, List.append_nil]
      rfl

theorem keep_add_local (q : SirProgram) (ty : WType) (tf : Nat)
    (L cf cb BL : Nat) (htf : tf = cf ∨ L ≤ tf) (hcf : cf < L) :
    Keep q (q.add_local ty tf).1 L cf cb BL := by
  rcases htf with rfl | hL
  · exact ⟨fun f hf hne => funcGet_add_local_ne q ty tf f hne,
      params_add_local q ty tf tf,
      fun s' hs => localsMem_add_local q ty tf tf s' hs,
      by rw [show (funcGet (q.add_local ty tf).1 tf).blocks = (funcGet q tf).blocks from
        blocks_add_local q ty tf tf],
      fun b hb hbne => blockGet_add_local q ty tf tf b,
      ⟨[], by rw [blockGet_add_local q ty tf tf cb, List.append_nil]⟩⟩
  · have hne : cf ≠ tf := by omega
    have hcfq : funcGet (q.add_local ty tf).1 cf = funcGet q cf :=
      funcGet_add_local_ne q ty tf cf hne
    refine ⟨fun f hf hfne => funcGet_add_local_ne q ty tf f (by omega),
      by rw [hcfq], fun s' hs => by rw [hcfq]; exact hs, by rw [hcfq],
      fun b hb hbne => ?_, ⟨[], ?_⟩⟩
    · show ((funcGet (q.add_local ty tf).1 cf).blocks).getD b default = _
      rw [hcfq]
      rfl
    · show (((funcGet (q.add_local ty tf).1 cf).blocks).getD cb default).statements = _ ++ _
      rw [hcfq, List.append_nil]
      rfl

theorem keep_add_local_named (q : SirProgram) (ty : WType) (sym : Symbol) (tf : Nat)
    (L cf cb BL : Nat) (htf : tf = cf ∨ L ≤ tf) (hcf : cf < L) :
    Keep q (q.add_local_named ty sym tf) L cf cb BL := by
  rcases htf with rfl | hL
  · exact ⟨fun f hf hne => funcGet_add_local_named_ne q ty sym tf f hne,
      params_add_local_named q ty sym tf tf,
      fun s' hs => localsMem_add_local_named q ty sym tf tf s' hs,
      by rw [show (funcGet (q.add_local_named ty sym tf) tf).blocks = (funcGet q tf).blocks from
        blocks_add_local_named q ty sym tf tf],
      fun b hb hbne => blockGet_add_local_named q ty sym tf tf b,
      ⟨[], by rw [blockGet_add_local_named q ty sym tf tf cb, List.append_nil]⟩⟩
  · have hne : cf ≠ tf := by omega
    have hcfq : funcGet (q.add_local_named ty sym tf) cf = funcGet q cf :=
      funcGet_add_local_named_ne q ty sym tf cf hne
    refine ⟨fun f hf hfne => funcGet_add_local_named_ne q ty sym tf f (by omega),
      by rw [hcfq], fun s' hs => by rw [hcfq]; exact hs, by rw [hcfq],
      fun b hb hbne => ?_, ⟨[], ?_⟩⟩
    · show ((funcGet (q.add_local_named ty sym tf) cf).blocks).getD b default = _
      rw [hcfq]
      rfl
    · show (((funcGet (q.add_local_named ty sym tf) cf).blocks).getD cb default).statements = _ ++ _
      rw [hcfq, List.append_nil]
      rfl

theorem keep_insertParam (q : SirProgram) (tf : Nat) (sym : Symbol) (ty : WType)
    (L cf cb BL : Nat) (htf : L ≤ tf) (hcf : cf < L) :
    Keep q (q.insertParam tf sym ty) L cf cb BL := by
  have hne : cf ≠ tf := by omega
  have hcfq : funcGet (q.insertParam tf sym ty) cf = funcGet q cf :=
    funcGet_insertParam_ne q tf sym ty cf hne
  refine ⟨fun f hf hfne => funcGet_insertParam_ne q tf sym ty f (by omega),
    by rw [hcfq], fun s' hs => by rw [hcfq]; exact hs, by rw [hcfq],
    fun b hb hbne => ?_, ⟨[], ?_⟩⟩
  · show ((funcGet (q.insertParam tf sym ty) cf).blocks).getD b default = _
    rw [hcfq]
    rfl
  · show (((funcGet (q.insertParam tf sym ty) cf).blocks).getD cb default).statements = _ ++ _
    rw [hcfq, List.append_nil]
    rfl

theorem keep_add_func (q : SirProgram) (L cf cb BL : Nat)
    (hcf : cf < L) (hL : L ≤ q.funcs.length) :
    Keep q (q.add_func).1 L cf cb BL := by
  have hcfq : funcGet (q.add_func).1 cf = funcGet q cf :=
    funcGet_add_func_lt q cf (by omega)
  refine ⟨fun f hf hfne => funcGet_add_func_lt q f (by omega),
    by rw [hcfq], fun s' hs => by rw [hcfq]; exact hs, by rw [hcfq],
    fun b hb hbne => ?_, ⟨[], ?_⟩⟩
  · show ((funcGet (q.add_func).1 cf).blocks).getD b default = _
    rw [hcfq]
    rfl
  · show (((funcGet (q.add_func).1 cf).blocks).getD cb default).statements = _ ++ _
    rw [hcfq, List.append_nil]
    rfl

theorem keep_addBlockIn (q : SirProgram) (tf : Nat) (L cf cb BL : Nat)
    (htf : tf = cf ∨ L ≤ tf) (hcf : cf < L)
    (hBL : BL ≤ (funcGet q cf).blocks.length) (hcb : cb < BL) :
    Keep q (q.addBlockIn tf).1 L cf cb BL := by
  rcases htf with rfl | hL
  · refine ⟨fun f hf hne => funcGet_addBlockIn_ne q tf f hne,
      params_addBlockIn q tf tf,
      fun s' hs => by rw [locals_addBlockIn]; exact hs, ?_,
      fun b hb hbne => blockGet_addBlockIn_old q tf tf b (by omega),
      ⟨[], by rw [blockGet_addBlockIn_old q tf tf cb (by omega), List.append_nil]⟩⟩
    rcases Nat.lt_or_ge tf q.funcs.length with h1 | h1
    · rw [blocksLen_addBlockIn_self q tf h1]
      omega
    · rw [show funcGet (q.addBlockIn tf).1 tf = funcGet q tf from
        funcGet_progModify_ge q tf _ tf h1]
  · have hne : cf ≠ tf := by omega
    have hcfq : funcGet (q.addBlockIn tf).1 cf = funcGet q cf :=
      funcGet_addBlockIn_ne q tf cf hne
    refine ⟨fun f hf hfne => funcGet_addBlockIn_ne q tf f (by omega),
      by rw [hcfq], fun s' hs => by rw [hcfq]; exact hs, by rw [hcfq],
      fun b hb hbne => ?_, ⟨[], ?_⟩⟩
    · show ((funcGet (q.addBlockIn tf).1 cf).blocks).getD b default = _
      rw [hcfq]
      rfl
    · show (((funcGet (q.addBlockIn tf).1 cf).blocks).getD cb default).statements = _ ++ _
      rw [hcfq, List.append_nil]
      rfl

theorem addBlockIn_snd (p : SirProgram) (f : Nat) :
    (p.addBlockIn f).2 = (funcGet p f).blocks.length := rfl

theorem add_func_snd (p : SirProgram) : (p.add_func).2 = p.funcs.length := rfl

theorem frame_ident (ty : WType) (sym : Symbol) : GenIH (.Ident ty sym) := by
  intro p cf cb p' rf rb rs hcf hcb hgen
  simp only [gen_expr, Except.ok.injEq, Prod.mk.injEq] at hgen
  obtain ⟨rfl, rfl, rfl, rfl⟩ := hgen
  exact frameRefl p cf cb hcf hcb

theorem frame_literal (ty : WType) (lit : LiteralKind) : GenIH (.Literal ty lit) := by
  intro p cf cb p' rf rb rs hcf hcb hgen
  simp only [gen_expr, Except.ok.injEq, Prod.mk.injEq] at hgen
  obtain ⟨rfl, rfl, rfl, rfl⟩ := hgen
  refine frameTrans (genFrame_add_local p ty cf cb hcf hcb)
    (genFrame_add_statement (p.add_local ty cf).1 cf cb _ ?_ ?_) hcf hcb
  · rw [length_add_local]
    exact hcf
  · rw [show (funcGet (p.add_local ty cf).1 cf).blocks = (funcGet p cf).blocks from
      blocks_add_local p ty cf cf]
    exact hcb

theorem frame_newbuilder (ty : WType) : GenIH (.NewBuilder ty) := by
  intro p cf cb p' rf rb rs hcf hcb hgen
  simp only [gen_expr, Except.ok.injEq, Prod.mk.injEq] at hgen
  obtain ⟨rfl, rfl, rfl, rfl⟩ := hgen
  refine frameTrans (genFrame_add_local p ty cf cb hcf hcb)
    (genFrame_add_statement (p.add_local ty cf).1 cf cb _ ?_ ?_) hcf hcb
  · rw [length_add_local]
    exact hcf
  · rw [show (funcGet (p.add_local ty cf).1 cf).blocks = (funcGet p cf).blocks from
      blocks_add_local p ty cf cf]
    exact hcb

theorem frame_res (ty : WType) (builder : TExpr) (IHb : GenIH builder) :
    GenIH (.Res ty builder) := by
  intro p cf cb p' rf rb rs hcf hcb hgen
  simp only [gen_expr] at hgen
  split at hgen
  · exact absurd hgen (by simp)
  · rename_i r1 p1 f1 b1 bsym hv
    simp only [Except.ok.injEq, Prod.mk.injEq] at hgen
    obtain ⟨rfl, rfl, rfl, rfl⟩ := hgen
    have F1 : GenFrame p p1 cf cb f1 b1 := IHb p cf cb p1 f1 b1 bsym hcf hcb hv
    have hf1 : f1 < p1.funcs.length := F1.rf_lt
    have hb1 : b1 < (funcGet p1 f1).blocks.length := F1.rb_lt
    refine frameTrans F1 (frameTrans (genFrame_add_local p1 ty f1 b1 hf1 hb1)
      (genFrame_add_statement (p1.add_local ty f1).1 f1 b1 _ ?_ ?_) hf1 hb1) hcf hcb
    · rw [length_add_local]
      exact hf1
    · rw [show (funcGet (p1.add_local ty f1).1 f1).blocks = (funcGet p1 f1).blocks from
        blocks_add_local p1 ty f1 f1]
      exact hb1

theorem frame_merge (ty : WType) (builder value : TExpr)
    (IHb : GenIH builder) (IHv : GenIH value) : GenIH (.Merge ty builder value) := by
  intro p cf cb p' rf rb rs hcf hcb hgen
  simp only [gen_expr] at hgen
  split at hgen
  · exact absurd hgen (by simp)
  · rename_i r1 p1 f1 b1 bsym hv
    split at hgen
    · exact absurd hgen (by simp)
    · rename_i r2 p2 f2 b2 esym he
      simp only [Except.ok.injEq, Prod.mk.injEq] at hgen
      obtain ⟨rfl, rfl, rfl, rfl⟩ := hgen
      have F1 : GenFrame p p1 cf cb f1 b1 := IHb p cf cb p1 f1 b1 bsym hcf hcb hv
      have F2 : GenFrame p1 p2 f1 b1 f2 b2 :=
        IHv p1 f1 b1 p2 f2 b2 esym F1.rf_lt F1.rb_lt he
      exact frameTrans F1 (frameTrans F2
        (genFrame_add_statement p2 f2 b2 _ F2.rf_lt F2.rb_lt) F1.rf_lt F1.rb_lt) hcf hcb

theorem frame_binop (ty : WType) (kind : BinOpKind) (left right : TExpr)
    (IHl : GenIH left) (IHr : GenIH right) : GenIH (.BinOp ty kind left right) := by
  intro p cf cb p' rf rb rs hcf hcb hgen
  simp only [gen_expr] at hgen
  split at hgen
  · exact absurd hgen (by simp)
  · rename_i r1 p1 f1 b1 lsym hl
    split at hgen
    · exact absurd hgen (by simp)
    · rename_i r2 p2 f2 b2 rsym hr
      simp only [Except.ok.injEq, Prod.mk.injEq] at hgen
      obtain ⟨rfl, rfl, rfl, rfl⟩ := hgen
      have F1 : GenFrame p p1 cf cb f1 b1 := IHl p cf cb p1 f1 b1 lsym hcf hcb hl
      have F2 : GenFrame p1 p2 f1 b1 f2 b2 :=
        IHr p1 f1 b1 p2 f2 b2 rsym F1.rf_lt F1.rb_lt hr
      have hf2 : f2 < p2.funcs.length := F2.rf_lt
      have hb2 : b2 < (funcGet p2 f2).blocks.length := F2.rb_lt
      refine frameTrans F1 (frameTrans F2
        (frameTrans (genFrame_add_local p2 ty f2 b2 hf2 hb2)
          (genFrame_add_statement (p2.add_local ty f2).1 f2 b2 _ ?_ ?_) hf2 hb2)
        F1.rf_lt F1.rb_lt) hcf hcb
      · rw [length_add_local]
        exact hf2
      · rw [show (funcGet (p2.add_local ty f2).1 f2).blocks = (funcGet p2 f2).blocks from
          blocks_add_local p2 ty f2 f2]
        exact hb2

theorem frame_let (ty : WType) (name : Symbol) (value body : TExpr)
    (IHv : GenIH value) (IHbody : GenIH body) : GenIH (.LetE ty name value body) := by
  intro p cf cb p' rf rb rs hcf hcb hgen
  simp only [gen_expr] at hgen
  split at hgen
  · exact absurd hgen (by simp)
  · rename_i r1 p1 f1 b1 vsym hv
    have F1 : GenFrame p p1 cf cb f1 b1 := IHv p cf cb p1 f1 b1 vsym hcf hcb hv
    have hf1 : f1 < p1.funcs.length := F1.rf_lt
    have hb1 : b1 < (funcGet p1 f1).blocks.length := F1.rb_lt
    have hf1a : f1 < (p1.add_local_named value.ty name f1).funcs.length := by
      rw [length_add_local_named]
      exact hf1
    have hb1a : b1 < (funcGet (p1.add_local_named value.ty name f1) f1).blocks.length := by
      rw [show (funcGet (p1.add_local_named value.ty name f1) f1).blocks
          = (funcGet p1 f1).blocks from blocks_add_local_named p1 value.ty name f1 f1]
      exact hb1
    have hf1b : f1 < ((p1.add_local_named value.ty name f1).add_statement f1 b1
        (Statement.Assign name vsym)).funcs.length := by
      rw [length_add_statement]
      exact hf1a
    have hb1b : b1 < (funcGet ((p1.add_local_named value.ty name f1).add_statement f1 b1
        (Statement.Assign name vsym)) f1).blocks.length := by
      rw [blocksLen_add_statement]
      exact hb1a
    have F2 : GenFrame ((p1.add_local_named value.ty name f1).add_statement f1 b1
        (Statement.Assign name vsym)) p' f1 b1 rf rb :=
      IHbody _ f1 b1 p' rf rb rs hf1b hb1b hgen
    exact frameTrans F1
      (frameTrans (genFrame_add_local_named p1 value.ty name f1 b1 hf1 hb1)
        (frameTrans (genFrame_add_statement _ f1 b1 _ hf1a hb1a) F2 hf1a hb1a)
        hf1 hb1) hcf hcb

set_option maxHeartbeats 1600000 in
theorem frame_if (ty : WType) (c t f : TExpr)
    (IHc : GenIH c) (IHt : GenIH t) (IHf : GenIH f) : GenIH (.If ty c t f) := by
  intro p cf cb p' rf rb rs hcf hcb hgen
  simp only [gen_expr] at hgen
  split at hgen
  · exact absurd hgen (by simp)
  · rename_i r1 p1 f1 b1 csym hv
    split at hgen
    · exact absurd hgen (by simp)
    · rename_i r2 p3 tf tb2 tsym ht
      split at hgen
      · exact absurd hgen (by simp)
      · rename_i r3 p4 ff fb2 fsym hfa
        set tb := (p1.addBlockIn f1).2 with htbdef
        set pT := (p1.addBlockIn f1).1 with hpTdef
        set fbk := (pT.addBlockIn f1).2 with hfbkdef
        set pF := (pT.addBlockIn f1).1 with hpFdef
        set p2 := pF.setTerminator f1 b1 (Terminator.Branch csym tb fbk) with hp2def
        set res := (p4.add_local ty tf).2 with hresdef
        set p5 := (p4.add_local ty tf).1 with hp5def
        set p6 := p5.add_statement tf tb2 (Statement.Assign res tsym) with hp6def
        set p7 := p6.add_statement ff fb2 (Statement.Assign res fsym) with hp7def
        have F1 : GenFrame p p1 cf cb f1 b1 := IHc p cf cb p1 f1 b1 csym hcf hcb hv
        have hf1 : f1 < p1.funcs.length := F1.rf_lt
        have hb1 : b1 < (funcGet p1 f1).blocks.length := F1.rb_lt
        have hLp : p.funcs.length ≤ p1.funcs.length := F1.funcs_le
        have hLpT : pT.funcs.length = p1.funcs.length := by
          rw [hpTdef, length_addBlockIn]
        have hLpF : pF.funcs.length = pT.funcs.length := by
          rw [hpFdef, length_addBlockIn]
        have hLp2 : p2.funcs.length = pF.funcs.length := by
          rw [hp2def, length_setTerminator]
        have htbv : tb = (funcGet p1 f1).blocks.length := by
          rw [htbdef, addBlockIn_snd]
        have hBpT : (funcGet pT f1).blocks.length = (funcGet p1 f1).blocks.length + 1 := by
          rw [hpTdef]
          exact blocksLen_addBlockIn_self p1 f1 hf1
        have hfbkv : fbk = (funcGet pT f1).blocks.length := by
          rw [hfbkdef, addBlockIn_snd]
        have hBpF : (funcGet pF f1).blocks.length = (funcGet pT f1).blocks.length + 1 := by
          rw [hpFdef]
          exact blocksLen_addBlockIn_self pT f1 (by omega)
        have hBp2 : (funcGet p2 f1).blocks.length = (funcGet pF f1).blocks.length := by
          rw [hp2def, blocksLen_setTerminator]
        have hf1p2 : f1 < p2.funcs.length := by omega
        have htbp2 : tb < (funcGet p2 f1).blocks.length := by omega
        have F2 : GenFrame p2 p3 f1 tb tf tb2 := IHt p2 f1 tb p3 tf tb2 tsym hf1p2 htbp2 ht
        have hLp3 : p2.funcs.length ≤ p3.funcs.length := F2.funcs_le
        have hf1p3 : f1 < p3.funcs.length := by omega
        have hBL2 : (funcGet p2 f1).blocks.length ≤ (funcGet p3 f1).blocks.length :=
          F2.blocksLenLe f1 hf1p2
        have hfbkp3 : fbk < (funcGet p3 f1).blocks.length := by omega
        have F3 : GenFrame p3 p4 f1 fbk ff fb2 := IHf p3 f1 fbk p4 ff fb2 fsym hf1p3 hfbkp3 hfa
        have htfp3 : tf < p3.funcs.length := F2.rf_lt
        have htb2p3 : tb2 < (funcGet p3 tf).blocks.length := F2.rb_lt
        have hffp4 : ff < p4.funcs.length := F3.rf_lt
        have hfb2p4 : fb2 < (funcGet p4 ff).blocks.length := F3.rb_lt
        have hLp4 : p3.funcs.length ≤ p4.funcs.length := F3.funcs_le
        have hLp5 : p5.funcs.length = p4.funcs.length := by
          rw [hp5def, length_add_local]
        have hLp6 : p6.funcs.length = p5.funcs.length := by
          rw [hp6def, length_add_statement]
        have hLp7 : p7.funcs.length = p6.funcs.length := by
          rw [hp7def, length_add_statement]
        have ha1 : f1 = cf ∨ p.funcs.length ≤ f1 := F1.rf_eq_or_new
        have hatf : tf = cf ∨ p.funcs.length ≤ tf := by
          rcases F2.rf_eq_or_new with he | hge
          · rw [he]
            exact ha1
          · right
            omega
        have haff : ff = cf ∨ p.funcs.length ≤ ff := by
          rcases F3.rf_eq_or_new with he | hge
          · rw [he]
            exact ha1
          · right
            omega
        have K1 : Keep p p1 p.funcs.length cf cb (funcGet p cf).blocks.length :=
          F1.toKeep _ cf cb _ le_rfl hcf le_rfl hcb (Or.inl rfl) (fun _ => Or.inl rfl)
        have K2 : Keep p1 pT p.funcs.length cf cb (funcGet p cf).blocks.length := by
          rw [hpTdef]
          exact keep_addBlockIn p1 f1 _ cf cb _ ha1 hcf K1.bl hcb
        have C2 := K1.trans K2
        have K3 : Keep pT pF p.funcs.length cf cb (funcGet p cf).blocks.length := by
          rw [hpFdef]
          exact keep_addBlockIn pT f1 _ cf cb _ ha1 hcf C2.bl hcb
        have C3 := C2.trans K3
        have hcb1 : f1 = cf → b1 = cb ∨ (funcGet p cf).blocks.length ≤ b1 :=
          F1.rb_eq_or_new
        have K4 : Keep pF p2 p.funcs.length cf cb (funcGet p cf).blocks.length := by
          rw [hp2def]
          exact keep_setTerminator pF f1 b1 _ _ cf cb _ ha1 hcf hcb1
        have C4 := C3.trans K4
        have hctb : f1 = cf → tb = cb ∨ (funcGet p cf).blocks.length ≤ tb := by
          intro he
          right
          rw [he] at htbv
          have := K1.bl
          omega
        have K5 : Keep p2 p3 p.funcs.length cf cb (funcGet p cf).blocks.length :=
          F2.toKeep _ cf cb _ (by omega) hcf C4.bl hcb ha1 hctb
        have C5 := C4.trans K5
        have hcfbk : f1 = cf → fbk = cb ∨ (funcGet p cf).blocks.length ≤ fbk := by
          intro he
          right
          rw [he] at hfbkv hBpT htbv
          have := K1.bl
          omega
        have K6 : Keep p3 p4 p.funcs.length cf cb (funcGet p cf).blocks.length :=
          F3.toKeep _ cf cb _ (by omega) hcf C5.bl hcb ha1 hcfbk
        have C6 := C5.trans K6
        have K7 : Keep p4 p5 p.funcs.length cf cb (funcGet p cf).blocks.length := by
          rw [hp5def]
          exact keep_add_local p4 ty tf _ cf cb _ hatf hcf
        have C7 := C6.trans K7
        have hctb2 : tf = cf → tb2 = cb ∨ (funcGet p cf).blocks.length ≤ tb2 := by
          intro he
          right
          rcases F2.rf_eq_or_new with he2 | hge2
          · have hf1cf : f1 = cf := by omega
            rcases F2.rb_eq_or_new he2 with hb | hb
            · rw [hf1cf] at htbv
              have := K1.bl
              omega
            · rw [hf1cf] at hb
              have := C4.bl
              omega
          · omega
        have hcfb2 : ff = cf → fb2 = cb ∨ (funcGet p cf).blocks.length ≤ fb2 := by
          intro he
          right
          rcases F3.rf_eq_or_new with he2 | hge2
          · have hf1cf : f1 = cf := by omega
            rcases F3.rb_eq_or_new he2 with hb | hb
            · rw [hf1cf] at hfbkv hBpT htbv
              have := K1.bl
              omega
            · rw [hf1cf] at hb
              have := C5.bl
              omega
          · omega
        have K8 : Keep p5 p6 p.funcs.length cf cb (funcGet p cf).blocks.length := by
          rw [hp6def]
          exact keep_add_statement p5 tf tb2 _ _ cf cb _ hatf hcf hctb2
        have C8 := C7.trans K8
        have K9 : Keep p6 p7 p.funcs.length cf cb (funcGet p cf).blocks.length := by
          rw [hp7def]
          exact keep_add_statement p6 ff fb2 _ _ cf cb _ haff hcf hcfb2
        have C9 := C8.trans K9
        have hBranchNotCrash : Terminator.Branch csym tb fbk ≠ Terminator.Crash := by
          simp
        split at hgen
        · rename_i hc
          set p8 := p7.add_local_named ty res ff with hp8def
          set cont := p8.add_func.2 with hcontdef
          set p9 := p8.add_func.1 with hp9def
          set cb2 := (p9.addBlockIn cont).2 with hcb2def
          set p10 := (p9.addBlockIn cont).1 with hp10def
          set p11 := p10.setTerminator tf tb2 (Terminator.JumpFunction cont) with hp11def
          set p12 := p11.setTerminator ff fb2 (Terminator.JumpFunction cont) with hp12def
          simp only [Except.ok.injEq, Prod.mk.injEq] at hgen
          obtain ⟨rfl, rfl, rfl, rfl⟩ := hgen
          have hLp8 : p8.funcs.length = p7.funcs.length := by
            rw [hp8def, length_add_local_named]
          have hcontv : cont = p8.funcs.length := by
            rw [hcontdef, add_func_snd]
          have hLp9 : p9.funcs.length = p8.funcs.length + 1 := by
            rw [hp9def, add_func_length]
          have hLp10 : p10.funcs.length = p9.funcs.length := by
            rw [hp10def, length_addBlockIn]
          have hLp11 : p11.funcs.length = p10.funcs.length := by
            rw [hp11def, length_setTerminator]
          have hLp12 : p12.funcs.length = p11.funcs.length := by
            rw [hp12def, length_setTerminator]
          have hcb2v : cb2 = (funcGet p9 cont).blocks.length := by
            rw [hcb2def, addBlockIn_snd]
          have hcontp9 : cont < p9.funcs.length := by omega
          have hBp10 : (funcGet p10 cont).blocks.length
              = (funcGet p9 cont).blocks.length + 1 := by
            rw [hp10def]
            exact blocksLen_addBlockIn_self p9 cont hcontp9
          have hBp11 : (funcGet p11 cont).blocks.length
              = (funcGet p10 cont).blocks.length := by
            rw [hp11def, blocksLen_setTerminator]
          have hBp12 : (funcGet p12 cont).blocks.length
              = (funcGet p11 cont).blocks.length := by
            rw [hp12def, blocksLen_setTerminator]
          have K10 : Keep p7 p8 p.funcs.length cf cb (funcGet p cf).blocks.length := by
            rw [hp8def]
            exact keep_add_local_named p7 ty res ff _ cf cb _ haff hcf
          have C10 := C9.trans K10
          have K11 : Keep p8 p9 p.funcs.length cf cb (funcGet p cf).blocks.length := by
            rw [hp9def]
            exact keep_add_func p8 _ cf cb _ hcf (by omega)
          have C11 := C10.trans K11
          have K12 : Keep p9 p10 p.funcs.length cf cb (funcGet p cf).blocks.length := by
            rw [hp10def]
            exact keep_addBlockIn p9 cont _ cf cb _ (Or.inr (by omega)) hcf C11.bl hcb
          have C12 := C11.trans K12
          have K13 : Keep p10 p11 p.funcs.length cf cb (funcGet p cf).blocks.length := by
            rw [hp11def]
            exact keep_setTerminator p10 tf tb2 _ _ cf cb _ hatf hcf hctb2
          have C13 := C12.trans K13
          have K14 : Keep p11 p12 p.funcs.length cf cb (funcGet p cf).blocks.length := by
            rw [hp12def]
            exact keep_setTerminator p11 ff fb2 _ _ cf cb _ haff hcf hcfb2
          have K := C13.trans K14
          have hopen : ∀ S : Nat × Nat → Prop, S (cf, cb) → OpenExcept p S →
              OpenExcept p12 (fun fb => (S fb ∧ fb ≠ (cf, cb)) ∨ fb = (cont, cb2)) := by
            intro S hS hOpen
            have O1 := F1.open_transfer S hS hOpen
            have O2 := open_addBlockIn p1 f1 _ O1
            rw [← htbv, ← hpTdef] at O2
            have O3 := open_addBlockIn pT f1 _ O2
            rw [← hfbkv, ← hpFdef] at O3
            have O4 := open_setTerminator pF f1 b1 (Terminator.Branch csym tb fbk)
              hBranchNotCrash _ O3
            rw [← hp2def] at O4
            have O5 := F2.open_transfer _ (by
              refine ⟨Or.inl (Or.inr rfl), fun he => ?_⟩
              injection he with he1 he2
              omega) O4
            have O6 := F3.open_transfer _ (by
              refine Or.inl ⟨⟨Or.inr rfl, fun he => ?_⟩, fun he => ?_⟩
              · injection he with he1 he2
                omega
              · injection he with he1 he2
                omega) O5
            have O7 := open_add_local p4 ty tf _ O6
            rw [← hp5def] at O7
            have O8 := open_add_statement p5 tf tb2 (Statement.Assign res tsym) _ O7
            rw [← hp6def] at O8
            have O9 := open_add_statement p6 ff fb2 (Statement.Assign res fsym) _ O8
            rw [← hp7def] at O9
            have O10 := open_add_local_named p7 ty res ff _ O9
            rw [← hp8def] at O10
            have O11 := open_add_func p8 _ O10
            rw [← hp9def] at O11
            have O12 := open_addBlockIn p9 cont _ O11
            rw [← hcb2v, ← hp10def] at O12
            have O13 := open_setTerminator p10 tf tb2 (Terminator.JumpFunction cont)
              (by simp) _ O12
            rw [← hp11def] at O13
            have O14 := open_setTerminator p11 ff fb2 (Terminator.JumpFunction cont)
              (by simp) _ O13
            rw [← hp12def] at O14
            refine openMono p12 _ _ ?_ O14
            intro fb hfb
            rcases hfb with ⟨⟨h7, hnet⟩, hnef⟩
            rcases h7 with h6 | hcont
            · rcases h6 with ⟨h5, hnefbk⟩ | heqff
              · rcases h5 with ⟨h4, hnetb⟩ | heqtf
                · rcases h4 with ⟨h3, hneb1⟩
                  rcases h3 with h2 | heqfbk
                  · rcases h2 with h1 | heqtb
                    · rcases h1 with hA | heqb1
                      · exact Or.inl hA
                      · exact absurd heqb1 hneb1
                    · exact absurd heqtb hnetb
                  · exact absurd heqfbk hnefbk
                · exact absurd heqtf hnet
              · exact absurd heqff hnef
            · exact Or.inr hcont
          exact ⟨by omega, by omega, by omega, Or.inr (by omega),
            fun he => absurd he (by omega), K.fo, K.pc, K.lc, K.bl, K.fb, K.sc, hopen⟩
        · rename_i hc
          have htfe : tf = f1 := by
            by_contra hx
            exact hc (Or.inl hx)
          have hffe : ff = f1 := by
            by_contra hx
            exact hc (Or.inr hx)
          set cbj := (p7.addBlockIn f1).2 with hcbjdef
          set pB := (p7.addBlockIn f1).1 with hpBdef
          set p8 := pB.setTerminator tf tb2 (Terminator.JumpBlock cbj) with hp8def
          set p9 := p8.setTerminator ff fb2 (Terminator.JumpBlock cbj) with hp9def
          simp only [Except.ok.injEq, Prod.mk.injEq] at hgen
          obtain ⟨rfl, rfl, rfl, rfl⟩ := hgen
          have hLpB : pB.funcs.length = p7.funcs.length := by
            rw [hpBdef, length_addBlockIn]
          have hLp8 : p8.funcs.length = pB.funcs.length := by
            rw [hp8def, length_setTerminator]
          have hLp9 : p9.funcs.length = p8.funcs.length := by
            rw [hp9def, length_setTerminator]
          have hcbjv : cbj = (funcGet p7 f1).blocks.length := by
            rw [hcbjdef, addBlockIn_snd]
          have hf1p7 : f1 < p7.funcs.length := by omega
          have hBpB : (funcGet pB f1).blocks.length
              = (funcGet p7 f1).blocks.length + 1 := by
            rw [hpBdef]
            exact blocksLen_addBlockIn_self p7 f1 hf1p7
          have hBp8 : (funcGet p8 f1).blocks.length = (funcGet pB f1).blocks.length := by
            rw [hp8def, blocksLen_setTerminator]
          have hBp9 : (funcGet p9 f1).blocks.length = (funcGet p8 f1).blocks.length := by
            rw [hp9def, blocksLen_setTerminator]
          have hB47 : (funcGet p4 f1).blocks.length ≤ (funcGet p7 f1).blocks.length := by
            have e5 : (funcGet p5 f1).blocks = (funcGet p4 f1).blocks := by
              rw [hp5def]
              exact blocks_add_local p4 ty tf f1
            have e6 : (funcGet p6 f1).blocks.length = (funcGet p5 f1).blocks.length := by
              rw [hp6def, blocksLen_add_statement]
            have e7 : (funcGet p7 f1).blocks.length = (funcGet p6 f1).blocks.length := by
              rw [hp7def, blocksLen_add_statement]
            rw [e7, e6, e5]
          have hB34 : (funcGet p3 f1).blocks.length ≤ (funcGet p4 f1).blocks.length :=
            F3.blocksLenLe f1 hf1p3
          have K10 : Keep p7 pB p.funcs.length cf cb (funcGet p cf).blocks.length := by
            rw [hpBdef]
            exact keep_addBlockIn p7 f1 _ cf cb _ ha1 hcf C9.bl hcb
          have C10 := C9.trans K10
          have hctbB : tf = cf → tb2 = cb ∨ (funcGet p cf).blocks.length ≤ tb2 := hctb2
          have K11 : Keep pB p8 p.funcs.length cf cb (funcGet p cf).blocks.length := by
            rw [hp8def]
            exact keep_setTerminator pB tf tb2 _ _ cf cb _ hatf hcf hctbB
          have C11 := C10.trans K11
          have K12 : Keep p8 p9 p.funcs.length cf cb (funcGet p cf).blocks.length := by
            rw [hp9def]
            exact keep_setTerminator p8 ff fb2 _ _ cf cb _ haff hcf hcfb2
          have K := C11.trans K12
          have hrbnew : f1 = cf → cbj = cb ∨ (funcGet p cf).blocks.length ≤ cbj := by
            intro he
            right
            rw [he] at hcbjv
            have := C9.bl
            omega
          have hopen : ∀ S : Nat × Nat → Prop, S (cf, cb) → OpenExcept p S →
              OpenExcept p9 (fun fb => (S fb ∧ fb ≠ (cf, cb)) ∨ fb = (f1, cbj)) := by
            intro S hS hOpen
            have O1 := F1.open_transfer S hS hOpen
            have O2 := open_addBlockIn p1 f1 _ O1
            rw [← htbv, ← hpTdef] at O2
            have O3 := open_addBlockIn pT f1 _ O2
            rw [← hfbkv, ← hpFdef] at O3
            have O4 := open_setTerminator pF f1 b1 (Terminator.Branch csym tb fbk)
              hBranchNotCrash _ O3
            rw [← hp2def] at O4
            have O5 := F2.open_transfer _ (by
              refine ⟨Or.inl (Or.inr rfl), fun he => ?_⟩
              injection he with he1 he2
              omega) O4
            have O6 := F3.open_transfer _ (by
              refine Or.inl ⟨⟨Or.inr rfl, fun he => ?_⟩, fun he => ?_⟩
              · injection he with he1 he2
                omega
              · injection he with he1 he2
                omega) O5
            have O7 := open_add_local p4 ty tf _ O6
            rw [← hp5def] at O7
            have O8 := open_add_statement p5 tf tb2 (Statement.Assign res tsym) _ O7
            rw [← hp6def] at O8
            have O9 := open_add_statement p6 ff fb2 (Statement.Assign res fsym) _ O8
            rw [← hp7def] at O9
            have O10 := open_addBlockIn p7 f1 _ O9
            rw [← hcbjv, ← hpBdef] at O10
            have O11 := open_setTerminator pB tf tb2 (Terminator.JumpBlock cbj)
              (by simp) _ O10
            rw [← hp8def] at O11
            have O12 := open_setTerminator p8 ff fb2 (Terminator.JumpBlock cbj)
              (by simp) _ O11
            rw [← hp9def] at O12
            refine openMono p9 _ _ ?_ O12
            intro fb hfb
            rcases hfb with ⟨⟨h7, hnet⟩, hnef⟩
            rcases h7 with h6 | hcbj
            · rcases h6 with ⟨h5, hnefbk⟩ | heqff
              · rcases h5 with ⟨h4, hnetb⟩ | heqtf
                · rcases h4 with ⟨h3, hneb1⟩
                  rcases h3 with h2 | heqfbk
                  · rcases h2 with h1 | heqtb
                    · rcases h1 with hA | heqb1
                      · exact Or.inl hA
                      · exact absurd heqb1 hneb1
                    · exact absurd heqtb hnetb
                  · exact absurd heqfbk hnefbk
                · exact absurd heqtf hnet
              · exact absurd heqff hnef
            · exact Or.inr hcbj
          exact ⟨by omega, by omega, by omega, ha1, hrbnew,
            K.fo, K.pc, K.lc, K.bl, K.fb, K.sc, hopen⟩

set_option maxHeartbeats 1600000 in
theorem frame_for (ty : WType) (n : Nat) (data : TExpr) (hs hen hst : Bool)
    (builder func : TExpr) (IHd : GenIH data) (IHb : GenIH builder)
    (IHf : ∀ lty ps body, func = .Lambda lty ps body → GenIH body) :
    GenIH (.ForE ty n data hs hen hst builder func) := by
  intro p cf cb p' rf rb rs hcf hcb hgen
  rw [gen_expr.eq_def] at hgen
  simp only [] at hgen
  split at hgen
  · exact absurd hgen (by simp)
  · rename_i hcond
    split at hgen
    · rename_i lty ps body
      split at hgen
      · exact absurd hgen (by simp)
      · rename_i r1 p1 f1 b1 dsym hd
        split at hgen
        · exact absurd hgen (by simp)
        · rename_i r2 p2 f2 b2 bsym hb
          split at hgen
          · exact absurd hgen (by simp)
          · rename_i r3 p7 bef beb s7 hbody
            set bf := p2.add_func.2 with hbfdef
            set pA := p2.add_func.1 with hpAdef
            set bb := (pA.addBlockIn bf).2 with hbbdef
            set pB := (pA.addBlockIn bf).1 with hpBdef
            set p3 := pB.add_local_named (ps.getD 0 dfltParam).ty
              (ps.getD 0 dfltParam).name bf with hp3def
            set p4 := p3.add_local_named (ps.getD 1 dfltParam).ty
              (ps.getD 1 dfltParam).name bf with hp4def
            set p5 := p4.insertParam bf dsym data.ty with hp5def
            set p6 := p5.insertParam bf bsym builder.ty with hp6def
            set p8 := p7.setTerminator bef beb Terminator.EndFunction with hp8def
            set cont := p8.add_func.2 with hcontdef
            set p9 := p8.add_func.1 with hp9def
            set cb2 := (p9.addBlockIn cont).2 with hcb2def
            set p10 := (p9.addBlockIn cont).1 with hp10def
            set p11 := p10.setTerminator f2 b2 (Terminator.ParallelFor
              ⟨dsym, bsym, (ps.getD 1 dfltParam).name, (ps.getD 0 dfltParam).name,
                bf, cont⟩) with hp11def
            simp only [Except.ok.injEq, Prod.mk.injEq] at hgen
            obtain ⟨rfl, rfl, rfl, rfl⟩ := hgen
            have F1 : GenFrame p p1 cf cb f1 b1 := IHd p cf cb p1 f1 b1 dsym hcf hcb hd
            have hf1 : f1 < p1.funcs.length := F1.rf_lt
            have hb1 : b1 < (funcGet p1 f1).blocks.length := F1.rb_lt
            have hLp1 : p.funcs.length ≤ p1.funcs.length := F1.funcs_le
            have F2 : GenFrame p1 p2 f1 b1 f2 b2 := IHb p1 f1 b1 p2 f2 b2 bsym hf1 hb1 hb
            have hf2 : f2 < p2.funcs.length := F2.rf_lt
            have hb2 : b2 < (funcGet p2 f2).blocks.length := F2.rb_lt
            have hLp2 : p1.funcs.length ≤ p2.funcs.length := F2.funcs_le
            have hbfv : bf = p2.funcs.length := by
              rw [hbfdef, add_func_snd]
            have hLpA : pA.funcs.length = p2.funcs.length + 1 := by
              rw [hpAdef, add_func_length]
            have hNewF : funcGet pA bf = SirFunction.mk p2.funcs.length [] [] [] := by
              rw [hpAdef, hbfv]
              exact funcGet_add_func_new p2
            have hbbv : bb = (funcGet pA bf).blocks.length := by
              rw [hbbdef, addBlockIn_snd]
            have hbb0 : bb = 0 := by
              rw [hbbv, hNewF]
              rfl
            have hbfpA : bf < pA.funcs.length := by omega
            have hLpB : pB.funcs.length = pA.funcs.length := by
              rw [hpBdef, length_addBlockIn]
            have hBpB : (funcGet pB bf).blocks.length = (funcGet pA bf).blocks.length + 1 := by
              rw [hpBdef]
              exact blocksLen_addBlockIn_self pA bf hbfpA
            have hLp3 : p3.funcs.length = pB.funcs.length := by
              rw [hp3def, length_add_local_named]
            have hLp4 : p4.funcs.length = p3.funcs.length := by
              rw [hp4def, length_add_local_named]
            have hLp5 : p5.funcs.length = p4.funcs.length := by
              rw [hp5def, length_insertParam]
            have hLp6 : p6.funcs.length = p5.funcs.length := by
              rw [hp6def, length_insertParam]
            have hB3 : (funcGet p3 bf).blocks = (funcGet pB bf).blocks := by
              rw [hp3def]
              exact blocks_add_local_named pB _ _ bf bf
            have hB4 : (funcGet p4 bf).blocks = (funcGet p3 bf).blocks := by
              rw [hp4def]
              exact blocks_add_local_named p3 _ _ bf bf
            have hB5 : (funcGet p5 bf).blocks = (funcGet p4 bf).blocks := by
              rw [hp5def]
              exact blocks_insertParam p4 bf _ _ bf
            have hB6 : (funcGet p6 bf).blocks = (funcGet p5 bf).blocks := by
              rw [hp6def]
              exact blocks_insertParam p5 bf _ _ bf
            have hbfp6 : bf < p6.funcs.length := by omega
            have hbbp6 : bb < (funcGet p6 bf).blocks.length := by
              rw [hB6, hB5, hB4, hB3]
              omega
            have F3 : GenFrame p6 p7 bf bb bef beb :=
              IHf lty ps body rfl p6 bf bb p7 bef beb s7 hbfp6 hbbp6 hbody
            have hLp7 : p6.funcs.length ≤ p7.funcs.length := F3.funcs_le
            have hbef : bef < p7.funcs.length := F3.rf_lt
            have hbeb : beb < (funcGet p7 bef).blocks.length := F3.rb_lt
            have hLp8 : p8.funcs.length = p7.funcs.length := by
              rw [hp8def, length_setTerminator]
            have hcontv : cont = p8.funcs.length := by
              rw [hcontdef, add_func_snd]
            have hLp9 : p9.funcs.length = p8.funcs.length + 1 := by
              rw [hp9def, add_func_length]
            have hLp10 : p10.funcs.length = p9.funcs.length := by
              rw [hp10def, length_addBlockIn]
            have hLp11 : p11.funcs.length = p10.funcs.length := by
              rw [hp11def, length_setTerminator]
            have hcb2v : cb2 = (funcGet p9 cont).blocks.length := by
              rw [hcb2def, addBlockIn_snd]
            have hcontp9 : cont < p9.funcs.length := by omega
            have hBp10 : (funcGet p10 cont).blocks.length
                = (funcGet p9 cont).blocks.length + 1 := by
              rw [hp10def]
              exact blocksLen_addBlockIn_self p9 cont hcontp9
            have hBp11 : (funcGet p11 cont).blocks.length
                = (funcGet p10 cont).blocks.length := by
              rw [hp11def, blocksLen_setTerminator]
            have ha1 : f1 = cf ∨ p.funcs.length ≤ f1 := F1.rf_eq_or_new
            have haf2 : f2 = cf ∨ p.funcs.length ≤ f2 := by
              rcases F2.rf_eq_or_new with he | hge
              · rw [he]
                exact ha1
              · right
                omega
            have habef : p.funcs.length ≤ bef := by
              rcases F3.rf_eq_or_new with he | hge
              · omega
              · omega
            have K1 : Keep p p1 p.funcs.length cf cb (funcGet p cf).blocks.length :=
              F1.toKeep _ cf cb _ le_rfl hcf le_rfl hcb (Or.inl rfl) (fun _ => Or.inl rfl)
            have K2 : Keep p1 p2 p.funcs.length cf cb (funcGet p cf).blocks.length :=
              F2.toKeep _ cf cb _ (by omega) hcf K1.bl hcb ha1 F1.rb_eq_or_new
            have C2 := K1.trans K2
            have hcb2cf : f2 = cf → b2 = cb ∨ (funcGet p cf).blocks.length ≤ b2 := by
              intro he
              rcases F2.rf_eq_or_new with he2 | hge2
              · have hf1cf : f1 = cf := by omega
                rcases F2.rb_eq_or_new he2 with hbe | hbe
                · rcases F1.rb_eq_or_new hf1cf with hb1e | hb1e
                  · left
                    omega
                  · right
                    omega
                · right
                  rw [hf1cf] at hbe
                  have := K1.bl
                  omega
              · omega
            have K3 : Keep p2 pA p.funcs.length cf cb (funcGet p cf).blocks.length := by
              rw [hpAdef]
              exact keep_add_func p2 _ cf cb _ hcf (by omega)
            have C3 := C2.trans K3
            have K4 : Keep pA pB p.funcs.length cf cb (funcGet p cf).blocks.length := by
              rw [hpBdef]
              exact keep_addBlockIn pA bf _ cf cb _ (Or.inr (by omega)) hcf C3.bl hcb
            have C4 := C3.trans K4
            have K5 : Keep pB p3 p.funcs.length cf cb (funcGet p cf).blocks.length := by
              rw [hp3def]
              exact keep_add_local_named pB _ _ bf _ cf cb _ (Or.inr (by omega)) hcf
            have C5 := C4.trans K5
            have K6 : Keep p3 p4 p.funcs.length cf cb (funcGet p cf).blocks.length := by
              rw [hp4def]
              exact keep_add_local_named p3 _ _ bf _ cf cb _ (Or.inr (by omega)) hcf
            have C6 := C5.trans K6
            have K7 : Keep p4 p5 p.funcs.length cf cb (funcGet p cf).blocks.length := by
              rw [hp5def]
              exact keep_insertParam p4 bf _ _ _ cf cb _ (by omega) hcf
            have C7 := C6.trans K7
            have K8 : Keep p5 p6 p.funcs.length cf cb (funcGet p cf).blocks.length := by
              rw [hp6def]
              exact keep_insertParam p5 bf _ _ _ cf cb _ (by omega) hcf
            have C8 := C7.trans K8
            have K9 : Keep p6 p7 p.funcs.length cf cb (funcGet p cf).blocks.length :=
              F3.toKeep _ cf cb _ (by omega) hcf C8.bl hcb (Or.inr (by omega))
                (fun hx => absurd hx (by omega))
            have C9 := C8.trans K9
            have K10 : Keep p7 p8 p.funcs.length cf cb (funcGet p cf).blocks.length := by
              rw [hp8def]
              exact keep_setTerminator p7 bef beb _ _ cf cb _ (Or.inr habef) hcf
                (fun hx => absurd hx (by omega))
            have C10 := C9.trans K10
            have K11 : Keep p8 p9 p.funcs.length cf cb (funcGet p cf).blocks.length := by
              rw [hp9def]
              exact keep_add_func p8 _ cf cb _ hcf (by omega)
            have C11 := C10.trans K11
            have K12 : Keep p9 p10 p.funcs.length cf cb (funcGet p cf).blocks.length := by
              rw [hp10def]
              exact keep_addBlockIn p9 cont _ cf cb _ (Or.inr (by omega)) hcf C11.bl hcb
            have C12 := C11.trans K12
            have K13 : Keep p10 p11 p.funcs.length cf cb (funcGet p cf).blocks.length := by
              rw [hp11def]
              exact keep_setTerminator p10 f2 b2 _ _ cf cb _ haf2 hcf hcb2cf
            have K := C12.trans K13
            have hopen : ∀ S : Nat × Nat → Prop, S (cf, cb) → OpenExcept p S →
                OpenExcept p11 (fun fb => (S fb ∧ fb ≠ (cf, cb)) ∨ fb = (cont, cb2)) := by
              intro S hS hOpen
              have O1 := F1.open_transfer S hS hOpen
              have O2 := F2.open_transfer _ (Or.inr rfl) O1
              have O3 := open_add_func p2 _ O2
              rw [← hpAdef] at O3
              have O4 := open_addBlockIn pA bf _ O3
              rw [← hbbv, ← hpBdef] at O4
              have O5 := open_add_local_named pB (ps.getD 0 dfltParam).ty
                (ps.getD 0 dfltParam).name bf _ O4
              rw [← hp3def] at O5
              have O6 := open_add_local_named p3 (ps.getD 1 dfltParam).ty
                (ps.getD 1 dfltParam).name bf _ O5
              rw [← hp4def] at O6
              have O7 := open_insertParam p4 bf dsym data.ty _ O6
              rw [← hp5def] at O7
              have O8 := open_insertParam p5 bf bsym builder.ty _ O7
              rw [← hp6def] at O8
              have O9 := F3.open_transfer _ (Or.inr rfl) O8
              have O10 := open_setTerminator p7 bef beb Terminator.EndFunction
                (by simp) _ O9
              rw [← hp8def] at O10
              have O11 := open_add_func p8 _ O10
              rw [← hp9def] at O11
              have O12 := open_addBlockIn p9 cont _ O11
              rw [← hcb2v, ← hp10def] at O12
              have O13 := open_setTerminator p10 f2 b2 (Terminator.ParallelFor
                ⟨dsym, bsym, (ps.getD 1 dfltParam).name, (ps.getD 0 dfltParam).name,
                  bf, cont⟩) (by simp) _ O12
              rw [← hp11def] at O13
              refine openMono p11 _ _ ?_ O13
              intro fb hfb
              rcases hfb with ⟨h7, hnef2⟩
              rcases h7 with h6 | hcont
              · rcases h6 with ⟨h5, hnebef⟩
                rcases h5 with ⟨h4, hnebb⟩ | heqbef
                · rcases h4 with h3 | heqbb
                  · rcases h3 with ⟨h2, hneb1⟩ | heqf2
                    · rcases h2 with h1 | heqb1
                      · exact Or.inl h1
                      · exact absurd heqb1 hneb1
                    · exact absurd heqf2 hnef2
                  · exact absurd heqbb hnebb
                · exact absurd heqbef hnebef
              · exact Or.inr hcont
            exact ⟨by omega, by omega, by omega, Or.inr (by omega),
              fun he => absurd he (by omega), K.fo, K.pc, K.lc, K.bl, K.fb, K.sc, hopen⟩
    · exact absurd hgen (by simp)

theorem frame_lambda (ty : WType) (ps : List TypedParameter) (body : TExpr) :
    GenIH (.Lambda ty ps body) := by
  intro p cf cb p' rf rb rs hcf hcb hgen
  rw [gen_expr.eq_def] at hgen
  simp only [] at hgen
  exact absurd hgen (by simp)

theorem frame_other (ty : WType) (d : String) : GenIH (.OtherKind ty d) := by
  intro p cf cb p' rf rb rs hcf hcb hgen
  rw [gen_expr.eq_def] at hgen
  simp only [] at hgen
  exact absurd hgen (by simp)

/-- The master frame theorem: every successful gen_expr call obeys the frame
invariant. -/
theorem gen_expr_frame (e0 : TExpr) : GenIH e0 := by
  have main : ∀ (n : Nat) (e : TExpr), sizeOf e ≤ n → GenIH e := by
    intro n
    induction n using Nat.strong_induction_on with
    | _ n ih =>
      intro e hsz
      cases e with
      | Ident ty sym => exact frame_ident ty sym
      | Literal ty lit => exact frame_literal ty lit
      | NewBuilder ty => exact frame_newbuilder ty
      | Res ty builder =>
          exact frame_res ty builder
            (ih (sizeOf builder) (by simp at hsz; omega) builder le_rfl)
      | Merge ty builder value =>
          exact frame_merge ty builder value
            (ih (sizeOf builder) (by simp at hsz; omega) builder le_rfl)
            (ih (sizeOf value) (by simp at hsz; omega) value le_rfl)
      | BinOp ty kind left right =>
          exact frame_binop ty kind left right
            (ih (sizeOf left) (by simp at hsz; omega) left le_rfl)
            (ih (sizeOf right) (by simp at hsz; omega) right le_rfl)
      | LetE ty name value body =>
          exact frame_let ty name value body
            (ih (sizeOf value) (by simp at hsz; omega) value le_rfl)
            (ih (sizeOf body) (by simp at hsz; omega) body le_rfl)
      | If ty c t f =>
          exact frame_if ty c t f
            (ih (sizeOf c) (by simp at hsz; omega) c le_rfl)
            (ih (sizeOf t) (by simp at hsz; omega) t le_rfl)
            (ih (sizeOf f) (by simp at hsz; omega) f le_rfl)
      | ForE ty nI d hs2 hen2 hst2 b fn =>
          exact frame_for ty nI d hs2 hen2 hst2 b fn
            (ih (sizeOf d) (by simp at hsz; omega) d le_rfl)
            (ih (sizeOf b) (by simp at hsz; omega) b le_rfl)
            (fun lty ps body hfn =>
              ih (sizeOf body) (by subst hfn; simp at hsz; omega) body le_rfl)
      | Lambda ty ps body => exact frame_lambda ty ps body
      | OtherKind ty d => exact frame_other ty d
  exact main (sizeOf e0) e0 le_rfl

/-! ## What the correction pass preserves -/

theorem funcGet_oob (p : SirProgram) (f : Nat) (h : p.funcs.length ≤ f) :
    funcGet p f = default := by
  show p.funcs.getD f default = default
  exact List.getD_eq_default p.funcs default h

theorem paramsMem_insertParam_self (p : SirProgram) (fid : Nat) (v : Symbol)
    (ty : WType) (h : fid < p.funcs.length) :
    mapMem (funcGet (p.insertParam fid v ty) fid).params v = true := by
  rw [show funcGet (p.insertParam fid v ty) fid
      = { funcGet p fid with params := mapInsert (funcGet p fid).params v ty } from
    funcGet_progModify_self p fid (fun fn => { fn with params := mapInsert fn.params v ty }) h]
  exact mapMem_mapInsert_self _ v ty

theorem paramsMem_insertParam_mono (p : SirProgram) (fid : Nat) (v : Symbol)
    (ty : WType) (f : Nat) (w : Symbol)
    (h : mapMem (funcGet p f).params w = true) :
    mapMem (funcGet (p.insertParam fid v ty) f).params w = true := by
  rcases eq_or_ne f fid with rfl | hne
  · rcases Nat.lt_or_ge f p.funcs.length with hlt | hge
    · rw [show funcGet (p.insertParam f v ty) f
          = { funcGet p f with params := mapInsert (funcGet p f).params v ty } from
        funcGet_progModify_self p f (fun fn => { fn with params := mapInsert fn.params v ty }) hlt]
      exact mapMem_mapInsert _ v w ty h
    · rw [show funcGet (p.insertParam f v ty) f = funcGet p f from
        funcGet_progModify_ge p f (fun fn => { fn with params := mapInsert fn.params v ty }) f hge]
      exact h
  · rw [funcGet_insertParam_ne p fid v ty f hne]
    exact h

theorem corrPresRefl (p : SirProgram) : CorrPres p p :=
  ⟨rfl, fun _ => rfl, fun _ => rfl, fun _ _ h => h⟩

theorem corrPresTrans (h1 : CorrPres p q) (h2 : CorrPres q r) : CorrPres p r :=
  ⟨h2.1.trans h1.1, fun f => (h2.2.1 f).trans (h1.2.1 f),
    fun f => (h2.2.2.1 f).trans (h1.2.2.1 f),
    fun f v h => h2.2.2.2 f v (h1.2.2.2 f v h)⟩

theorem corrPres_insertParam (p : SirProgram) (fid : Nat) (v : Symbol) (ty : WType) :
    CorrPres p (p.insertParam fid v ty) :=
  ⟨length_insertParam p fid v ty, fun f => blocks_insertParam p fid v ty f,
    fun f => locals_insertParam p fid v ty f,
    fun f w h => paramsMem_insertParam_mono p fid v ty f w h⟩

theorem corrPromoteList_pres (fid : Nat) (vars : List Symbol) :
    ∀ (p : SirProgram) (env : SymMap) (cl : SymSet) (q : SirProgram) (cl' : SymSet),
    corrPromoteList fid vars p env cl = .ok (q, cl') →
    CorrPres p q ∧ (fid < p.funcs.length → ∀ v, v ∈ cl' → v ∈ cl ∨
      mapMem (funcGet q fid).params v = true) := by
  induction vars with
  | nil =>
      intro p env cl q cl' h
      simp only [corrPromoteList, Except.ok.injEq, Prod.mk.injEq] at h
      obtain ⟨rfl, rfl⟩ := h
      exact ⟨corrPresRefl p, fun _ v hv => Or.inl hv⟩
  | cons v vs ihv =>
      intro p env cl q cl' h
      simp only [corrPromoteList] at h
      split at h
      · split at h
        · exact absurd h (by simp)
        · rename_i ty hty
          obtain ⟨hpres, hcov⟩ := ihv (p.insertParam fid v ty) env (setInsert cl v) q cl' h
          have hstep : CorrPres p (p.insertParam fid v ty) :=
            corrPres_insertParam p fid v ty
          have hlen : (p.insertParam fid v ty).funcs.length = p.funcs.length :=
            length_insertParam p fid v ty
          refine ⟨corrPresTrans hstep hpres, fun hflt w hw => ?_⟩
          rcases hcov (by omega) w hw with hin | hmem
          · by_cases hwv : w ∈ cl
            · exact Or.inl hwv
            · have hwveq : w = v := by
                by_cases hvcl : v ∈ cl
                · rw [setInsert, if_pos hvcl] at hin
                  exact absurd hin hwv
                · rw [setInsert, if_neg hvcl] at hin
                  rcases List.mem_append.mp hin with h1 | h1
                  · exact absurd h1 hwv
                  · simpa using h1
              subst hwveq
              exact Or.inr
                (hpres.2.2.2 fid w (paramsMem_insertParam_self p fid w ty hflt))
          · exact Or.inr hmem
      · obtain ⟨hpres, hcov⟩ := ihv p env cl q cl' h
        exact ⟨hpres, hcov⟩

/-- The correction pass preserves function count, blocks and locals, only
grows parameter maps, and inserts every symbol it adds to a closure set into
the corresponding function's parameters. -/
theorem corr_main (fuel : Nat) :
    (∀ (p : SirProgram) (fid : Nat) (env : SymMap) (cl : SymSet)
      (q : SirProgram) (env' : SymMap) (cl' : SymSet),
      sir_param_correction_helper fuel p fid env cl = .ok (q, env', cl') →
      CorrPres p q ∧ (∀ v, v ∈ cl' → v ∈ cl ∨
        (fid < p.funcs.length ∧ mapMem (funcGet q fid).params v = true)))
    ∧ (∀ (fid : Nat) (blks : List BasicBlock) (p : SirProgram) (env : SymMap)
      (cl : SymSet) (q : SirProgram) (env' : SymMap) (cl' : SymSet),
      corrBlocks fuel fid blks p env cl = .ok (q, env', cl') →
      CorrPres p q ∧ (fid < p.funcs.length → ∀ v, v ∈ cl' → v ∈ cl ∨
        mapMem (funcGet q fid).params v = true)) := by
  induction fuel with
  | zero =>
      constructor
      · intro p fid env cl q env' cl' h
        simp [sir_param_correction_helper] at h
      · intro fid blks p env cl q env' cl' h
        simp [corrBlocks] at h
  | succ fuel ih =>
      have ihh := ih.1
      have ihb := ih.2
      constructor
      · intro p fid env cl q env' cl' h
        simp only [sir_param_correction_helper] at h
        rcases Nat.lt_or_ge fid p.funcs.length with hlt | hge
        · obtain ⟨hpres, hcov⟩ := ihb fid _ p _ cl q env' cl' h
          exact ⟨hpres, fun v hv => (hcov hlt v hv).imp id (fun hm => ⟨hlt, hm⟩)⟩
        · rw [funcGet_oob p fid hge] at h
          cases fuel with
          | zero => simp [corrBlocks] at h
          | succ m =>
              simp only [corrBlocks, Except.ok.injEq, Prod.mk.injEq] at h
              obtain ⟨rfl, _, rfl⟩ := h
              exact ⟨corrPresRefl p, fun v hv => Or.inl hv⟩
      · intro fid blks p env cl q env' cl' h
        cases blks with
        | nil =>
            simp only [corrBlocks, Except.ok.injEq, Prod.mk.injEq] at h
            obtain ⟨rfl, _, rfl⟩ := h
            exact ⟨corrPresRefl p, fun _ v hv => Or.inl hv⟩
        | cons blk blks =>
            simp only [corrBlocks] at h
            split at h
            · exact absurd h (by simp)
            · rename_i r1 p1 cl1 hprom1
              split at h
              · exact absurd h (by simp)
              · rename_i r2 p3 env3 innerCl hinner
                split at h
                · exact absurd h (by simp)
                · rename_i r3 p4 cl4 hprom2
                  obtain ⟨hpres1, hcov1⟩ :=
                    corrPromoteList_pres fid (readVars blk.statements) p env cl p1 cl1 hprom1
                  have hpres2 : CorrPres p1 p3 := by
                    split at hinner
                    · rename_i pf hterm
                      split at hinner
                      · exact absurd hinner (by simp)
                      · rename_i r4 p2a env2a icl2a hh1
                        obtain ⟨hpa, _⟩ := ihh p1 pf.body env [] p2a env2a icl2a hh1
                        obtain ⟨hpb, _⟩ := ihh p2a pf.cont env2a icl2a p3 env3 innerCl hinner
                        exact corrPresTrans hpa hpb
                    · rename_i jf hterm
                      obtain ⟨hpa, _⟩ := ihh p1 jf env [] p3 env3 innerCl hinner
                      exact hpa
                    · simp only [Except.ok.injEq, Prod.mk.injEq] at hinner
                      obtain ⟨rfl, _, _⟩ := hinner
                      exact corrPresRefl p1
                  obtain ⟨hpres3, hcov3⟩ :=
                    corrPromoteList_pres fid innerCl p3 env3 cl1 p4 cl4 hprom2
                  obtain ⟨hpres4, hcov4⟩ := ihb fid blks p4 env3 cl4 q env' cl' h
                  have hlen1 : p1.funcs.length = p.funcs.length := hpres1.1
                  have hlen2 : p3.funcs.length = p1.funcs.length := hpres2.1
                  have hlen3 : p4.funcs.length = p3.funcs.length := hpres3.1
                  refine ⟨corrPresTrans (corrPresTrans (corrPresTrans hpres1 hpres2) hpres3) hpres4,
                    fun hflt v hv => ?_⟩
                  rcases hcov4 (by omega) v hv with hv4 | hm
                  · rcases hcov3 (by omega) v hv4 with hv1 | hm
                    · rcases hcov1 (by omega) v hv1 with hv0 | hm
                      · exact Or.inl hv0
                      · exact Or.inr ((corrPresTrans (corrPresTrans hpres2 hpres3) hpres4).2.2.2 fid v hm)
                    · exact Or.inr ((hpres4).2.2.2 fid v hm)
                  · exact Or.inr hm

theorem mapGet_isNone_of_mem (m : SymMap) (k : Symbol)
    (h : mapMem m k = true) : (mapGet m k).isNone = false := by
  simp only [mapMem, List.any_eq_true] at h
  obtain ⟨kv, hmem, hkv⟩ := h
  simp only [decide_eq_true_eq] at hkv
  have hfind : (m.find? (fun kv => kv.1 = k)).isSome = true := by
    rw [List.find?_isSome]
    exact ⟨kv, hmem, by simp [hkv]⟩
  simp only [mapGet]
  cases hf : m.find? (fun kv => kv.1 = k) with
  | none => rw [hf] at hfind; simp at hfind
  | some kv2 => simp

/-- The Unbound-symbol check at the end of sir_param_correction can never
fire: every symbol the helper puts into the closure has already been inserted
into function 0's parameters by the very promotion that recorded it. -/
theorem sir_param_correction_never_errored (p : SirProgram) :
    isErrored (sir_param_correction p) = false := by
  simp only [sir_param_correction]
  split
  · rfl
  · rfl
  · rename_i q env closure hh
    have hmain := (corr_main (corrFuel p)).1 p 0 [] [] q env closure hh
    have hnone : closure.find? (fun n => (mapGet (funcGet q 0).params n).isNone) = none := by
      rw [List.find?_eq_none]
      intro n hn
      rcases hmain.2 n hn with hfalse | ⟨_, hmem⟩
      · simp at hfalse
      · simp [mapGet_isNone_of_mem _ n hmem]
    rw [hnone]
    rfl

theorem fold_insertParam_funcs_length (ps : List TypedParameter) :
    ∀ (p : SirProgram),
    (ps.foldl (fun q tp => q.insertParam 0 tp.name tp.ty) p).funcs.length
      = p.funcs.length := by
  induction ps with
  | nil => intro p; rfl
  | cons tp tps ih =>
      intro p
      rw [List.foldl_cons, ih, length_insertParam]

theorem fold_insertParam_blocks (ps : List TypedParameter) :
    ∀ (p : SirProgram) (f : Nat),
    (funcGet (ps.foldl (fun q tp => q.insertParam 0 tp.name tp.ty) p) f).blocks
      = (funcGet p f).blocks := by
  induction ps with
  | nil => intro p f; rfl
  | cons tp tps ih =>
      intro p f
      rw [List.foldl_cons, ih, blocks_insertParam]

theorem getD_eq_getElem_of_lt (l : List α) (d : α) (i : Nat) (h : i < l.length) :
    l.getD i d = l[i] := by
  induction l generalizing i with
  | nil => simp at h
  | cons a as_ ih =>
      cases i with
      | zero => rfl
      | succ n => exact ih n (by simpa using h)

/-- A program all of whose valid coordinates hold non-crash terminators
passes the boolean allTerminated check. -/
theorem allTerminated_of_open (p : SirProgram)
    (h : ∀ f b, f < p.funcs.length → b < (funcGet p f).blocks.length →
      (blockGet p f b).terminator ≠ .Crash) : allTerminated p = true := by
  simp only [allTerminated, List.all_eq_true]
  intro fn hfn bb hbb
  obtain ⟨i, hi, hieq⟩ := List.mem_iff_getElem.mp hfn
  obtain ⟨j, hj, hjeq⟩ := List.mem_iff_getElem.mp hbb
  have hfg : funcGet p i = fn := by
    show p.funcs.getD i default = fn
    rw [getD_eq_getElem_of_lt p.funcs default i hi, hieq]
  have hbg : blockGet p i j = bb := by
    show (funcGet p i).blocks.getD j default = bb
    rw [hfg, getD_eq_getElem_of_lt fn.blocks default j hj, hjeq]
  have hterm := h i j hi (by rw [hfg]; exact hj)
  rw [hbg] at hterm
  cases hcase : bb.terminator <;> simp_all

theorem sir_param_correction_ok_helper (p q : SirProgram) (cl : SymSet)
    (h : sir_param_correction p = .ok q cl) :
    ∃ env, sir_param_correction_helper (corrFuel p) p 0 [] [] = .ok (q, env, cl) := by
  simp only [sir_param_correction] at h
  split at h
  · exact absurd h (by simp)
  · exact absurd h (by simp)
  · rename_i q0 env cl0 hh
    split at h
    · exact absurd h (by simp)
    · simp only [CorrResult.ok.injEq] at h
      obtain ⟨rfl, rfl⟩ := h
      exact ⟨env, hh⟩

theorem no_crash_from_gen (body : TExpr) (prog2 p3 : SirProgram)
    (rf rb : Nat) (rs : Symbol)
    (hlen : prog2.funcs.length = 1)
    (hblk : (funcGet prog2 0).blocks = [])
    (hgen : gen_expr body (prog2.addBlockIn 0).1 0 (prog2.addBlockIn 0).2
      = .ok (p3, rf, rb, rs)) :
    ∀ f b, f < (p3.setTerminator rf rb (.ProgramReturn rs)).funcs.length →
      b < (funcGet (p3.setTerminator rf rb (.ProgramReturn rs)) f).blocks.length →
      (blockGet (p3.setTerminator rf rb (.ProgramReturn rs)) f b).terminator
        ≠ .Crash := by
  have hsnd : (prog2.addBlockIn 0).2 = 0 := by
    rw [addBlockIn_snd, hblk]
    rfl
  rw [hsnd] at hgen
  have hlenP0 : (prog2.addBlockIn 0).1.funcs.length = 1 := by
    rw [length_addBlockIn, hlen]
  have hblkP0 : (funcGet (prog2.addBlockIn 0).1 0).blocks.length = 1 := by
    rw [blocksLen_addBlockIn_self prog2 0 (by rw [hlen]; omega), hblk]
    rfl
  have hopen0 : OpenExcept (prog2.addBlockIn 0).1 (fun fb => fb = (0, 0)) := by
    intro f b hf hb hS
    have hf0 : f = 0 := by omega
    subst hf0
    have hb0 : b = 0 := by omega
    subst hb0
    exact absurd rfl hS
  have F := gen_expr_frame body (prog2.addBlockIn 0).1 0 0 p3 rf rb rs
    (by omega) (by omega) hgen
  have O1 := F.open_transfer (fun fb => fb = (0, 0)) rfl hopen0
  have O2 : OpenExcept p3 (fun fb => fb = (rf, rb)) := by
    refine openMono p3 _ _ ?_ O1
    intro fb hfb
    rcases hfb with ⟨he, hne⟩ | he
    · exact absurd he hne
    · exact he
  have O3 := open_setTerminator p3 rf rb (Terminator.ProgramReturn rs)
    (by simp) _ O2
  intro f b hf hb
  exact O3 f b hf hb (fun hc => hc.2 hc.1)

theorem genPhase_no_crash (e : TExpr) (prog : SirProgram)
    (h : genPhase e = .ok prog) :
    ∀ f b, f < prog.funcs.length → b < (funcGet prog f).blocks.length →
      (blockGet prog f b).terminator ≠ .Crash := by
  simp only [genPhase] at h
  split at h
  · rename_i ty params body
    split at h
    · exact absurd h (by simp)
    · rename_i r p3 rf rb rs hgen
      simp only [Except.ok.injEq] at h
      subst h
      exact no_crash_from_gen body _ p3 rf rb rs
        (by rw [fold_insertParam_funcs_length]; rfl)
        (by rw [fold_insertParam_blocks]; rfl) hgen
  · exact absurd h (by simp)

/-- C2: for every typed lambda expression on which ast_to_sir succeeds, every
basic block of every function in the returned program has a terminator
different from the Crash placeholder installed by add_block. -/
theorem claimC2_terminator_totality (e : TExpr) (p : SirProgram)
    (h : ast_to_sir e = .ok p) : allTerminated p = true := by
  simp only [ast_to_sir] at h
  split at h
  · exact absurd h (by simp)
  · rename_i prog hgp
    split at h
    · exact absurd h (by simp)
    · exact absurd h (by simp)
    · exact absurd h (by simp)
    · rename_i q cl hcorr
      simp only [LowerResult.ok.injEq] at h
      rw [← h]
      obtain ⟨env, hh⟩ := sir_param_correction_ok_helper prog q cl hcorr
      have hpres := ((corr_main (corrFuel prog)).1 prog 0 [] [] q env cl hh).1
      have hnc := genPhase_no_crash e prog hgp
      refine allTerminated_of_open q (fun f b hf hb => ?_)
      have hblocks : (funcGet q f).blocks = (funcGet prog f).blocks := hpres.2.1 f
      have hterm : blockGet q f b = blockGet prog f b := by
        show (funcGet q f).blocks.getD b default = _
        rw [hblocks]
        rfl
      rw [hterm]
      have hflen : q.funcs.length = prog.funcs.length := hpres.1
      refine hnc f b (by omega) ?_
      rw [← hblocks]
      exact hb

set_option maxHeartbeats 1600000 in
/-- C1: the claimed invariant — every symbol read by any function's
statements or terminator is among that function's own parameters and locals,
and function 0's closure is empty — fails on exE1, a lambda ast_to_sir
accepts: in the lowered program function 2's Branch terminator reads x, which
is neither a parameter nor a local of function 2 (the correction pass never
scans terminator reads), and the computed closure of function 0 is [x], not
empty. -/
theorem claimC1_resolved_reads_violated :
    isOkL (ast_to_sir exE1) = true ∧
    allReadsResolved (progOf (ast_to_sir exE1)) = false ∧
    ⟨"x", 0⟩ ∈ termReads (blockGet (progOf (ast_to_sir exE1)) 2 0).terminator ∧
    mapMem (funcGet (progOf (ast_to_sir exE1)) 2).params ⟨"x", 0⟩ = false ∧
    mapMem (funcGet (progOf (ast_to_sir exE1)) 2).locals ⟨"x", 0⟩ = false ∧
    lowerClosure exE1 = [⟨"x", 0⟩] := by
  refine ⟨rfl, rfl, ?_, rfl, rfl, rfl⟩
  decide

/-- C9: the correction pass aborts by panic, not by a Weld error, when a
statement reads a symbol with no recorded type: it panics on progP9 (whose
only statement reads the undeclared w), and for no program at all does it
return an errored result — the Unbound-symbol branch is unreachable, so the
error appears only under the (never-satisfied) condition the claim states. -/
theorem claimC9_panic_not_error :
    sir_param_correction progP9 = .panicked ∧
    (∀ p : SirProgram, isErrored (sir_param_correction p) = false) :=
  ⟨by decide, sir_param_correction_never_errored⟩

/-- Closed instance of C2 at the concrete lambda ex1. -/
theorem claimC2_witness : allTerminated (progOf (ast_to_sir ex1)) = true :=
  claimC2_terminator_totality ex1 (progOf (ast_to_sir ex1)) (by rfl)

theorem localsMem_add_local_self (p : SirProgram) (ty : WType) (f : Nat)
    (h : f < p.funcs.length) :
    mapMem (funcGet (p.add_local ty f).1 f).locals (p.add_local ty f).2 = true := by
  have step : mapMem (funcGet (progModify p f (fun fn => { fn with
      locals := mapInsert fn.locals
        (p.sym_gen.new_symbol ("fn" ++ toString f ++ "_tmp")).2 ty })) f).locals
      (p.sym_gen.new_symbol ("fn" ++ toString f ++ "_tmp")).2 = true := by
    rw [funcGet_progModify_self p f _ h]
    exact mapMem_mapInsert_self _ _ _
  exact step

theorem localsMem_add_local_named_self (p : SirProgram) (ty : WType)
    (sym : Symbol) (f : Nat) (h : f < p.funcs.length) :
    mapMem (funcGet (p.add_local_named ty sym f) f).locals sym = true := by
  show mapMem (funcGet (progModify p f
    (fun fn => { fn with locals := mapInsert fn.locals sym ty })) f).locals sym = true
  rw [funcGet_progModify_self p f _ h]
  exact mapMem_mapInsert_self _ _ _

/-- C6: the lowering rejects each malformed input with its named error and
yields no program: a non-lambda root expression (malformed-root error at
ast_to_sir), a For whose iterator list is not a single iterator with null
start/end/stride (unsupported-iterator error), and an expression kind outside
the handled set (unsupported-expression error naming the construct). -/
theorem claimC6_error_rejection :
    (∀ e : TExpr, (∀ ty ps b, e ≠ .Lambda ty ps b) →
      ast_to_sir e = .errored "Expression passed to ast_to_sir was not a Lambda") ∧
    (∀ (ty : WType) (n : Nat) (data : TExpr) (hs he hst : Bool)
        (bld fn : TExpr) (p : SirProgram) (cf cb : Nat),
      (n ≠ 1 ∨ hs = true ∨ he = true ∨ hst = true) →
      gen_expr (.ForE ty n data hs he hst bld fn) p cf cb
        = .error "Only single-array loops with null start/end/stride currently supported") ∧
    (∀ (ty : WType) (d : String) (p : SirProgram) (cf cb : Nat),
      gen_expr (.OtherKind ty d) p cf cb
        = .error ("Unsupported expression: " ++ print_expr (.OtherKind ty d))) := by
  refine ⟨?_, ?_, ?_⟩
  · intro e hnl
    cases e with
    | Lambda ty ps b => exact absurd rfl (hnl ty ps b)
    | Ident ty s => rfl
    | Literal ty l => rfl
    | LetE ty n v b => rfl
    | BinOp ty k l r => rfl
    | If ty c t f => rfl
    | Merge ty b v => rfl
    | Res ty b => rfl
    | NewBuilder ty => rfl
    | ForE ty n d hs he hst b f => rfl
    | OtherKind ty d => rfl
  · intro ty n data hs he hst bld fn p cf cb h
    rw [gen_expr.eq_def]
    simp only []
    rw [if_pos h]
  · intro ty d p cf cb
    rfl

/-- Closed instance of C6: each of the three rejections at a concrete input. -/
theorem claimC6_witness :
    ast_to_sir (.OtherKind .i32 "cudf")
      = .errored "Expression passed to ast_to_sir was not a Lambda" ∧
    gen_expr (.ForE .i32 2 (.NewBuilder (.bld .i32)) false false false
        (.NewBuilder (.bld .i32)) (.NewBuilder (.bld .i32))) host5 0 0
      = .error "Only single-array loops with null start/end/stride currently supported" ∧
    gen_expr (.OtherKind .i32 "cudf") host5 0 0
      = .error ("Unsupported expression: " ++ print_expr (.OtherKind .i32 "cudf")) :=
  ⟨claimC6_error_rejection.1 (.OtherKind .i32 "cudf")
      (fun _ _ _ h => TExpr.noConfusion h),
   claimC6_error_rejection.2.1 .i32 2 (.NewBuilder (.bld .i32)) false false false
      (.NewBuilder (.bld .i32)) (.NewBuilder (.bld .i32)) host5 0 0
      (Or.inl (by decide)),
   claimC6_error_rejection.2.2 .i32 "cudf" host5 0 0⟩

/-- C7: lowering BinOp(op, L, R) lowers L completely first, then R: R only
ever appends statements after L's in the block where L finished (and touches
fresh blocks beyond it), and the lowering then mints a fresh output local in
the function where R finished and appends the binary-op statement, whose
operands are L's then R's result symbols, after R's statements there. -/
theorem claimC7_binop_order (ty : WType) (kind : BinOpKind) (left right : TExpr)
    (p : SirProgram) (cf cb : Nat)
    (p1 : SirProgram) (f1 b1 : Nat) (ls : Symbol)
    (p2 : SirProgram) (f2 b2 : Nat) (rsym : Symbol)
    (p' : SirProgram) (rf rb : Nat) (rs : Symbol)
    (hcf : cf < p.funcs.length) (hcb : cb < (funcGet p cf).blocks.length)
    (hleft : gen_expr left p cf cb = .ok (p1, f1, b1, ls))
    (hright : gen_expr right p1 f1 b1 = .ok (p2, f2, b2, rsym))
    (hgen : gen_expr (.BinOp ty kind left right) p cf cb = .ok (p', rf, rb, rs)) :
    rf = f2 ∧ rb = b2 ∧ rs = (p2.add_local ty f2).2 ∧
    (∃ ext, (blockGet p2 f1 b1).statements
      = (blockGet p1 f1 b1).statements ++ ext) ∧
    (blockGet p' f2 b2).statements
      = (blockGet p2 f2 b2).statements ++ [.AssignBinOp rs kind left.ty ls rsym] ∧
    mapMem (funcGet p' f2).locals rs = true := by
  have F1 : GenFrame p p1 cf cb f1 b1 :=
    gen_expr_frame left p cf cb p1 f1 b1 ls hcf hcb hleft
  have F2 : GenFrame p1 p2 f1 b1 f2 b2 :=
    gen_expr_frame right p1 f1 b1 p2 f2 b2 rsym F1.rf_lt F1.rb_lt hright
  have hf2 : f2 < p2.funcs.length := F2.rf_lt
  have hb2 : b2 < (funcGet p2 f2).blocks.length := F2.rb_lt
  simp only [gen_expr] at hgen
  rw [hleft] at hgen
  simp only [] at hgen
  rw [hright] at hgen
  simp only [Except.ok.injEq, Prod.mk.injEq] at hgen
  obtain ⟨rfl, rfl, rfl, rfl⟩ := hgen
  have hf2a : f2 < (p2.add_local ty f2).1.funcs.length := by
    rw [length_add_local]
    exact hf2
  have hb2a : b2 < (funcGet (p2.add_local ty f2).1 f2).blocks.length := by
    rw [show (funcGet (p2.add_local ty f2).1 f2).blocks = (funcGet p2 f2).blocks
      from blocks_add_local p2 ty f2 f2]
    exact hb2
  refine ⟨rfl, rfl, rfl, F2.stmts_cb, ?_, ?_⟩
  · rw [show blockGet ((p2.add_local ty f2).1.add_statement f2 b2
        (.AssignBinOp (p2.add_local ty f2).2 kind left.ty ls rsym)) f2 b2
      = { blockGet (p2.add_local ty f2).1 f2 b2 with
          statements := (blockGet (p2.add_local ty f2).1 f2 b2).statements
            ++ [.AssignBinOp (p2.add_local ty f2).2 kind left.ty ls rsym] }
      from blockGet_add_statement_self _ f2 b2 _ hf2a hb2a]
    rw [show blockGet (p2.add_local ty f2).1 f2 b2 = blockGet p2 f2 b2 from
      blockGet_add_local p2 ty f2 f2 b2]
  · have h1 : mapMem (funcGet (p2.add_local ty f2).1 f2).locals
        (p2.add_local ty f2).2 = true := localsMem_add_local_self p2 ty f2 hf2
    rw [show (funcGet ((p2.add_local ty f2).1.add_statement f2 b2
        (.AssignBinOp (p2.add_local ty f2).2 kind left.ty ls rsym)) f2).locals
      = (funcGet (p2.add_local ty f2).1 f2).locals from
      locals_add_statement _ f2 b2 _ f2]
    exact h1

/-- Closed instance of C7 at x + 1 lowered inside host5. -/
theorem claimC7_witness :
    (0 : Nat) = 0 ∧ (0 : Nat) = 0 ∧ ex7RS = (ex7P2.add_local .i32 0).2 ∧
    (∃ ext, (blockGet ex7P2 0 0).statements
      = (blockGet host5 0 0).statements ++ ext) ∧
    (blockGet ex7P3 0 0).statements
      = (blockGet ex7P2 0 0).statements
        ++ [.AssignBinOp ex7RS .Add ex7L.ty ⟨"x", 0⟩ ex7S2] ∧
    mapMem (funcGet ex7P3 0).locals ex7RS = true :=
  claimC7_binop_order .i32 .Add ex7L ex7R host5 0 0 host5 0 0 ⟨"x", 0⟩
    ex7P2 0 0 ex7S2 ex7P3 0 0 ex7RS (by decide) (by decide)
    (by rfl) (by rfl) (by rfl)

set_option maxHeartbeats 1600000 in
/-- C3: when gen_expr lowers an If whose pieces lower as in the hypotheses
(condition from the current position, the true arm from the first fresh
block, the false arm from the second), the shared result local rs — the
symbol both arms assign into — is the local minted by add_local, and it is
registered among the locals of false-arm exit function ff in the final
program (add_local places it in tf's table, which equals ff's in the
same-function case, and add_local_named re-registers it in ff's in the
split case). -/
theorem claimC3_if_result_local (ty : WType) (cond on_true on_false : TExpr)
    (p : SirProgram) (cf0 cb0 : Nat)
    (p1 : SirProgram) (cf cb : Nat) (cond_sym : Symbol)
    (p3 : SirProgram) (tf tb : Nat) (ts : Symbol)
    (p4 : SirProgram) (ff fb : Nat) (fs : Symbol)
    (p' : SirProgram) (rf rb : Nat) (rs : Symbol)
    (hcf : cf0 < p.funcs.length) (hcb : cb0 < (funcGet p cf0).blocks.length)
    (hcond : gen_expr cond p cf0 cb0 = .ok (p1, cf, cb, cond_sym))
    (htrue : gen_expr on_true
      (((p1.addBlockIn cf).1.addBlockIn cf).1.setTerminator cf cb
        (.Branch cond_sym (p1.addBlockIn cf).2
          ((p1.addBlockIn cf).1.addBlockIn cf).2))
      cf (p1.addBlockIn cf).2 = .ok (p3, tf, tb, ts))
    (hfalse : gen_expr on_false p3 cf ((p1.addBlockIn cf).1.addBlockIn cf).2
      = .ok (p4, ff, fb, fs))
    (hgen : gen_expr (.If ty cond on_true on_false) p cf0 cb0
      = .ok (p', rf, rb, rs)) :
    rs = (p4.add_local ty tf).2 ∧
    mapMem (funcGet p' ff).locals rs = true := by
  simp only [gen_expr] at hgen
  rw [hcond] at hgen
  simp only [] at hgen
  rw [htrue] at hgen
  simp only [] at hgen
  rw [hfalse] at hgen
  simp only [] at hgen
  set tb0 := (p1.addBlockIn cf).2 with htb0def
  set pT := (p1.addBlockIn cf).1 with hpTdef
  set fb0 := (pT.addBlockIn cf).2 with hfb0def
  set pF := (pT.addBlockIn cf).1 with hpFdef
  set p2 := pF.setTerminator cf cb (Terminator.Branch cond_sym tb0 fb0) with hp2def
  set res := (p4.add_local ty tf).2 with hresdef
  set p5 := (p4.add_local ty tf).1 with hp5def
  set p6 := p5.add_statement tf tb (Statement.Assign res ts) with hp6def
  set p7 := p6.add_statement ff fb (Statement.Assign res fs) with hp7def
  have F1 : GenFrame p p1 cf0 cb0 cf cb :=
    gen_expr_frame cond p cf0 cb0 p1 cf cb cond_sym hcf hcb hcond
  have hf1 : cf < p1.funcs.length := F1.rf_lt
  have hb1 : cb < (funcGet p1 cf).blocks.length := F1.rb_lt
  have hLpT : pT.funcs.length = p1.funcs.length := by
    rw [hpTdef, length_addBlockIn]
  have hLpF : pF.funcs.length = pT.funcs.length := by
    rw [hpFdef, length_addBlockIn]
  have hLp2 : p2.funcs.length = pF.funcs.length := by
    rw [hp2def, length_setTerminator]
  have htbv : tb0 = (funcGet p1 cf).blocks.length := by
    rw [htb0def, addBlockIn_snd]
  have hBpT : (funcGet pT cf).blocks.length = (funcGet p1 cf).blocks.length + 1 := by
    rw [hpTdef]
    exact blocksLen_addBlockIn_self p1 cf hf1
  have hfbv : fb0 = (funcGet pT cf).blocks.length := by
    rw [hfb0def, addBlockIn_snd]
  have hBpF : (funcGet pF cf).blocks.length = (funcGet pT cf).blocks.length + 1 := by
    rw [hpFdef]
    exact blocksLen_addBlockIn_self pT cf (by omega)
  have hBp2 : (funcGet p2 cf).blocks.length = (funcGet pF cf).blocks.length := by
    rw [hp2def, blocksLen_setTerminator]
  have hf1p2 : cf < p2.funcs.length := by omega
  have htbp2 : tb0 < (funcGet p2 cf).blocks.length := by omega
  have F2 : GenFrame p2 p3 cf tb0 tf tb :=
    gen_expr_frame on_true p2 cf tb0 p3 tf tb ts hf1p2 htbp2 htrue
  have hLp3 : p2.funcs.length ≤ p3.funcs.length := F2.funcs_le
  have hf1p3 : cf < p3.funcs.length := by omega
  have hBL2 : (funcGet p2 cf).blocks.length ≤ (funcGet p3 cf).blocks.length :=
    F2.blocksLenLe cf hf1p2
  have hfbkp3 : fb0 < (funcGet p3 cf).blocks.length := by omega
  have F3 : GenFrame p3 p4 cf fb0 ff fb :=
    gen_expr_frame on_false p3 cf fb0 p4 ff fb fs hf1p3 hfbkp3 hfalse
  have htfp3 : tf < p3.funcs.length := F2.rf_lt
  have hLp4 : p3.funcs.length ≤ p4.funcs.length := F3.funcs_le
  have htfp4 : tf < p4.funcs.length := by omega
  have hffp4 : ff < p4.funcs.length := F3.rf_lt
  have hLp5 : p5.funcs.length = p4.funcs.length := by
    rw [hp5def, length_add_local]
  have hLp6 : p6.funcs.length = p5.funcs.length := by
    rw [hp6def, length_add_statement]
  have hLp7 : p7.funcs.length = p6.funcs.length := by
    rw [hp7def, length_add_statement]
  split at hgen
  · simp only [Except.ok.injEq, Prod.mk.injEq] at hgen
    obtain ⟨rfl, rfl, rfl, rfl⟩ := hgen
    refine ⟨hresdef, ?_⟩
    have hffp7 : ff < p7.funcs.length := by omega
    have hffp8 : ff < (p7.add_local_named ty res ff).funcs.length := by
      rw [length_add_local_named]
      exact hffp7
    rw [locals_setTerminator, locals_setTerminator, locals_addBlockIn,
      funcGet_add_func_lt _ ff hffp8]
    exact localsMem_add_local_named_self p7 ty res ff hffp7
  · rename_i hcnd
    simp only [Except.ok.injEq, Prod.mk.injEq] at hgen
    obtain ⟨rfl, rfl, rfl, rfl⟩ := hgen
    refine ⟨hresdef, ?_⟩
    have htfe : tf = cf := by
      by_contra hne
      exact hcnd (Or.inl hne)
    have hffe : ff = cf := by
      by_contra hne
      exact hcnd (Or.inr hne)
    have hfftf : ff = tf := by rw [hffe, htfe]
    rw [locals_setTerminator, locals_setTerminator, locals_addBlockIn, hp7def,
      locals_add_statement, hp6def, locals_add_statement, hfftf, hp5def, hresdef]
    exact localsMem_add_local_self p4 ty tf htfp4

set_option maxHeartbeats 1600000 in
/-- C4: for an If whose pieces lower as in the hypotheses, when both arms
finish in the branch-holding function cf, gen_expr adds exactly one new
block to cf (the join), terminates both arm-exit blocks with a same-function
JumpBlock to it and returns it with the shared result symbol; when an arm
finishes elsewhere, it adds exactly one new continuation function (one entry
block), terminates both arm-exit blocks with JumpFunction into it and
returns its entry with the shared result symbol. -/
theorem claimC4_if_join (ty : WType) (cond on_true on_false : TExpr)
    (p : SirProgram) (cf0 cb0 : Nat)
    (p1 : SirProgram) (cf cb : Nat) (cond_sym : Symbol)
    (p3 : SirProgram) (tf tb : Nat) (ts : Symbol)
    (p4 : SirProgram) (ff fb : Nat) (fs : Symbol)
    (p' : SirProgram) (rf rb : Nat) (rs : Symbol)
    (hcf : cf0 < p.funcs.length) (hcb : cb0 < (funcGet p cf0).blocks.length)
    (hcond : gen_expr cond p cf0 cb0 = .ok (p1, cf, cb, cond_sym))
    (htrue : gen_expr on_true
      (((p1.addBlockIn cf).1.addBlockIn cf).1.setTerminator cf cb
        (.Branch cond_sym (p1.addBlockIn cf).2
          ((p1.addBlockIn cf).1.addBlockIn cf).2))
      cf (p1.addBlockIn cf).2 = .ok (p3, tf, tb, ts))
    (hfalse : gen_expr on_false p3 cf ((p1.addBlockIn cf).1.addBlockIn cf).2
      = .ok (p4, ff, fb, fs))
    (hgen : gen_expr (.If ty cond on_true on_false) p cf0 cb0
      = .ok (p', rf, rb, rs)) :
    rs = (p4.add_local ty tf).2 ∧
    ((tf = cf ∧ ff = cf) →
      rf = cf ∧ rb = (funcGet p4 cf).blocks.length ∧
      p'.funcs.length = p4.funcs.length ∧
      (funcGet p' cf).blocks.length = (funcGet p4 cf).blocks.length + 1 ∧
      (blockGet p' tf tb).terminator = .JumpBlock rb ∧
      (blockGet p' ff fb).terminator = .JumpBlock rb) ∧
    (¬(tf = cf ∧ ff = cf) →
      rf = p4.funcs.length ∧ rb = 0 ∧
      p'.funcs.length = p4.funcs.length + 1 ∧
      (funcGet p' rf).blocks.length = 1 ∧
      (blockGet p' tf tb).terminator = .JumpFunction rf ∧
      (blockGet p' ff fb).terminator = .JumpFunction rf) := by
  simp only [gen_expr] at hgen
  rw [hcond] at hgen
  simp only [] at hgen
  rw [htrue] at hgen
  simp only [] at hgen
  rw [hfalse] at hgen
  simp only [] at hgen
  set tb0 := (p1.addBlockIn cf).2 with htb0def
  set pT := (p1.addBlockIn cf).1 with hpTdef
  set fb0 := (pT.addBlockIn cf).2 with hfb0def
  set pF := (pT.addBlockIn cf).1 with hpFdef
  set p2 := pF.setTerminator cf cb (Terminator.Branch cond_sym tb0 fb0) with hp2def
  set res := (p4.add_local ty tf).2 with hresdef
  set p5 := (p4.add_local ty tf).1 with hp5def
  set p6 := p5.add_statement tf tb (Statement.Assign res ts) with hp6def
  set p7 := p6.add_statement ff fb (Statement.Assign res fs) with hp7def
  have F1 : GenFrame p p1 cf0 cb0 cf cb :=
    gen_expr_frame cond p cf0 cb0 p1 cf cb cond_sym hcf hcb hcond
  have hf1 : cf < p1.funcs.length := F1.rf_lt
  have hb1 : cb < (funcGet p1 cf).blocks.length := F1.rb_lt
  have hLpT : pT.funcs.length = p1.funcs.length := by
    rw [hpTdef, length_addBlockIn]
  have hLpF : pF.funcs.length = pT.funcs.length := by
    rw [hpFdef, length_addBlockIn]
  have hLp2 : p2.funcs.length = pF.funcs.length := by
    rw [hp2def, length_setTerminator]
  have htbv : tb0 = (funcGet p1 cf).blocks.length := by
    rw [htb0def, addBlockIn_snd]
  have hBpT : (funcGet pT cf).blocks.length = (funcGet p1 cf).blocks.length + 1 := by
    rw [hpTdef]
    exact blocksLen_addBlockIn_self p1 cf hf1
  have hfbv : fb0 = (funcGet pT cf).blocks.length := by
    rw [hfb0def, addBlockIn_snd]
  have hBpF : (funcGet pF cf).blocks.length = (funcGet pT cf).blocks.length + 1 := by
    rw [hpFdef]
    exact blocksLen_addBlockIn_self pT cf (by omega)
  have hBp2 : (funcGet p2 cf).blocks.length = (funcGet pF cf).blocks.length := by
    rw [hp2def, blocksLen_setTerminator]
  have hf1p2 : cf < p2.funcs.length := by omega
  have htbp2 : tb0 < (funcGet p2 cf).blocks.length := by omega
  have F2 : GenFrame p2 p3 cf tb0 tf tb :=
    gen_expr_frame on_true p2 cf tb0 p3 tf tb ts hf1p2 htbp2 htrue
  have hLp3 : p2.funcs.length ≤ p3.funcs.length := F2.funcs_le
  have hf1p3 : cf < p3.funcs.length := by omega
  have hBL2 : (funcGet p2 cf).blocks.length ≤ (funcGet p3 cf).blocks.length :=
    F2.blocksLenLe cf hf1p2
  have hfbkp3 : fb0 < (funcGet p3 cf).blocks.length := by omega
  have F3 : GenFrame p3 p4 cf fb0 ff fb :=
    gen_expr_frame on_false p3 cf fb0 p4 ff fb fs hf1p3 hfbkp3 hfalse
  have htfp3 : tf < p3.funcs.length := F2.rf_lt
  have htbp3 : tb < (funcGet p3 tf).blocks.length := F2.rb_lt
  have hLp4 : p3.funcs.length ≤ p4.funcs.length := F3.funcs_le
  have htfp4 : tf < p4.funcs.length := by omega
  have hffp4 : ff < p4.funcs.length := F3.rf_lt
  have hfbp4 : fb < (funcGet p4 ff).blocks.length := F3.rb_lt
  have htbp4 : tb < (funcGet p4 tf).blocks.length :=
    Nat.lt_of_lt_of_le htbp3 (F3.blocksLenLe tf htfp3)
  have hLp5 : p5.funcs.length = p4.funcs.length := by
    rw [hp5def, length_add_local]
  have hLp6 : p6.funcs.length = p5.funcs.length := by
    rw [hp6def, length_add_statement]
  have hLp7 : p7.funcs.length = p6.funcs.length := by
    rw [hp7def, length_add_statement]
  have hBp5 : ∀ g, (funcGet p5 g).blocks = (funcGet p4 g).blocks := by
    intro g
    rw [hp5def]
    exact blocks_add_local p4 ty tf g
  have hBp6 : ∀ g, (funcGet p6 g).blocks.length = (funcGet p5 g).blocks.length := by
    intro g
    rw [hp6def, blocksLen_add_statement]
  have hBp7 : ∀ g, (funcGet p7 g).blocks.length = (funcGet p6 g).blocks.length := by
    intro g
    rw [hp7def, blocksLen_add_statement]
  split at hgen
  · rename_i hcnd
    simp only [Except.ok.injEq, Prod.mk.injEq] at hgen
    obtain ⟨rfl, rfl, rfl, rfl⟩ := hgen
    set p8 := p7.add_local_named ty res ff with hp8def
    have hLp8 : p8.funcs.length = p7.funcs.length := by
      rw [hp8def, length_add_local_named]
    have hBp8 : ∀ g, (funcGet p8 g).blocks = (funcGet p7 g).blocks := by
      intro g
      rw [hp8def]
      exact blocks_add_local_named p7 ty res ff g
    have htfp9 : tf < ((p8.add_func).1.addBlockIn (p8.add_func).2).1.funcs.length := by
      rw [length_addBlockIn, add_func_length]
      omega
    have htbp9 : tb < (funcGet ((p8.add_func).1.addBlockIn
        (p8.add_func).2).1 tf).blocks.length := by
      rw [add_func_snd, blocksLen_addBlockIn_ne _ _ tf (by omega),
        funcGet_add_func_lt _ tf (by omega), hBp8, hBp7, hBp6, hBp5]
      omega
    have hffp9 : ff < ((p8.add_func).1.addBlockIn (p8.add_func).2).1.funcs.length := by
      rw [length_addBlockIn, add_func_length]
      omega
    have hfbp9 : fb < (funcGet ((p8.add_func).1.addBlockIn
        (p8.add_func).2).1 ff).blocks.length := by
      rw [add_func_snd, blocksLen_addBlockIn_ne _ _ ff (by omega),
        funcGet_add_func_lt _ ff (by omega), hBp8, hBp7, hBp6, hBp5]
      omega
    refine ⟨hresdef,
      fun hcc => (hcnd.elim (fun h => h hcc.1) (fun h => h hcc.2)).elim,
      fun _ => ⟨?_, ?_, ?_, ?_, ?_, ?_⟩⟩
    · rw [add_func_snd]
      omega
    · rw [addBlockIn_snd, add_func_snd, funcGet_add_func_new]
      rfl
    · rw [length_setTerminator, length_setTerminator, length_addBlockIn,
        add_func_length]
      omega
    · rw [blocksLen_setTerminator, blocksLen_setTerminator, add_func_snd,
        blocksLen_addBlockIn_self _ _ (by rw [add_func_length]; omega),
        funcGet_add_func_new]
      rfl
    · rcases Decidable.em (ff = tf ∧ fb = tb) with hsame | hdiff
      · obtain ⟨rfl, rfl⟩ := hsame
        rw [show blockGet ((((p8.add_func).1.addBlockIn
            (p8.add_func).2).1.setTerminator ff fb
            (Terminator.JumpFunction (p8.add_func).2)).setTerminator ff fb
            (Terminator.JumpFunction (p8.add_func).2)) ff fb
          = { blockGet (((p8.add_func).1.addBlockIn
              (p8.add_func).2).1.setTerminator ff fb
              (Terminator.JumpFunction (p8.add_func).2)) ff fb with
              terminator := Terminator.JumpFunction (p8.add_func).2 } from
          blockGet_setTerminator_self _ ff fb _
            (by rw [length_setTerminator]; exact hffp9)
            (by rw [blocksLen_setTerminator]; exact hfbp9)]
      · rw [blockGet_setTerminator_ne _ ff fb _ tf tb
          (fun hc => hdiff ⟨hc.1.symm, hc.2.symm⟩),
          show blockGet (((p8.add_func).1.addBlockIn
            (p8.add_func).2).1.setTerminator tf tb
            (Terminator.JumpFunction (p8.add_func).2)) tf tb
          = { blockGet ((p8.add_func).1.addBlockIn (p8.add_func).2).1 tf tb with
              terminator := Terminator.JumpFunction (p8.add_func).2 } from
          blockGet_setTerminator_self _ tf tb _ htfp9 htbp9]
    · rw [show blockGet ((((p8.add_func).1.addBlockIn
          (p8.add_func).2).1.setTerminator tf tb
          (Terminator.JumpFunction (p8.add_func).2)).setTerminator ff fb
          (Terminator.JumpFunction (p8.add_func).2)) ff fb
        = { blockGet (((p8.add_func).1.addBlockIn
            (p8.add_func).2).1.setTerminator tf tb
            (Terminator.JumpFunction (p8.add_func).2)) ff fb with
            terminator := Terminator.JumpFunction (p8.add_func).2 } from
        blockGet_setTerminator_self _ ff fb _
          (by rw [length_setTerminator]; exact hffp9)
          (by rw [blocksLen_setTerminator]; exact hfbp9)]
  · rename_i hcnd
    simp only [Except.ok.injEq, Prod.mk.injEq] at hgen
    obtain ⟨rfl, rfl, rfl, rfl⟩ := hgen
    have htfe : tf = cf := by
      by_contra hne
      exact hcnd (Or.inl hne)
    have hffe : ff = cf := by
      by_contra hne
      exact hcnd (Or.inr hne)
    have hcfp7 : cf < p7.funcs.length := by omega
    have hrbv : (p7.addBlockIn cf).2 = (funcGet p4 cf).blocks.length := by
      rw [addBlockIn_snd, hBp7, hBp6, hBp5]
    have htbp8 : tb < (funcGet (p7.addBlockIn cf).1 tf).blocks.length := by
      have h1 : (funcGet (p7.addBlockIn cf).1 tf).blocks.length
          = (funcGet p7 tf).blocks.length + (if tf = cf then 1 else 0) := by
        rcases eq_or_ne tf cf with he | hne
        · rw [he, if_pos rfl, blocksLen_addBlockIn_self p7 cf hcfp7]
        · rw [if_neg hne, blocksLen_addBlockIn_ne p7 cf tf hne]
          omega
      rw [h1, hBp7, hBp6, hBp5]
      split <;> omega
    have hfbp8 : fb < (funcGet (p7.addBlockIn cf).1 ff).blocks.length := by
      have h1 : (funcGet (p7.addBlockIn cf).1 ff).blocks.length
          = (funcGet p7 ff).blocks.length + (if ff = cf then 1 else 0) := by
        rcases eq_or_ne ff cf with he | hne
        · rw [he, if_pos rfl, blocksLen_addBlockIn_self p7 cf hcfp7]
        · rw [if_neg hne, blocksLen_addBlockIn_ne p7 cf ff hne]
          omega
      rw [h1, hBp7, hBp6, hBp5]
      split <;> omega
    refine ⟨hresdef, fun _ => ⟨rfl, hrbv, ?_, ?_, ?_, ?_⟩,
      fun hnc => (hnc ⟨htfe, hffe⟩).elim⟩
    · rw [length_setTerminator, length_setTerminator, length_addBlockIn]
      omega
    · rw [blocksLen_setTerminator, blocksLen_setTerminator,
        blocksLen_addBlockIn_self p7 cf hcfp7, hBp7, hBp6, hBp5]
    · rcases Decidable.em (ff = tf ∧ fb = tb) with hsame | hdiff
      · obtain ⟨rfl, rfl⟩ := hsame
        rw [show blockGet (((p7.addBlockIn cf).1.setTerminator ff fb
            (Terminator.JumpBlock (p7.addBlockIn cf).2)).setTerminator ff fb
            (Terminator.JumpBlock (p7.addBlockIn cf).2)) ff fb
          = { blockGet ((p7.addBlockIn cf).1.setTerminator ff fb
              (Terminator.JumpBlock (p7.addBlockIn cf).2)) ff fb with
              terminator := Terminator.JumpBlock (p7.addBlockIn cf).2 } from
          blockGet_setTerminator_self _ ff fb _
            (by rw [length_setTerminator, length_addBlockIn]; omega)
            (by rw [blocksLen_setTerminator]; exact hfbp8)]
      · rw [blockGet_setTerminator_ne _ ff fb _ tf tb
          (fun hc => hdiff ⟨hc.1.symm, hc.2.symm⟩),
          show blockGet ((p7.addBlockIn cf).1.setTerminator tf tb
            (Terminator.JumpBlock (p7.addBlockIn cf).2)) tf tb
          = { blockGet (p7.addBlockIn cf).1 tf tb with
              terminator := Terminator.JumpBlock (p7.addBlockIn cf).2 } from
          blockGet_setTerminator_self _ tf tb _
            (by rw [length_addBlockIn]; omega) htbp8]
    · rw [show blockGet (((p7.addBlockIn cf).1.setTerminator tf tb
          (Terminator.JumpBlock (p7.addBlockIn cf).2)).setTerminator ff fb
          (Terminator.JumpBlock (p7.addBlockIn cf).2)) ff fb
        = { blockGet ((p7.addBlockIn cf).1.setTerminator tf tb
            (Terminator.JumpBlock (p7.addBlockIn cf).2)) ff fb with
            terminator := Terminator.JumpBlock (p7.addBlockIn cf).2 } from
        blockGet_setTerminator_self _ ff fb _
          (by rw [length_setTerminator, length_addBlockIn]; omega)
          (by rw [blocksLen_setTerminator]; exact hfbp8)]

/-- Closed instance of C3 at exIfC lowered inside host5. -/
theorem claimC3_witness :
    exIfRS = (exIfP2.add_local .i32 0).2 ∧
    mapMem (funcGet exIfP3 0).locals exIfRS = true :=
  claimC3_if_result_local .i32 (.Ident .i32 ⟨"c", 0⟩) (.Ident .i32 ⟨"a", 0⟩)
    (.Ident .i32 ⟨"d", 0⟩) host5 0 0 host5 0 0 ⟨"c", 0⟩
    exIfP2 0 1 ⟨"a", 0⟩ exIfP2 0 2 ⟨"d", 0⟩ exIfP3 0 3 exIfRS
    (by decide) (by decide) (by rfl) (by rfl) (by rfl) (by rfl)

/-- Closed instance of C4 (same-function join) at exIfC inside host5. -/
theorem claimC4_witness :
    (exIfRS = (exIfP2.add_local .i32 0).2 ∧ (0 : Nat) = 0 ∧
      (3 : Nat) = (funcGet exIfP2 0).blocks.length) ∧
    exIfP3.funcs.length = exIfP2.funcs.length ∧
    (funcGet exIfP3 0).blocks.length = (funcGet exIfP2 0).blocks.length + 1 ∧
    (blockGet exIfP3 0 1).terminator = .JumpBlock 3 ∧
    (blockGet exIfP3 0 2).terminator = .JumpBlock 3 :=
  have h := claimC4_if_join .i32 (.Ident .i32 ⟨"c", 0⟩) (.Ident .i32 ⟨"a", 0⟩)
    (.Ident .i32 ⟨"d", 0⟩) host5 0 0 host5 0 0 ⟨"c", 0⟩
    exIfP2 0 1 ⟨"a", 0⟩ exIfP2 0 2 ⟨"d", 0⟩ exIfP3 0 3 exIfRS
    (by decide) (by decide) (by rfl) (by rfl) (by rfl) (by rfl)
  ⟨⟨h.1, (h.2.1 ⟨rfl, rfl⟩).1, (h.2.1 ⟨rfl, rfl⟩).2.1⟩,
    (h.2.1 ⟨rfl, rfl⟩).2.2.1, (h.2.1 ⟨rfl, rfl⟩).2.2.2.1,
    (h.2.1 ⟨rfl, rfl⟩).2.2.2.2.1, (h.2.1 ⟨rfl, rfl⟩).2.2.2.2.2⟩

set_option maxHeartbeats 1600000 in
/-- C5 (amended): for a For with one iterator, no start/end/stride and a
lambda body whose pieces lower as in the hypotheses, gen_expr installs on the
block where the builder lowering finished a ParallelFor terminator
referencing the data symbol, the builder symbol, the freshly created body
function (index = the function count before its creation) and a fresh
continuation function; the body function's locals INCLUDE the lambda's two
bound names (the body may add more); the end-of-function marker is installed
at the coordinates where the BODY EXPRESSION finished lowering (not
necessarily a block of the body function itself); and the call returns the
continuation function's entry block with the pre-loop builder symbol. -/
theorem claimC5_for_structure (ty0 lty : WType) (data bld body : TExpr)
    (ps : List TypedParameter)
    (p : SirProgram) (cu cb0 : Nat)
    (prog1 : SirProgram) (cf cb : Nat) (data_sym : Symbol)
    (prog2 : SirProgram) (cf2 cb2 : Nat) (builder_sym : Symbol)
    (prog6 prog7 : SirProgram) (bef beb : Nat) (bsym : Symbol)
    (p' : SirProgram) (rf rb : Nat) (rs : Symbol)
    (hcf : cu < p.funcs.length) (hcb : cb0 < (funcGet p cu).blocks.length)
    (hdata : gen_expr data p cu cb0 = .ok (prog1, cf, cb, data_sym))
    (hbld : gen_expr bld prog1 cf cb = .ok (prog2, cf2, cb2, builder_sym))
    (hp6 : prog6 = (((((prog2.add_func).1.addBlockIn
        (prog2.add_func).2).1.add_local_named (ps.getD 0 dfltParam).ty
        (ps.getD 0 dfltParam).name (prog2.add_func).2).add_local_named
        (ps.getD 1 dfltParam).ty (ps.getD 1 dfltParam).name
        (prog2.add_func).2).insertParam (prog2.add_func).2 data_sym
        data.ty).insertParam (prog2.add_func).2 builder_sym bld.ty)
    (hbody : gen_expr body prog6 (prog2.add_func).2
        ((prog2.add_func).1.addBlockIn (prog2.add_func).2).2
      = .ok (prog7, bef, beb, bsym))
    (hgen : gen_expr (.ForE ty0 1 data false false false bld
        (.Lambda lty ps body)) p cu cb0 = .ok (p', rf, rb, rs)) :
    rf = prog7.funcs.length ∧ rb = 0 ∧ rs = builder_sym ∧
    p'.funcs.length = prog7.funcs.length + 1 ∧
    (funcGet p' rf).blocks.length = 1 ∧
    (blockGet p' cf2 cb2).terminator = .ParallelFor
      ⟨data_sym, builder_sym, (ps.getD 1 dfltParam).name,
        (ps.getD 0 dfltParam).name, prog2.funcs.length, rf⟩ ∧
    mapMem (funcGet p' prog2.funcs.length).locals
      (ps.getD 0 dfltParam).name = true ∧
    mapMem (funcGet p' prog2.funcs.length).locals
      (ps.getD 1 dfltParam).name = true ∧
    (blockGet p' bef beb).terminator = .EndFunction := by
  subst hp6
  rw [gen_expr.eq_def] at hgen
  simp only [] at hgen
  split at hgen
  · exact absurd hgen (by simp)
  · rw [hdata] at hgen
    simp only [] at hgen
    rw [hbld] at hgen
    simp only [] at hgen
    rw [hbody] at hgen
    simp only [Except.ok.injEq, Prod.mk.injEq] at hgen
    obtain ⟨rfl, rfl, rfl, rfl⟩ := hgen
    set bf := prog2.add_func.2 with hbfdef
    set pA := prog2.add_func.1 with hpAdef
    set bb := (pA.addBlockIn bf).2 with hbbdef
    set pB := (pA.addBlockIn bf).1 with hpBdef
    set p3 := pB.add_local_named (ps.getD 0 dfltParam).ty
      (ps.getD 0 dfltParam).name bf with hp3def
    set p4 := p3.add_local_named (ps.getD 1 dfltParam).ty
      (ps.getD 1 dfltParam).name bf with hp4def
    set p5 := p4.insertParam bf data_sym data.ty with hp5def
    set p6 := p5.insertParam bf builder_sym bld.ty with hp6def
    set p8 := prog7.setTerminator bef beb Terminator.EndFunction with hp8def
    set cont := p8.add_func.2 with hcontdef
    set p9 := p8.add_func.1 with hp9def
    set cbC := (p9.addBlockIn cont).2 with hcbCdef
    set p10 := (p9.addBlockIn cont).1 with hp10def
    have F1 : GenFrame p prog1 cu cb0 cf cb :=
      gen_expr_frame data p cu cb0 prog1 cf cb data_sym hcf hcb hdata
    have hf1 : cf < prog1.funcs.length := F1.rf_lt
    have hb1 : cb < (funcGet prog1 cf).blocks.length := F1.rb_lt
    have F2 : GenFrame prog1 prog2 cf cb cf2 cb2 :=
      gen_expr_frame bld prog1 cf cb prog2 cf2 cb2 builder_sym hf1 hb1 hbld
    have hf2 : cf2 < prog2.funcs.length := F2.rf_lt
    have hb2 : cb2 < (funcGet prog2 cf2).blocks.length := F2.rb_lt
    have hbfv : bf = prog2.funcs.length := by
      rw [hbfdef, add_func_snd]
    have hLpA : pA.funcs.length = prog2.funcs.length + 1 := by
      rw [hpAdef, add_func_length]
    have hLpB : pB.funcs.length = pA.funcs.length := by
      rw [hpBdef, length_addBlockIn]
    have hLp3 : p3.funcs.length = pB.funcs.length := by
      rw [hp3def, length_add_local_named]
    have hLp4 : p4.funcs.length = p3.funcs.length := by
      rw [hp4def, length_add_local_named]
    have hLp5 : p5.funcs.length = p4.funcs.length := by
      rw [hp5def, length_insertParam]
    have hLp6 : p6.funcs.length = p5.funcs.length := by
      rw [hp6def, length_insertParam]
    have hBpAbf : (funcGet pA bf).blocks.length = 0 := by
      rw [hpAdef, hbfdef, add_func_snd, funcGet_add_func_new]
      rfl
    have hbbv : bb = 0 := by
      rw [hbbdef, addBlockIn_snd, hBpAbf]
    have hBpBbf : (funcGet pB bf).blocks.length = 1 := by
      rw [hpBdef, blocksLen_addBlockIn_self pA bf (by omega), hBpAbf]
    have hBp6bf : (funcGet p6 bf).blocks.length = 1 := by
      rw [hp6def, blocks_insertParam, hp5def, blocks_insertParam, hp4def,
        blocks_add_local_named, hp3def, blocks_add_local_named]
      exact hBpBbf
    have hbfp6 : bf < p6.funcs.length := by omega
    have hbbp6 : bb < (funcGet p6 bf).blocks.length := by omega
    have F3 : GenFrame p6 prog7 bf bb bef beb :=
      gen_expr_frame body p6 bf bb prog7 bef beb bsym hbfp6 hbbp6 hbody
    have hLp7 : p6.funcs.length ≤ prog7.funcs.length := F3.funcs_le
    have hbefp7 : bef < prog7.funcs.length := F3.rf_lt
    have hbebp7 : beb < (funcGet prog7 bef).blocks.length := F3.rb_lt
    have hbefge : prog2.funcs.length ≤ bef := by
      rcases F3.rf_eq_or_new with he | hge
      · rw [he, hbfv]
      · omega
    have hLp8 : p8.funcs.length = prog7.funcs.length := by
      rw [hp8def, length_setTerminator]
    have hcontv : cont = p8.funcs.length := by
      rw [hcontdef, add_func_snd]
    have hLp9 : p9.funcs.length = p8.funcs.length + 1 := by
      rw [hp9def, add_func_length]
    have hLp10 : p10.funcs.length = p9.funcs.length := by
      rw [hp10def, length_addBlockIn]
    have hbfp8 : bf < p8.funcs.length := by omega
    have hcf2p8 : cf2 < p8.funcs.length := by omega
    have hBp6cf2 : (funcGet p6 cf2).blocks.length
        = (funcGet prog2 cf2).blocks.length := by
      rw [hp6def, blocks_insertParam, hp5def, blocks_insertParam, hp4def,
        blocks_add_local_named, hp3def, blocks_add_local_named, hpBdef,
        blocksLen_addBlockIn_ne pA bf cf2 (by omega), hpAdef,
        funcGet_add_func_lt prog2 cf2 hf2]
    have hcb2p10 : cb2 < (funcGet p10 cf2).blocks.length := by
      have h7 : (funcGet p6 cf2).blocks.length
          ≤ (funcGet prog7 cf2).blocks.length := F3.blocksLenLe cf2 (by omega)
      rw [hp10def, blocksLen_addBlockIn_ne p9 cont cf2 (by omega), hp9def,
        funcGet_add_func_lt p8 cf2 hcf2p8, hp8def, blocksLen_setTerminator]
      omega
    have hcf2p10 : cf2 < p10.funcs.length := by omega
    refine ⟨?_, ?_, rfl, ?_, ?_, ?_, ?_, ?_, ?_⟩
    · rw [hcontv, hLp8]
    · rw [hcbCdef, addBlockIn_snd, hcontv, hp9def, funcGet_add_func_new]
      rfl
    · rw [length_setTerminator]
      omega
    · rw [blocksLen_setTerminator, hp10def,
        blocksLen_addBlockIn_self p9 cont (by omega), hp9def, hcontv,
        funcGet_add_func_new]
      rfl
    · rw [show blockGet (p10.setTerminator cf2 cb2 (Terminator.ParallelFor
          ⟨data_sym, builder_sym, (ps.getD 1 dfltParam).name,
            (ps.getD 0 dfltParam).name, bf, cont⟩)) cf2 cb2
        = { blockGet p10 cf2 cb2 with terminator := (Terminator.ParallelFor
            ⟨data_sym, builder_sym, (ps.getD 1 dfltParam).name,
              (ps.getD 0 dfltParam).name, bf, cont⟩) } from
        blockGet_setTerminator_self p10 cf2 cb2 _ hcf2p10 hcb2p10, hbfv]
    · rw [locals_setTerminator, hp10def, locals_addBlockIn, hp9def,
        funcGet_add_func_lt p8 prog2.funcs.length (by omega), hp8def,
        locals_setTerminator]
      refine F3.localsMem prog2.funcs.length (by omega) _ ?_
      rw [hp6def, locals_insertParam, hp5def, locals_insertParam, ← hbfv]
      rw [hp4def]
      refine localsMem_add_local_named p3 _ _ bf bf _ ?_
      rw [hp3def]
      exact localsMem_add_local_named_self pB _ _ bf (by omega)
    · rw [locals_setTerminator, hp10def, locals_addBlockIn, hp9def,
        funcGet_add_func_lt p8 prog2.funcs.length (by omega), hp8def,
        locals_setTerminator]
      refine F3.localsMem prog2.funcs.length (by omega) _ ?_
      rw [hp6def, locals_insertParam, hp5def, locals_insertParam, ← hbfv]
      rw [hp4def]
      exact localsMem_add_local_named_self p3 _ _ bf (by omega)
    · rw [blockGet_setTerminator_ne p10 cf2 cb2 _ bef beb
        (fun hc => by omega), hp10def,
        blockGet_addBlockIn_old p9 cont bef beb (by
          rw [hp9def, funcGet_add_func_lt p8 bef (by omega), hp8def,
            blocksLen_setTerminator]
          exact hbebp7), hp9def,
        blockGet_add_func p8 bef beb (by omega), hp8def,
        show blockGet (prog7.setTerminator bef beb Terminator.EndFunction)
            bef beb
          = { blockGet prog7 bef beb with
              terminator := Terminator.EndFunction } from
        blockGet_setTerminator_self prog7 bef beb _ hbefp7 hbebp7]

set_option maxHeartbeats 1600000 in
/-- C5 counterexample: lowering exFor5 (a loop whose body declares a let
binding and runs a nested loop) in host5 succeeds, and the outer loop's body
function (function 1) has u among its locals — beyond the two lambda-bound
names — and its final (only) block ends in the nested loop's ParallelFor,
not in the end-of-function marker: the marker landed in the nested loop's
continuation function instead. -/
theorem claimC5_counterexample :
    isOkE (gen_expr exFor5 host5 0 0) = true ∧
    (blockGet exFor5Q 0 0).terminator = .ParallelFor
      ⟨⟨"v", 0⟩, ⟨"fn0_tmp", 0⟩, ⟨"e2", 0⟩, ⟨"b2", 0⟩, 1, 4⟩ ∧
    mapMem (funcGet exFor5Q 1).locals ⟨"u", 0⟩ = true ∧
    (funcGet exFor5Q 1).blocks.length = 1 ∧
    (blockGet exFor5Q 1 0).terminator ≠ .EndFunction := by decide

/-- Closed instance of C5 (amended) at exC5 lowered inside host5. -/
theorem claimC5_witness :
    (2 : Nat) = exC5P7.funcs.length ∧ (0 : Nat) = 0 ∧ exC5RS = exC5BS ∧
    exC5Q.funcs.length = exC5P7.funcs.length + 1 ∧
    (funcGet exC5Q 2).blocks.length = 1 ∧
    (blockGet exC5Q 0 0).terminator = .ParallelFor
      ⟨⟨"v", 0⟩, exC5BS, ⟨"e", 0⟩, ⟨"b", 0⟩, exC5PB.funcs.length, 2⟩ ∧
    mapMem (funcGet exC5Q exC5PB.funcs.length).locals ⟨"b", 0⟩ = true ∧
    mapMem (funcGet exC5Q exC5PB.funcs.length).locals ⟨"e", 0⟩ = true ∧
    (blockGet exC5Q 1 0).terminator = .EndFunction :=
  claimC5_for_structure (.bld .i32) (.bld .i32)
    (.Ident (.vec .i32) ⟨"v", 0⟩) (.NewBuilder (.bld .i32)) exC5Body psC5
    host5 0 0 host5 0 0 ⟨"v", 0⟩ exC5PB 0 0 exC5BS
    exC5P6 exC5P7 1 0 ⟨"b", 0⟩ exC5Q 2 0 exC5RS
    (by decide) (by decide) (by rfl) (by rfl) (by rfl) (by rfl) (by rfl)

theorem mapEquiv_refl (m : SymMap) : mapEquiv m m = true := by
  simp [mapEquiv]

theorem structIdentical_refl (p : SirProgram) : structIdentical p p = true := by
  simp [structIdentical, mapEquiv_refl]

/-- C8: ast_to_sir is deterministic — two successful lowerings of the same
typed expression tree (each implicitly reseeding the generator from the tree
via from_expression) yield structurally identical programs: same functions,
same parameter/local mappings, same blocks, statements and terminators. -/
theorem claimC8_deterministic (e : TExpr) (p q : SirProgram)
    (h1 : ast_to_sir e = .ok p) (h2 : ast_to_sir e = .ok q) :
    structIdentical p q = true := by
  rw [h1] at h2
  injection h2 with h
  rw [h]
  exact structIdentical_refl q

/-- Closed instance of C8 at ex1. -/
theorem claimC8_witness :
    structIdentical (progOf (ast_to_sir ex1)) (progOf (ast_to_sir ex1)) = true :=
  claimC8_deterministic ex1 (progOf (ast_to_sir ex1)) (progOf (ast_to_sir ex1))
    (by rfl) (by rfl)

theorem corrPromoteList_closure_mono (fid : Nat) (vars : List Symbol) :
    ∀ (p : SirProgram) (env : SymMap) (cl : SymSet) (q : SirProgram)
      (cl' : SymSet) (v : Symbol), v ∈ cl →
      corrPromoteList fid vars p env cl = .ok (q, cl') → v ∈ cl' := by
  induction vars with
  | nil =>
      intro p env cl q cl' v hv hrun
      simp only [corrPromoteList, Except.ok.injEq, Prod.mk.injEq] at hrun
      obtain ⟨rfl, rfl⟩ := hrun
      exact hv
  | cons a as ih =>
      intro p env cl q cl' v hv hrun
      simp only [corrPromoteList] at hrun
      split at hrun
      · split at hrun
        · exact absurd hrun (by simp)
        · exact ih _ _ _ _ _ v (mem_setInsert_of_mem cl a v hv) hrun
      · exact ih _ _ _ _ _ v hv hrun

/-- C10: the correction pass's free-variable test consults only the locals
table: any symbol read by a function's statements whose locals lack it is
(re)inserted into that function's parameters and added to the closure set —
even when it already is a parameter (first conjunct, over corrPromoteList,
the promotion loop the pass runs on every block's reads); concretely, on
exE10 the loop's pre-wired data parameter v of body function 1 (a parameter,
not a local) is re-promoted, propagated into the closure handed to function
0's visit, and kept in both functions' parameter maps (second conjunct). -/
theorem claimC10_promotion_ignores_params :
    (∀ (fid : Nat) (vars : List Symbol) (p : SirProgram) (env : SymMap)
        (cl : SymSet) (q : SirProgram) (cl' : SymSet) (v : Symbol),
      v ∈ vars → mapGet (funcGet p fid).locals v = none →
      fid < p.funcs.length →
      corrPromoteList fid vars p env cl = .ok (q, cl') →
      mapMem (funcGet q fid).params v = true ∧ v ∈ cl') ∧
    (mapMem (funcGet (genOk (genPhase exE10)) 1).params ⟨"v", 0⟩ = true ∧
     mapGet (funcGet (genOk (genPhase exE10)) 1).locals ⟨"v", 0⟩ = none ∧
     lowerClosure exE10 = [⟨"v", 0⟩] ∧
     mapMem (funcGet (progOf (ast_to_sir exE10)) 1).params ⟨"v", 0⟩ = true ∧
     mapMem (funcGet (progOf (ast_to_sir exE10)) 0).params ⟨"v", 0⟩ = true) := by
  constructor
  · intro fid vars
    induction vars with
    | nil =>
        intro p env cl q cl' v hv
        exact absurd hv (List.not_mem_nil v)
    | cons a as ih =>
        intro p env cl q cl' v hv hloc hfid hrun
        simp only [corrPromoteList] at hrun
        rcases List.mem_cons.mp hv with rfl | hvtail
        · rw [if_pos hloc] at hrun
          cases henv : mapGet env v with
          | none =>
              rw [henv] at hrun
              exact absurd hrun (by simp)
          | some tyv =>
              rw [henv] at hrun
              have hpres := corrPromoteList_pres fid as
                (p.insertParam fid v tyv) env (setInsert cl v) q cl' hrun
              refine ⟨hpres.1.2.2.2 fid v
                (paramsMem_insertParam_self p fid v tyv hfid), ?_⟩
              exact corrPromoteList_closure_mono fid as _ env _ q cl' v
                (mem_setInsert_self cl v) hrun
        · split at hrun
          · rename_i hla
            split at hrun
            · exact absurd hrun (by simp)
            · rename_i tya htya
              refine ih (p.insertParam fid a tya) env (setInsert cl a) q cl' v
                hvtail ?_ ?_ hrun
              · rw [locals_insertParam]
                exact hloc
              · rw [length_insertParam]
                exact hfid
          · exact ih p env cl q cl' v hvtail hloc hfid hrun
  · refine ⟨rfl, rfl, ?_, rfl, rfl⟩
    decide

/-- Closed instance of C10's promotion conjunct at a one-function program
with empty locals, promoting the read symbol v. -/
theorem claimC10_witness :
    mapMem (funcGet (promoteProgOf (corrPromoteList 0 [⟨"v", 0⟩] pW
      [(⟨"v", 0⟩, WType.i32)] [])) 0).params ⟨"v", 0⟩ = true ∧
    (⟨"v", 0⟩ : Symbol) ∈ promoteClosOf (corrPromoteList 0 [⟨"v", 0⟩] pW
      [(⟨"v", 0⟩, WType.i32)] []) :=
  claimC10_promotion_ignores_params.1 0 [⟨"v", 0⟩] pW [(⟨"v", 0⟩, WType.i32)] []
    (promoteProgOf (corrPromoteList 0 [⟨"v", 0⟩] pW [(⟨"v", 0⟩, WType.i32)] []))
    (promoteClosOf (corrPromoteList 0 [⟨"v", 0⟩] pW [(⟨"v", 0⟩, WType.i32)] []))
    ⟨"v", 0⟩ (by decide) (by decide) (by decide) (by rfl)

end Weld
